import Mathlib

/-!
# GRINS: factories, cable damping kernel and catalytic-wall parsing

A shallow embedding of parts of the GRINS multiphysics framework:

* `src/variables/src/variable_factory.C` (the variable factory protocol),
* `src/physics/src/elastic_cable_rayleigh_damping.C` (constructor checks and
  the stiffness-damping residual and Jacobian),
* `src/boundary_conditions/src/gas_recombination_catalytic_wall_neumann_bc_factory_impl.C`
  (reaction-string parsing).

C++ exceptions raised by `libmesh_error_msg` are values `Except.error msg`;
static and member variables are fields of an explicit state that every
operation takes and returns; null pointers are `Option.none`.
-/

namespace GRINS

/-! ## Configuration store -/

/-- The configuration store (libMesh `GetPot`) as seen through the queries
the sources make: existence check, vector size, string value with default,
indexed string value with default, real value with default. -/
structure GetPot where
  have_variable : String → Bool
  vector_variable_size : String → Nat
  string_value : String → String → String
  string_element : String → String → Nat → String
  real_value : String → ℚ → ℚ

/-- A store built from an association list, each key holding its
whitespace-separated elements; reals are looked up in a second list. -/
def GetPot.ofList (vars : List (String × List String)) (reals : List (String × ℚ)) : GetPot where
  have_variable := fun k => (vars.lookup k).isSome || (reals.lookup k).isSome
  vector_variable_size := fun k => ((vars.lookup k).getD []).length
  string_value := fun k d => ((vars.lookup k).getD []).headD d
  string_element := fun k d i => ((vars.lookup k).getD []).getD i d
  real_value := fun k d => (reals.lookup k).getD d

/-! ## Variable factory (`variable_factory.C`) -/

/-- The virtual parse hooks of one registered variable factory. -/
structure VariableFactory where
  parse_var_names : GetPot → String → Except String (List String)
  parse_fe_family_impl : GetPot → String → Except String String
  parse_fe_order_impl : GetPot → String → Except String String

/-- The static members of `VariableFactoryAbstract` (and of
`FactoryWithGetPot<FEVariablesBase>`): pointers are `Option`s. -/
structure VariableFactoryAbstract where
  _input : Option GetPot
  _var_section : String
  _var_names : Option (List String)
  _var_indices : Option (List Nat)
  _subdomain_ids : Option (List Nat)

/-- The values given to the static members at their definition
(`variable_factory.C`, lines 180-186). -/
def VariableFactoryAbstract.initial : VariableFactoryAbstract where
  _input := none
  _var_section := "DIE!"
  _var_names := none
  _var_indices := none
  _subdomain_ids := none

/-- Calls made to collaborators while a build/parse entry point runs. -/
inductive FactoryCall where
  | get_factory_subclass (name : String)
  | parse_var_names (name : String) (var_section : String)
  | parse_fe_family_impl (name : String) (var_section : String)
  | parse_fe_order_impl (name : String) (var_section : String)
  deriving DecidableEq, Repr

/-- What a build/parse entry point leaves behind: its result (or the error
it raised), the static state, and the collaborator calls it made. -/
structure Outcome (α : Type) where
  result : Except String α
  state : VariableFactoryAbstract
  calls : List FactoryCall

/-- Modelled from the spec: `FactoryWithGetPot::set_getpot` (declared in
`grins/factory_with_getpot.h`, not among the sources) stores the input handle. -/
def set_getpot (input : GetPot) (s : VariableFactoryAbstract) : VariableFactoryAbstract :=
  { s with _input := some input }

/-- Modelled from the spec: `VariableFactoryAbstract::set_var_section`
(declared in `grins/variable_factory.h`) stores the section name. -/
def set_var_section (var_section : String) (s : VariableFactoryAbstract) :
    VariableFactoryAbstract :=
  { s with _var_section := var_section }

/-- Modelled from the spec: `VariableFactoryAbstract::set_var_names`
(declared in `grins/variable_factory.h`) stores a pointer to the names. -/
def set_var_names (var_names : List String) (s : VariableFactoryAbstract) :
    VariableFactoryAbstract :=
  { s with _var_names := some var_names }

/-- Modelled from the spec: `VariableFactoryAbstract::set_var_indices`
(declared in `grins/variable_factory.h`) stores a pointer to the indices. -/
def set_var_indices (var_indices : List Nat) (s : VariableFactoryAbstract) :
    VariableFactoryAbstract :=
  { s with _var_indices := some var_indices }

/-- Modelled from the spec: `VariableFactoryAbstract::set_subdomain_ids`
(declared in `grins/variable_factory.h`) stores a pointer to the ids. -/
def set_subdomain_ids (subdomain_ids : List Nat) (s : VariableFactoryAbstract) :
    VariableFactoryAbstract :=
  { s with _subdomain_ids := some subdomain_ids }

/-- Modelled from the spec: `FactoryAbstract::get_factory_subclass` (declared
in `grins/factory_abstract.h`) looks the name up in the registry
`factory_map()` and fails with an "unknown type" error if it is absent. -/
def get_factory_subclass (factory_map : String → Option VariableFactory) (name : String) :
    Except String VariableFactory :=
  match factory_map name with
  | some factory => .ok factory
  | none => .error ("ERROR: Tried to build an unknown FactoryAbstract type: " ++ name)

/-- The message of the first check of `check_build_parse_state`. -/
def set_getpot_error : String :=
  "ERROR: Must call set_getpot() before calling VariableFactoryAbstract::build_var_names!"

/-- The message of the second check of `check_build_parse_state`. -/
def set_var_section_error : String :=
  "ERROR: Must call set_var_section() before calling VariableFactoryAbstract::build_var_names!"

/-- Function `VariableFactoryAbstract::check_build_parse_state` (lines 112-119). -/
def check_build_parse_state (s : VariableFactoryAbstract) : Except String Unit :=
  if s._input.isNone then
    .error set_getpot_error
  else if s._var_section == "DIE!" then
    .error set_var_section_error
  else
    .ok ()

/-- Function `VariableFactoryAbstract::reset_build_parse_state` (lines 121-125). -/
def reset_build_parse_state (s : VariableFactoryAbstract) : VariableFactoryAbstract :=
  { s with _input := none, _var_section := "DIE!" }

/-- Function `VariableFactoryAbstract::build_var_names` (lines 51-63): state check,
registry lookup, the virtual hook `parse_var_names` applied to `*_input` and
`_var_section`, state reset, return. Dereferencing a null `_input` is an error
of its own, which the state check makes unreachable. -/
def build_var_names (factory_map : String → Option VariableFactory) (name : String)
    (s : VariableFactoryAbstract) : Outcome (List String) :=
  match check_build_parse_state s with
  | .error e => ⟨.error e, s, []⟩
  | .ok () =>
    match get_factory_subclass factory_map name with
    | .error e => ⟨.error e, s, [.get_factory_subclass name]⟩
    | .ok factory =>
      match s._input with
      | none => ⟨.error "null input handle dereferenced", s, [.get_factory_subclass name]⟩
      | some input =>
        match factory.parse_var_names input s._var_section with
        | .error e =>
          ⟨.error e, s, [.get_factory_subclass name, .parse_var_names name s._var_section]⟩
        | .ok var_names =>
          ⟨.ok var_names, reset_build_parse_state s,
            [.get_factory_subclass name, .parse_var_names name s._var_section]⟩

/-- Function `VariableFactoryAbstract::parse_fe_family` (lines 65-77): state check,
registry lookup, the virtual hook `parse_fe_family_impl` applied to `*_input` and
`_var_section`, state reset, return. Dereferencing a null `_input` is an error
of its own, which the state check makes unreachable. -/
def parse_fe_family (factory_map : String → Option VariableFactory) (name : String)
    (s : VariableFactoryAbstract) : Outcome (String) :=
  match check_build_parse_state s with
  | .error e => ⟨.error e, s, []⟩
  | .ok () =>
    match get_factory_subclass factory_map name with
    | .error e => ⟨.error e, s, [.get_factory_subclass name]⟩
    | .ok factory =>
      match s._input with
      | none => ⟨.error "null input handle dereferenced", s, [.get_factory_subclass name]⟩
      | some input =>
        match factory.parse_fe_family_impl input s._var_section with
        | .error e =>
          ⟨.error e, s, [.get_factory_subclass name, .parse_fe_family_impl name s._var_section]⟩
        | .ok fe_family =>
          ⟨.ok fe_family, reset_build_parse_state s,
            [.get_factory_subclass name, .parse_fe_family_impl name s._var_section]⟩

/-- Function `VariableFactoryAbstract::parse_fe_order` (lines 79-91): state check,
registry lookup, the virtual hook `parse_fe_order_impl` applied to `*_input` and
`_var_section`, state reset, return. Dereferencing a null `_input` is an error
of its own, which the state check makes unreachable. -/
def parse_fe_order (factory_map : String → Option VariableFactory) (name : String)
    (s : VariableFactoryAbstract) : Outcome (String) :=
  match check_build_parse_state s with
  | .error e => ⟨.error e, s, []⟩
  | .ok () =>
    match get_factory_subclass factory_map name with
    | .error e => ⟨.error e, s, [.get_factory_subclass name]⟩
    | .ok factory =>
      match s._input with
      | none => ⟨.error "null input handle dereferenced", s, [.get_factory_subclass name]⟩
      | some input =>
        match factory.parse_fe_order_impl input s._var_section with
        | .error e =>
          ⟨.error e, s, [.get_factory_subclass name, .parse_fe_order_impl name s._var_section]⟩
        | .ok order =>
          ⟨.ok order, reset_build_parse_state s,
            [.get_factory_subclass name, .parse_fe_order_impl name s._var_section]⟩

/-- Function `VariableFactoryAbstract::check_create_state` (lines 93-103). -/
def check_create_state (s : VariableFactoryAbstract) : Except String Unit :=
  if s._var_names.isNone then
    .error "ERROR: must call set_var_names() before building FEVariablesBase!"
  else if s._var_indices.isNone then
    .error "ERROR: must call set_var_indices() before building FEVariablesBase!"
  else if s._subdomain_ids.isNone then
    .error "ERROR: must call set_subdomain_ids() before building FEVariablesBase!"
  else
    .ok ()

/-- Function `VariableFactoryAbstract::reset_create_state` (lines 105-110). -/
def reset_create_state (s : VariableFactoryAbstract) : VariableFactoryAbstract :=
  { s with _var_names := none, _var_indices := none, _subdomain_ids := none }

/-- Function `VariableFactoryAbstract::create` (lines 36-49). The virtual
`build_fe_var` of the concrete factory is the parameter; the result is paired
with the static state the call leaves. -/
def create {α : Type} (build_fe_var : List String → List Nat → List Nat → α)
    (s : VariableFactoryAbstract) : Except String α × VariableFactoryAbstract :=
  match check_create_state s with
  | .error e => (.error e, s)
  | .ok () =>
    match s._var_names, s._var_indices, s._subdomain_ids with
    | some var_names, some var_indices, some subdomain_ids =>
      (.ok (build_fe_var var_names var_indices subdomain_ids), reset_create_state s)
    | _, _, _ => (.error "null pointer dereferenced", s)

/-- All three build/parse entry points, for every registry and every name,
stop at the state check of `s`: they raise `e`, leave `s` as it is and make no
collaborator call. -/
def stops_at_state_check (s : VariableFactoryAbstract) (e : String) : Prop :=
  ∀ (factory_map : String → Option VariableFactory) (name : String),
    (build_var_names factory_map name s).result = .error e ∧
    (build_var_names factory_map name s).state = s ∧
    (build_var_names factory_map name s).calls = [] ∧
    (parse_fe_family factory_map name s).result = .error e ∧
    (parse_fe_family factory_map name s).state = s ∧
    (parse_fe_family factory_map name s).calls = [] ∧
    (parse_fe_order factory_map name s).result = .error e ∧
    (parse_fe_order factory_map name s).state = s ∧
    (parse_fe_order factory_map name s).calls = []

/-- A registry holding one factory, under the name `Velocity`, whose hooks
read the configuration. -/
def sample_factory_map : String → Option VariableFactory := fun name =>
  if name = "Velocity" then
    some ⟨fun input sec => .ok [input.string_value (sec ++ "/names") "DIE!"],
          fun input sec => .ok (input.string_value (sec ++ "/fe_family") "DIE!"),
          fun input sec => .ok (input.string_value (sec ++ "/order") "DIE!")⟩
  else none

/-- A configuration with one variable section. -/
def sample_input : GetPot :=
  GetPot.ofList [("Variables/Velocity/names", ["Ux"]),
                 ("Variables/Velocity/fe_family", ["LAGRANGE"]),
                 ("Variables/Velocity/order", ["SECOND"])] []

/-- The state after `set_getpot` and `set_var_section` on the initial state. -/
def sample_ready_state : VariableFactoryAbstract :=
  set_var_section "Variables/Velocity" (set_getpot sample_input VariableFactoryAbstract.initial)

/-- The state after the three setters on the initial state. -/
def sample_create_state : VariableFactoryAbstract :=
  set_subdomain_ids [1, 2] (set_var_indices [0] (set_var_names ["Ux"]
    VariableFactoryAbstract.initial))

/-- The members of a `SpeciesVariableFactory` that `parse_var_names` sets. -/
structure SpeciesVariableFactory where
  _prefix : String
  _material : String

/-- What `SpeciesVariableFactory::parse_var_names` leaves behind: its result
(or the error raised), the members of the factory, and the `(material, prefix)`
arguments of each invocation of `MaterialsParsing::parse_species_varnames`. -/
structure SpeciesOutcome where
  result : Except String (List String)
  factory : SpeciesVariableFactory
  species_calls : List (String × String)

/-- Function `SpeciesVariableFactory::parse_var_names` (lines 148-169). The external
species enumeration `MaterialsParsing::parse_species_varnames`, which fills
the names from the input, the material and the prefix, is the parameter. -/
def SpeciesVariableFactory.parse_var_names
    (parse_species_varnames : GetPot → String → String → Except String (List String))
    (self : SpeciesVariableFactory) (input : GetPot) (var_section : String) : SpeciesOutcome :=
  let prefix_sec := var_section ++ "/names"
  if !input.have_variable prefix_sec then
    ⟨.error ("ERROR: Could not find input parameter " ++ prefix_sec ++ " for species prefix!"),
      self, []⟩
  else
    let material_sec := var_section ++ "/material"
    if !input.have_variable material_sec then
      ⟨.error ("ERROR: Could not find input parameter " ++ material_sec
          ++ " for species material!"), self, []⟩
    else
      let prefix_str := input.string_value prefix_sec "DIE!"
      let material := input.string_value material_sec "DIE!"
      ⟨parse_species_varnames input material prefix_str,
        { _prefix := prefix_str, _material := material },
        [(material, prefix_str)]⟩

/-- A species enumeration standing for `MaterialsParsing::parse_species_varnames`:
two species, named by the prefix followed by the species name. -/
def sample_parse_species_varnames : GetPot → String → String → Except String (List String) :=
  fun _ _ prefix_str => .ok [prefix_str ++ "N2", prefix_str ++ "N"]

/-- A configuration whose species section has both keys. -/
def sample_species_input : GetPot :=
  GetPot.ofList [("Variables/SpeciesMassFractions/names", ["Y_"]),
                 ("Variables/SpeciesMassFractions/material", ["TestMaterial"])] []

/-- A configuration whose species section lacks the material key. -/
def sample_species_input_no_material : GetPot :=
  GetPot.ofList [("Variables/SpeciesMassFractions/names", ["Y_"])] []

/-! ## Elastic cable Rayleigh damping: constructor (`elastic_cable_rayleigh_damping.C`) -/

/-- The object the constructor of `ElasticCableRayleighDamping` builds: the
base-class subobject (of type `β`) and the two damping factors. -/
structure ElasticCableRayleighDamping (β : Type) where
  base : β
  _lambda_factor : ℚ
  _mu_factor : ℚ

/-- The constructor `ElasticCableRayleighDamping::ElasticCableRayleighDamping`
(lines 38-62). Parameters standing for code outside the sources:
`rayleigh_name` is `PhysicsNaming::elastic_cable_rayleigh_damping()`,
`master_name` is `PhysicsNaming::elastic_cable()`, `base_ctor` is the
base-class constructor `ElasticCableBase(physics_name,input,is_compressible)`,
and `parse_enabled_subdomains` is `Physics::parse_enabled_subdomains` acting
on the base subobject. -/
def ElasticCableRayleighDamping.construct {β : Type}
    (rayleigh_name master_name : String)
    (base_ctor : GetPot → Except String β)
    (parse_enabled_subdomains : β → GetPot → String → β)
    (input : GetPot) : Except String (ElasticCableRayleighDamping β) :=
  match base_ctor input with
  | .error e => .error e
  | .ok base =>
    let lambda_factor := input.real_value ("Physics/" ++ rayleigh_name ++ "/lambda_factor") 0
    let mu_factor := input.real_value ("Physics/" ++ rayleigh_name ++ "/mu_factor") 0
    if !input.have_variable ("Physics/" ++ rayleigh_name ++ "/lambda_factor") then
      .error ("ERROR: Couldn't find Physics/" ++ rayleigh_name ++ "/lambda_factor in input!")
    else if !input.have_variable ("Physics/" ++ rayleigh_name ++ "/mu_factor") then
      .error ("ERROR: Couldn't find Physics/" ++ rayleigh_name ++ "/mu_factor in input!")
    else if input.have_variable ("Physics/" ++ rayleigh_name ++ "/enabled_subdomains") then
      .error ("ERROR: Cannot specify subdomains for " ++ rayleigh_name
        ++ "! Must specify subdomains through " ++ master_name ++ ".")
    else
      .ok { base := parse_enabled_subdomains base input master_name,
            _lambda_factor := lambda_factor,
            _mu_factor := mu_factor }

/-- A stand-in for `Physics::parse_enabled_subdomains` on a base subobject
that is just the set of enabled subdomains: it adds the elements of
`Physics/<physics_name>/enabled_subdomains`. -/
def sample_parse_enabled_subdomains : List String → GetPot → String → List String :=
  fun enabled input physics_name =>
    enabled ++ (List.range (input.vector_variable_size
        ("Physics/" ++ physics_name ++ "/enabled_subdomains"))).map
      (fun i => input.string_element ("Physics/" ++ physics_name ++ "/enabled_subdomains") "-1" i)

/-- A configuration with both damping factors and subdomains on the master. -/
def sample_damping_input : GetPot :=
  GetPot.ofList [("Physics/ElasticCable/enabled_subdomains", ["1", "2"])]
    [("Physics/ElasticCableRayleighDamping/lambda_factor", 1 / 10),
     ("Physics/ElasticCableRayleighDamping/mu_factor", 1 / 5)]

/-- A configuration that lacks `mu_factor`. -/
def sample_damping_input_no_mu : GetPot :=
  GetPot.ofList [("Physics/ElasticCable/enabled_subdomains", ["1", "2"])]
    [("Physics/ElasticCableRayleighDamping/lambda_factor", 1 / 10)]

/-- A configuration that declares subdomains on the damping physics itself. -/
def sample_damping_input_own_subdomains : GetPot :=
  GetPot.ofList [("Physics/ElasticCableRayleighDamping/enabled_subdomains", ["3"])]
    [("Physics/ElasticCableRayleighDamping/lambda_factor", 1 / 10),
     ("Physics/ElasticCableRayleighDamping/mu_factor", 1 / 5)]

/-! ## Catalytic wall reaction parsing
(`gas_recombination_catalytic_wall_neumann_bc_factory_impl.C`) -/

/-- The pieces of a character list between the occurrences of a delimiter,
scanning left to right; `skip` counts the delimiter characters still to be
passed over and `token` holds the current piece, reversed. -/
def split_chars (delimiter : List Char) : List Char → Nat → List Char → List (List Char)
  | [], _, token => [token.reverse]
  | _ :: rest, skip + 1, token => split_chars delimiter rest skip token
  | c :: rest, 0, token =>
    if delimiter.isPrefixOf (c :: rest) then
      token.reverse :: split_chars delimiter rest (delimiter.length - 1) []
    else
      split_chars delimiter rest 0 (c :: token)

/-- Modelled from the spec: `StringUtilities::split_string` (declared in
`grins/string_utils.h`, not among the sources) splits the input at the
occurrences of the delimiter and returns the pieces in order. -/
def split_string (input delimiter : String) : List String :=
  (split_chars delimiter.data input.data 0 []).map String.mk

/-- The message of the size check of `parse_reactant_and_product`. -/
def one_reactant_one_product_error : String :=
  "ERROR: Must have only one reactant and one product for GasRecombinationCatalyticWall!"

/-- Function `GasRecombinationCatalyticWallNeumannBCFactoryImpl::parse_reactant_and_product`
(lines 87-102). The string splitter is the parameter `split`; the output
parameters `reactant` and `product` come in with the values they hold and
are returned with the values the call leaves in them, next to the result. -/
def parse_reactant_and_product (split : String → String → List String)
    (reaction : String) (reactant product : String) : Except String Unit × String × String :=
  let partners := split reaction "->"
  if h : partners.length ≠ 2 then
    (.error one_reactant_one_product_error, reactant, product)
  else
    (.ok (), partners.get ⟨0, by omega⟩, partners.get ⟨1, by omega⟩)

/-- Function `GasRecombinationCatalyticWallNeumannBCFactoryImpl::build_catalytic_wall`
(lines 43-85). `have_cantera` and `have_antioch` stand for the compile-time
switches `GRINS_HAVE_CANTERA` and `GRINS_HAVE_ANTIOCH`; the two instances of
the template `build_wall_ptr` (declared in the header) are parameters that
receive the parsed reactant and product. -/
def build_catalytic_wall {ω : Type} (split : String → String → List String)
    (have_cantera have_antioch : Bool)
    (build_wall_ptr_cantera build_wall_ptr_antioch : String → String → Except String ω)
    (reaction thermochem_lib : String) : Except String ω :=
  match parse_reactant_and_product split reaction "" "" with
  | (.error e, _, _) => .error e
  | (.ok (), reactant, product) =>
    if thermochem_lib == "cantera" then
      if have_cantera then
        build_wall_ptr_cantera reactant product
      else
        .error ("Error: Cantera not enabled in this configuration. "
          ++ "Reconfigure using --with-cantera option.")
    else if thermochem_lib == "antioch" then
      if have_antioch then
        build_wall_ptr_antioch reactant product
      else
        .error ("Error: Antioch not enabled in this configuration. "
          ++ "Reconfigure using --with-antioch option.")
    else
      .error ("ERROR: Invalid thermochemistry library " ++ thermochem_lib ++ "!")

/-! ## Elastic cable Rayleigh damping: stiffness part of `damping_residual`
(`elastic_cable_rayleigh_damping.C`, lines 76-259)

Numbers are elements of a field `K` (exact arithmetic); `ℚ` makes the
definitions computable and `ℝ` carries derivatives. -/

/-- What the stiffness part of `damping_residual` reads at one quadrature
point `qp` of an element with `n_u_dofs` displacement degrees of freedom:
`dphi_dxi d` is `dphi_dxi[d][qp]`, the six coefficient vectors are the element
solution and solution rate of `u`, `v`, `w`, `grad_x`, `grad_y`, `grad_z` are
the components of `dxdxi[qp]`, `JxW` is `JxW[qp]`, and
`stress_and_elasticity` gives `(tau(0,0), C(0,0,0,0))` as
`compute_metric_tensors` followed by `compute_stress_and_elasticity` compute
them from `grad_u(0)`, `grad_v(0)`, `grad_w(0)` at this point. -/
structure QuadraturePoint (K : Type) (n_u_dofs : Nat) where
  dphi_dxi : Fin n_u_dofs → K
  u_coeffs : Fin n_u_dofs → K
  v_coeffs : Fin n_u_dofs → K
  w_coeffs : Fin n_u_dofs → K
  dudt_coeffs : Fin n_u_dofs → K
  dvdt_coeffs : Fin n_u_dofs → K
  dwdt_coeffs : Fin n_u_dofs → K
  grad_x : K
  grad_y : K
  grad_z : K
  JxW : K
  stress_and_elasticity : K → K → K → K × K

/-- The loop over `d` of lines 123-133 for one coefficient vector: the first
component of the gradient with respect to the master element coordinate. -/
def gradient {K : Type} [Field K] {n_u_dofs : Nat} (coeffs dphi_dxi : Fin n_u_dofs → K) : K :=
  ∑ d, coeffs d * dphi_dxi d

/-- The increments of `Fu(i)`, `Fv(i)`, `Fw(i)` at one quadrature point. -/
structure ResidualIncrement (K : Type) where
  Fu : K
  Fv : K
  Fw : K

/-- The increments of the nine blocks `Kuu(i,j)`, ..., `Kww(i,j)` at one
quadrature point. -/
structure JacobianIncrement (K : Type) where
  Kuu : K
  Kuv : K
  Kuw : K
  Kvu : K
  Kvv : K
  Kvw : K
  Kwu : K
  Kwv : K
  Kww : K

/-- The residual loop of `damping_residual` (lines 154-177): what is added to
`Fu(i)`, `Fv(i)`, `Fw(i)` at the quadrature point. The arithmetic is that of
the field `K`, without rounding; `stiffness_residual_rounded` is the same loop
with every operation rounded. -/
def stiffness_residual {K : Type} [Field K] {n_u_dofs : Nat} (_lambda_factor _A : K)
    (q : QuadraturePoint K n_u_dofs) (i : Fin n_u_dofs) : ResidualIncrement K :=
  let grad_u := gradient q.u_coeffs q.dphi_dxi
  let grad_v := gradient q.v_coeffs q.dphi_dxi
  let grad_w := gradient q.w_coeffs q.dphi_dxi
  let dgradu_dt := gradient q.dudt_coeffs q.dphi_dxi
  let dgradv_dt := gradient q.dvdt_coeffs q.dphi_dxi
  let dgradw_dt := gradient q.dwdt_coeffs q.dphi_dxi
  let tau := (q.stress_and_elasticity grad_u grad_v grad_w).1
  let C := (q.stress_and_elasticity grad_u grad_v grad_w).2
  let jac := q.JxW
  let u_gradphi := q.dphi_dxi i
  let u_diag_factor := _lambda_factor * _A * jac * tau * dgradu_dt * u_gradphi
  let v_diag_factor := _lambda_factor * _A * jac * tau * dgradv_dt * u_gradphi
  let w_diag_factor := _lambda_factor * _A * jac * tau * dgradw_dt * u_gradphi
  let C1 := _lambda_factor * _A * jac * C * u_gradphi
  let gamma_u := q.grad_x + grad_u
  let gamma_v := q.grad_y + grad_v
  let gamma_w := q.grad_z + grad_w
  let x_term := C1 * gamma_u
  let y_term := C1 * gamma_v
  let z_term := C1 * gamma_w
  let dt_term := dgradu_dt * gamma_u + dgradv_dt * gamma_v + dgradw_dt * gamma_w
  { Fu := u_diag_factor + x_term * dt_term,
    Fv := v_diag_factor + y_term * dt_term,
    Fw := w_diag_factor + z_term * dt_term }

/-- The Jacobian loop of `damping_residual` (lines 179-258): what is added to
the nine blocks at `(i,j)` at the quadrature point. `solution_derivative` and
`solution_rate_derivative` are `context.get_elem_solution_derivative()` and
`context.get_elem_solution_rate_derivative()`. Each block is the sum of the
(up to three) `+=` statements that touch it, in source order. The arithmetic
is that of the field `K`, without rounding; `stiffness_jacobian_rounded` is the
same loop with every operation rounded. -/
def stiffness_jacobian {K : Type} [Field K] {n_u_dofs : Nat} (_lambda_factor _A : K)
    (q : QuadraturePoint K n_u_dofs) (solution_derivative solution_rate_derivative : K)
    (i j : Fin n_u_dofs) : JacobianIncrement K :=
  let grad_u := gradient q.u_coeffs q.dphi_dxi
  let grad_v := gradient q.v_coeffs q.dphi_dxi
  let grad_w := gradient q.w_coeffs q.dphi_dxi
  let dgradu_dt := gradient q.dudt_coeffs q.dphi_dxi
  let dgradv_dt := gradient q.dvdt_coeffs q.dphi_dxi
  let dgradw_dt := gradient q.dwdt_coeffs q.dphi_dxi
  let tau := (q.stress_and_elasticity grad_u grad_v grad_w).1
  let C := (q.stress_and_elasticity grad_u grad_v grad_w).2
  let jac := q.JxW
  let u_gradphi_I := q.dphi_dxi i
  let u_gradphi_J := q.dphi_dxi j
  let common_factor := _lambda_factor * _A * jac * u_gradphi_I
  let diag_term_1 := common_factor * tau * u_gradphi_J * solution_rate_derivative
  let dgamma_du := u_gradphi_J * (q.grad_x + grad_u)
  let dgamma_dv := u_gradphi_J * (q.grad_y + grad_v)
  let dgamma_dw := u_gradphi_J * (q.grad_z + grad_w)
  let diag_term_2_factor := common_factor * C * solution_derivative
  let C1 := common_factor * C
  let gamma_u := q.grad_x + grad_u
  let gamma_v := q.grad_y + grad_v
  let gamma_w := q.grad_z + grad_w
  let x_term := C1 * gamma_u
  let y_term := C1 * gamma_v
  let z_term := C1 * gamma_w
  let ddtterm_du := u_gradphi_J * (gamma_u * solution_rate_derivative
    + dgradu_dt * solution_derivative)
  let ddtterm_dv := u_gradphi_J * (gamma_v * solution_rate_derivative
    + dgradv_dt * solution_derivative)
  let ddtterm_dw := u_gradphi_J * (gamma_w * solution_rate_derivative
    + dgradw_dt * solution_derivative)
  let dt_term := dgradu_dt * gamma_u + dgradv_dt * gamma_v + dgradw_dt * gamma_w
  let dxterm_du := C1 * u_gradphi_J * solution_derivative
  let dyterm_dv := dxterm_du
  let dzterm_dw := dxterm_du
  { Kuu := (diag_term_1 + dgradu_dt * diag_term_2_factor * dgamma_du) + x_term * ddtterm_du
      + dxterm_du * dt_term,
    Kuv := dgradu_dt * diag_term_2_factor * dgamma_dv + x_term * ddtterm_dv,
    Kuw := dgradu_dt * diag_term_2_factor * dgamma_dw + x_term * ddtterm_dw,
    Kvu := dgradv_dt * diag_term_2_factor * dgamma_du + y_term * ddtterm_du,
    Kvv := (diag_term_1 + dgradv_dt * diag_term_2_factor * dgamma_dv) + y_term * ddtterm_dv
      + dyterm_dv * dt_term,
    Kvw := dgradv_dt * diag_term_2_factor * dgamma_dw + y_term * ddtterm_dw,
    Kwu := dgradw_dt * diag_term_2_factor * dgamma_du + z_term * ddtterm_du,
    Kwv := dgradw_dt * diag_term_2_factor * dgamma_dv + z_term * ddtterm_dv,
    Kww := (diag_term_1 + dgradw_dt * diag_term_2_factor * dgamma_dw) + z_term * ddtterm_dw
      + dzterm_dw * dt_term }

/-- The three displacement components. -/
inductive Component where
  | u
  | v
  | w
  deriving DecidableEq, Repr

/-- The entry of a residual increment for a component. -/
def ResidualIncrement.get {K : Type} (r : ResidualIncrement K) : Component → K
  | .u => r.Fu
  | .v => r.Fv
  | .w => r.Fw

/-- The block of a Jacobian increment for a residual component (row) and a
variable component (column). -/
def JacobianIncrement.get {K : Type} (m : JacobianIncrement K) : Component → Component → K
  | .u, .u => m.Kuu
  | .u, .v => m.Kuv
  | .u, .w => m.Kuw
  | .v, .u => m.Kvu
  | .v, .v => m.Kvv
  | .v, .w => m.Kvw
  | .w, .u => m.Kwu
  | .w, .v => m.Kwv
  | .w, .w => m.Kww

/-- The quadrature point with `t` added to the `j`-th solution coefficient of
component `b`. -/
def QuadraturePoint.perturb_solution {K : Type} [Field K] {n_u_dofs : Nat}
    (q : QuadraturePoint K n_u_dofs) (b : Component) (j : Fin n_u_dofs) (t : K) :
    QuadraturePoint K n_u_dofs :=
  match b with
  | .u => { q with u_coeffs := Function.update q.u_coeffs j (q.u_coeffs j + t) }
  | .v => { q with v_coeffs := Function.update q.v_coeffs j (q.v_coeffs j + t) }
  | .w => { q with w_coeffs := Function.update q.w_coeffs j (q.w_coeffs j + t) }

/-- The quadrature point with `t` added to the `j`-th solution-rate
coefficient of component `b`. -/
def QuadraturePoint.perturb_rate {K : Type} [Field K] {n_u_dofs : Nat}
    (q : QuadraturePoint K n_u_dofs) (b : Component) (j : Fin n_u_dofs) (t : K) :
    QuadraturePoint K n_u_dofs :=
  match b with
  | .u => { q with dudt_coeffs := Function.update q.dudt_coeffs j (q.dudt_coeffs j + t) }
  | .v => { q with dvdt_coeffs := Function.update q.dvdt_coeffs j (q.dvdt_coeffs j + t) }
  | .w => { q with dwdt_coeffs := Function.update q.dwdt_coeffs j (q.dwdt_coeffs j + t) }

/-- The deformed tangent `dxdxi + grad(displacement)` of component `b`, the
quantity the source calls `gamma_u`, `gamma_v`, `gamma_w`. -/
def QuadraturePoint.gamma {K : Type} [Field K] {n_u_dofs : Nat}
    (q : QuadraturePoint K n_u_dofs) : Component → K
  | .u => q.grad_x + gradient q.u_coeffs q.dphi_dxi
  | .v => q.grad_y + gradient q.v_coeffs q.dphi_dxi
  | .w => q.grad_z + gradient q.w_coeffs q.dphi_dxi

/-- The stress and elasticity at the quadrature point when `s` is added to
component `b` of the displacement gradient. -/
def QuadraturePoint.law_along {K : Type} [Field K] {n_u_dofs : Nat}
    (q : QuadraturePoint K n_u_dofs) (b : Component) (s : K) : K × K :=
  match b with
  | .u => q.stress_and_elasticity (gradient q.u_coeffs q.dphi_dxi + s)
      (gradient q.v_coeffs q.dphi_dxi) (gradient q.w_coeffs q.dphi_dxi)
  | .v => q.stress_and_elasticity (gradient q.u_coeffs q.dphi_dxi)
      (gradient q.v_coeffs q.dphi_dxi + s) (gradient q.w_coeffs q.dphi_dxi)
  | .w => q.stress_and_elasticity (gradient q.u_coeffs q.dphi_dxi)
      (gradient q.v_coeffs q.dphi_dxi) (gradient q.w_coeffs q.dphi_dxi + s)

/-- The rate term `dt_term` of the source: the sum over the components of
the rate gradient times the deformed tangent. -/
def QuadraturePoint.dt_term {K : Type} [Field K] {n_u_dofs : Nat}
    (q : QuadraturePoint K n_u_dofs) : K :=
  gradient q.dudt_coeffs q.dphi_dxi * q.gamma .u + gradient q.dvdt_coeffs q.dphi_dxi * q.gamma .v
    + gradient q.dwdt_coeffs q.dphi_dxi * q.gamma .w

/-- The rate gradient of component `b`, the quantity the source calls
`dgradu_dt(0)`, `dgradv_dt(0)`, `dgradw_dt(0)`. -/
def QuadraturePoint.rate_gradient {K : Type} [Field K] {n_u_dofs : Nat}
    (q : QuadraturePoint K n_u_dofs) : Component → K
  | .u => gradient q.dudt_coeffs q.dphi_dxi
  | .v => gradient q.dvdt_coeffs q.dphi_dxi
  | .w => gradient q.dwdt_coeffs q.dphi_dxi

/-- The stress `tau(0,0)` at the quadrature point. -/
def QuadraturePoint.tau {K : Type} [Field K] {n_u_dofs : Nat}
    (q : QuadraturePoint K n_u_dofs) : K :=
  (q.stress_and_elasticity (gradient q.u_coeffs q.dphi_dxi) (gradient q.v_coeffs q.dphi_dxi)
    (gradient q.w_coeffs q.dphi_dxi)).1

/-- The elasticity coefficient `C(0,0,0,0)` at the quadrature point. -/
def QuadraturePoint.C {K : Type} [Field K] {n_u_dofs : Nat}
    (q : QuadraturePoint K n_u_dofs) : K :=
  (q.stress_and_elasticity (gradient q.u_coeffs q.dphi_dxi) (gradient q.v_coeffs q.dphi_dxi)
    (gradient q.w_coeffs q.dphi_dxi)).2

/-- The Green strain of the cable, half the difference of the squared
lengths of the deformed and the reference tangent, as a function of the
displacement gradient. -/
def green_strain {K : Type} [Field K] (grad_x grad_y grad_z grad_u grad_v grad_w : K) : K :=
  ((grad_x + grad_u) ^ 2 + (grad_y + grad_v) ^ 2 + (grad_z + grad_w) ^ 2
    - (grad_x ^ 2 + grad_y ^ 2 + grad_z ^ 2)) / 2

/-- A linear stress-strain law with constant elasticity coefficient `C`:
the stress is `C` times the Green strain. -/
def linear_law {K : Type} [Field K] (C grad_x grad_y grad_z : K) : K → K → K → K × K :=
  fun grad_u grad_v grad_w => (C * green_strain grad_x grad_y grad_z grad_u grad_v grad_w, C)

/-- A two-node cable element at one quadrature point, with a linear law. -/
def sample_quadrature_point (K : Type) [Field K] : QuadraturePoint K 2 where
  dphi_dxi := ![-1 / 2, 1 / 2]
  u_coeffs := ![0, 1]
  v_coeffs := ![0, 2]
  w_coeffs := ![1, 0]
  dudt_coeffs := ![1, 3]
  dvdt_coeffs := ![0, 1]
  dwdt_coeffs := ![2, 0]
  grad_x := 1
  grad_y := 0
  grad_z := 0
  JxW := 1
  stress_and_elasticity := linear_law 3 1 0 0

/-! ## Rayfire mesh (`rayfire_mesh.C`)

Coordinates are elements of a linearly ordered field `K` (exact arithmetic;
`ℚ` makes the definitions computable). The background mesh, its elements and
the edges built from their sides are libMesh objects; they appear through the
queries the source makes. A value that IEEE arithmetic makes non-finite (a
division by zero) is `Option.none`. -/

/-- The first two coordinates of a `libMesh::Point`, the only ones the 2-D
rayfire reads and writes. -/
structure Point (K : Type) where
  x : K
  y : K
  deriving DecidableEq, Repr

/-- The constant `libMesh::TOLERANCE` of the double precision build. -/
def TOLERANCE {K : Type} [LinearOrderedField K] : K := 1 / 1000000

/-- The test `p.absolute_fuzzy_equals(q)` of libMesh with its default
tolerance: the sum of the absolute coordinate differences is at most
`TOLERANCE`. -/
def absolute_fuzzy_equals {K : Type} [LinearOrderedField K] (p q : Point K) : Bool :=
  decide (|p.x - q.x| + |p.y - q.y| ≤ TOLERANCE)

/-- An edge element as `build_edge` returns it: its nodes in order, the
Lagrange shape functions `FE<1,LAGRANGE>::shape` and `shape_deriv` of its type
and default order (one per node), and its `contains_point` test. -/
structure EdgeElem (K : Type) where
  nodes : List (Point K)
  shape : Nat → K → K
  shape_deriv : Nat → K → K
  contains_point : Point K → Bool

/-- The straight two-node edge (`EDGE2`) from `a` to `b`: first-order
Lagrange shape functions `(1 - xi)/2` and `(1 + xi)/2`, and exact containment
in the closed segment. -/
def EdgeElem.edge2 {K : Type} [LinearOrderedField K] (a b : Point K) : EdgeElem K where
  nodes := [a, b]
  shape := fun i xi => if i = 0 then (1 - xi) / 2 else (1 + xi) / 2
  shape_deriv := fun i _ => if i = 0 then -1 / 2 else 1 / 2
  contains_point := fun p =>
    decide ((b.x - a.x) * (p.y - a.y) - (b.y - a.y) * (p.x - a.x) = 0 ∧
      0 ≤ (p.x - a.x) * (b.x - a.x) + (p.y - a.y) * (b.y - a.y) ∧
      (p.x - a.x) * (b.x - a.x) + (p.y - a.y) * (b.y - a.y)
        ≤ (b.x - a.x) * (b.x - a.x) + (b.y - a.y) * (b.y - a.y))

/-- The accumulation loops of lines 337-343: starting from `acc`, add
`coord (node i) * weight i` for the nodes in order, `i` counting from `first`. -/
def accumulate {K : Type} [LinearOrderedField K] (coord : Point K → K) (weight : Nat → K) :
    List (Point K) → Nat → K → K
  | [], _, acc => acc
  | node :: rest, i, acc => accumulate coord weight rest (i + 1) (acc + coord node * weight i)

/-- The values `X`, `Y`, `dX`, `dY` of one Newton iteration at the finite
reference coordinate `xi` (lines 321-343). -/
def edge_position {K : Type} [LinearOrderedField K] (edge_elem : EdgeElem K) (xi : K) :
    K × K × K × K :=
  (accumulate Point.x (fun i => edge_elem.shape i xi) edge_elem.nodes 0 0,
   accumulate Point.y (fun i => edge_elem.shape i xi) edge_elem.nodes 0 0,
   accumulate Point.x (fun i => edge_elem.shape_deriv i xi) edge_elem.nodes 0 0,
   accumulate Point.y (fun i => edge_elem.shape_deriv i xi) edge_elem.nodes 0 0)

/-- The Newton loop of `newton_solve_intersection` (lines 316-360) with
`remaining` iterations left; the result is the converged point, or `none`
when the iterations are used up. The reference coordinate `xi` is `none` once
it is no longer finite: when `df` is zero the quotient `f/df` is an infinity
or NaN, `std::abs(d_xi) < TOLERANCE` is false and `xi -= d_xi` leaves `xi`
non-finite; from a non-finite `xi` the shape functions, `f` and `d_xi` are
non-finite again, so no later iteration converges. The arithmetic is that of
the field `K`, without rounding; `newton_iterate_rounded` is the same loop
with every operation rounded. -/
def newton_iterate {K : Type} [LinearOrderedField K] (tan_theta x0 y0 : K)
    (edge_elem : EdgeElem K) : Nat → Option K → Option (Point K)
  | 0, _ => none
  | remaining + 1, none => newton_iterate tan_theta x0 y0 edge_elem remaining none
  | remaining + 1, some xi =>
    let X := (edge_position edge_elem xi).1
    let Y := (edge_position edge_elem xi).2.1
    let dX := (edge_position edge_elem xi).2.2.1
    let dY := (edge_position edge_elem xi).2.2.2
    let f := tan_theta * (X - x0) - (Y - y0)
    let df := tan_theta * dX - dY
    if df = 0 then
      newton_iterate tan_theta x0 y0 edge_elem remaining none
    else
      let d_xi := f / df
      if |d_xi| < TOLERANCE then
        some ⟨X, Y⟩
      else
        newton_iterate tan_theta x0 y0 edge_elem remaining (some (xi - d_xi))

/-- The members of a 2-D `RayfireMesh` that the walk reads: `_dim`, `_origin`,
and the values `std::tan(_theta)`, `std::cos(_theta)`, `std::sin(_theta)` of
the direction angle. -/
structure RayfireMesh (K : Type) where
  _dim : Nat
  _origin : Point K
  tan_theta : K
  cos_theta : K
  sin_theta : K

/-- Function `RayfireMesh::newton_solve_intersection` (lines 292-364):
`iter_max` is 20 and the initial guess is `xi = 0`. The result is the returned
flag and the value the call leaves in `*intersection_point`. -/
def RayfireMesh.newton_solve_intersection {K : Type} [LinearOrderedField K]
    (r : RayfireMesh K) (initial_point : Point K) (edge_elem : EdgeElem K)
    (intersection_point : Point K) : Bool × Point K :=
  match newton_iterate r.tan_theta initial_point.x initial_point.y edge_elem 20 (some 0) with
  | some converged => (true, converged)
  | none => (false, intersection_point)

/-- Function `RayfireMesh::check_valid_point` (lines 221-235): the returned
flag and the value the call leaves in `*next_point`. -/
def check_valid_point {K : Type} [LinearOrderedField K]
    (intersection_point start_point : Point K) (edge_elem : EdgeElem K) (next_point : Point K) :
    Bool × Point K :=
  let is_not_start := !(absolute_fuzzy_equals intersection_point start_point)
  let is_on_edge := edge_elem.contains_point intersection_point
  let is_valid := is_not_start && is_on_edge
  if is_valid then
    (true, ⟨intersection_point.x, intersection_point.y⟩)
  else
    (false, next_point)

/-- The background mesh (`libMesh::MeshBase`) and its elements, named by
their ids, as seen through the queries of `rayfire_mesh.C`: the mesh
dimension, the point locator (`none` for a null element), and per element the
number of sides, the neighbour across a side (`none` for null), `on_boundary`,
the edge built from a side, the node with a given index (`none` when the
element has no such node), the elements sharing a point, `hmin`, and
`contains_point`. -/
structure MeshBase (K : Type) where
  mesh_dimension : Nat
  point_locator : Point K → Option Nat
  n_sides : Nat → Nat
  neighbor : Nat → Nat → Option Nat
  on_boundary : Nat → Bool
  build_edge : Nat → Nat → EdgeElem K
  get_node : Nat → Nat → Option (Point K)
  find_point_neighbors : Nat → Point K → List Nat
  hmin : Nat → K
  contains_point : Nat → Point K → Bool

/-- The vertex test of `get_correct_neighbor` (lines 245-247): the loop over
the node indices `n`, `n + 1`, ... with `remaining` indices left. Reading a
node the element does not have is an error of its own. -/
def is_vertex_from {K : Type} [LinearOrderedField K] (mesh : MeshBase K) (cur_elem : Nat)
    (end_point : Point K) : Nat → Nat → Bool → Except String Bool
  | 0, _, is_vertex => .ok is_vertex
  | remaining + 1, n, is_vertex =>
    match mesh.get_node cur_elem n with
    | none => .error "node index out of range"
    | some node =>
      is_vertex_from mesh cur_elem end_point remaining (n + 1)
        (is_vertex || absolute_fuzzy_equals node end_point)

/-- The loop over the elements sharing the vertex in `get_correct_neighbor`
(lines 260-278): the first element other than `cur_elem` that contains the
point a tenth of its `hmin` further along the ray. -/
def point_neighbor_loop {K : Type} [LinearOrderedField K] (r : RayfireMesh K)
    (mesh : MeshBase K) (cur_elem : Nat) (end_point : Point K) : List Nat → Option Nat
  | [] => none
  | elem :: rest =>
    if elem = cur_elem then
      point_neighbor_loop r mesh cur_elem end_point rest
    else
      let L := mesh.hmin elem * (1 / 10)
      let x := end_point.x + L * r.cos_theta
      let y := end_point.y + L * r.sin_theta
      if mesh.contains_point elem ⟨x, y⟩ then
        some elem
      else
        point_neighbor_loop r mesh cur_elem end_point rest

/-- Function `RayfireMesh::get_correct_neighbor` (lines 238-289): the next
element (`none` for null), or the error of line 287. -/
def RayfireMesh.get_correct_neighbor {K : Type} [LinearOrderedField K] (r : RayfireMesh K)
    (mesh : MeshBase K) (end_point : Point K) (cur_elem side : Nat) :
    Except String (Option Nat) :=
  match mesh.neighbor cur_elem side with
  | none => .ok none
  | some across =>
    match is_vertex_from mesh cur_elem end_point 4 0 false with
    | .error e => .error e
    | .ok true =>
      match point_neighbor_loop r mesh cur_elem end_point
          (mesh.find_point_neighbors cur_elem end_point) with
      | some elem => .ok (some elem)
      | none => .error "We shouldn't be here..."
    | .ok false => .ok (some across)

/-- The loop over the sides of `get_next_elem` (lines 199-215), from side `s`
with `remaining` sides left. `intersection_point` and `next_point` are the
values held by the two point objects; the result is the returned element
(`none` for null) or the error raised, and the value left in `*next_point`. -/
def RayfireMesh.get_next_elem_from {K : Type} [LinearOrderedField K] (r : RayfireMesh K)
    (mesh : MeshBase K) (cur_elem : Nat) (start_point : Point K) :
    Nat → Nat → Point K → Point K → Except String (Option Nat) × Point K
  | 0, _, _, next_point => (.ok none, next_point)
  | remaining + 1, s, intersection_point, next_point =>
    let edge_elem := mesh.build_edge cur_elem s
    if edge_elem.contains_point start_point then
      r.get_next_elem_from mesh cur_elem start_point remaining (s + 1) intersection_point
        next_point
    else
      let solve := r.newton_solve_intersection start_point edge_elem intersection_point
      if solve.1 then
        let valid := check_valid_point solve.2 start_point edge_elem next_point
        if valid.1 then
          (r.get_correct_neighbor mesh solve.2 cur_elem s, valid.2)
        else
          r.get_next_elem_from mesh cur_elem start_point remaining (s + 1) solve.2 valid.2
      else
        r.get_next_elem_from mesh cur_elem start_point remaining (s + 1) solve.2 next_point

/-- Function `RayfireMesh::get_next_elem` (lines 194-218): the intersection
point object is a fresh `libMesh::Point` (the zero point). -/
def RayfireMesh.get_next_elem {K : Type} [LinearOrderedField K] (r : RayfireMesh K)
    (mesh : MeshBase K) (cur_elem : Nat) (start_point next_point : Point K) :
    Except String (Option Nat) × Point K :=
  r.get_next_elem_from mesh cur_elem start_point (mesh.n_sides cur_elem) 0 ⟨0, 0⟩ next_point

/-- The boundary-side loop of `check_origin_on_boundary` (lines 178-187),
from side `s` with `remaining` sides left. -/
def origin_on_boundary_side {K : Type} (r : RayfireMesh K) (mesh : MeshBase K)
    (start_elem : Nat) : Nat → Nat → Bool → Bool
  | 0, _, valid => valid
  | remaining + 1, s, valid =>
    match mesh.neighbor start_elem s with
    | some _ => origin_on_boundary_side r mesh start_elem remaining (s + 1) valid
    | none =>
      origin_on_boundary_side r mesh start_elem remaining (s + 1)
        (valid || (mesh.build_edge start_elem s).contains_point r._origin)

/-- Function `RayfireMesh::check_origin_on_boundary` (lines 168-191). -/
def RayfireMesh.check_origin_on_boundary {K : Type} (r : RayfireMesh K) (mesh : MeshBase K)
    (start_elem : Nat) : Except String Unit :=
  if !(mesh.on_boundary start_elem) then
    .error "The supplied origin point is not on a boundary element"
  else if !(origin_on_boundary_side r mesh start_elem (mesh.n_sides start_elem) 0 false) then
    .error "The supplied origin point is not on the boundary of the starting element"
  else
    .ok ()

/-- The point accepted on side `s` of `cur_elem` by one pass of the loop of
`get_next_elem`, if any: the edge of the side does not contain the start
point, the Newton solve converges, and `check_valid_point` holds for the
converged point (it is not fuzzily equal to the start point and the edge
contains it). -/
def RayfireMesh.side_accepts {K : Type} [LinearOrderedField K] (r : RayfireMesh K)
    (mesh : MeshBase K) (cur_elem : Nat) (start_point : Point K) (s : Nat) : Option (Point K) :=
  if (mesh.build_edge cur_elem s).contains_point start_point then
    none
  else
    match newton_iterate r.tan_theta start_point.x start_point.y (mesh.build_edge cur_elem s)
        20 (some 0) with
    | none => none
    | some p =>
      if !(absolute_fuzzy_equals p start_point) && (mesh.build_edge cur_elem s).contains_point p
      then some p
      else none

/-- A rayfire edge element (`libMesh::Edge2`) of the line mesh: its id and
the ids of its two nodes. Pointers to rayfire elements are their ids. -/
structure Edge2 where
  id : Nat
  node0 : Nat
  node1 : Nat
  deriving DecidableEq, Repr

/-- The mutable members of a `RayfireMesh`: the nodes (id and point) and
edge elements of the line mesh `_mesh`, the number of element ids the line
mesh has handed out, and `_elem_id_map` from background element ids to
rayfire edge ids, kept in increasing key order as `std::map` does. -/
structure RayfireState (K : Type) where
  nodes : List (Nat × Point K)
  elems : List Edge2
  next_elem_id : Nat
  _elem_id_map : List (Nat × Nat)

/-- The state of a freshly constructed rayfire. -/
def RayfireState.initial {K : Type} : RayfireState K where
  nodes := []
  elems := []
  next_elem_id := 0
  _elem_id_map := []

/-- The lookup `_elem_id_map.find(id)`: the mapped value, or `none` for
`end()`. -/
def map_find (m : List (Nat × Nat)) (id : Nat) : Option Nat :=
  m.lookup id

/-- The assignment `_elem_id_map[id] = elem`: the entry of `id` is replaced
if there is one and inserted in key order otherwise. -/
def map_assign : List (Nat × Nat) → Nat → Nat → List (Nat × Nat)
  | [], id, elem => [(id, elem)]
  | (k, v) :: rest, id, elem =>
    if id < k then (id, elem) :: (k, v) :: rest
    else if id = k then (k, elem) :: rest
    else (k, v) :: map_assign rest id elem

/-- The removal `_elem_id_map.erase(it)` of the entry of `id`. -/
def map_erase (m : List (Nat × Nat)) (id : Nat) : List (Nat × Nat) :=
  m.filter (fun entry => entry.1 != id)

/-- Function `RayfireMesh::map_to_rayfire_elem` (lines 129-137): the
returned rayfire edge (`none` for `NULL`) and the state after the call. -/
def RayfireState.map_to_rayfire_elem {K : Type} (st : RayfireState K) (elem_id : Nat) :
    Option Nat × RayfireState K :=
  match map_find st._elem_id_map elem_id with
  | some elem => (some elem, st)
  | none => (none, st)

/-- A change that `init` or `reinit` makes to `_elem_id_map`. -/
inductive MapChange where
  | assign (id : Nat) (elem : Nat)
  | erase (id : Nat)
  deriving DecidableEq, Repr

/-- The map after a sequence of changes, oldest first. -/
def apply_changes : List (Nat × Nat) → List MapChange → List (Nat × Nat)
  | m, [] => m
  | m, .assign id elem :: rest => apply_changes (map_assign m id elem) rest
  | m, .erase id :: rest => apply_changes (map_erase m id) rest

/-- What the most recent change concerning `id` recorded for it: the edge of
the latest assignment, or `none` when `id` was never assigned or its entry
was erased since. The changes are listed latest first. -/
def last_recorded (id : Nat) : List MapChange → Option Nat
  | [] => none
  | .assign k elem :: older => if k = id then some elem else last_recorded id older
  | .erase k :: older => if k = id then none else last_recorded id older

/-- The call `_mesh->add_point(p, id)`. -/
def RayfireState.add_point {K : Type} (st : RayfireState K) (p : Point K) (id : Nat) :
    RayfireState K :=
  { st with nodes := st.nodes ++ [(id, p)] }

/-- The call `_mesh->add_elem(new libMesh::Edge2)` followed by the two
`set_node` assignments: the new edge gets the next element id. -/
def RayfireState.add_elem {K : Type} (st : RayfireState K) (node0 node1 : Nat) :
    RayfireState K :=
  { st with elems := st.elems ++ [⟨st.next_elem_id, node0, node1⟩],
            next_elem_id := st.next_elem_id + 1 }

/-- What a run of `init` leaves behind: its result (or the error raised),
the state, and the ids of the background elements the loop passed through, in
order (`prev_elem` at each pass). -/
structure InitOutcome (K : Type) where
  result : Except String Unit
  state : RayfireState K
  traversed : List Nat

/-- The `do ... while(next_elem)` loop of `init` (lines 108-124), cut after
`fuel` passes (`none` when the passes are used up). After the first pass
`start_point` and `end_point` are the same object; `get_next_elem` writes it
only on acceptance, after its last read of the start point. -/
def RayfireMesh.init_loop {K : Type} [LinearOrderedField K] (r : RayfireMesh K)
    (mesh : MeshBase K) :
    Nat → Nat → Point K → Point K → Nat → RayfireState K → List Nat → Option (InitOutcome K)
  | 0, _, _, _, _, _, _ => none
  | fuel + 1, prev_elem, start_point, end_point, node_id, st, traversed =>
    match r.get_next_elem mesh prev_elem start_point end_point with
    | (.error e, _) => some ⟨.error e, st, traversed⟩
    | (.ok next_elem, new_end) =>
      let st1 := (st.add_point new_end node_id).add_elem (node_id - 1) node_id
      let st2 := { st1 with
        _elem_id_map := map_assign st1._elem_id_map prev_elem st.next_elem_id }
      match next_elem with
      | none => some ⟨.ok (), st2, traversed ++ [prev_elem]⟩
      | some elem =>
        r.init_loop mesh fuel elem new_end new_end (node_id + 1) st2 (traversed ++ [prev_elem])

/-- The message of the dimension check of `init`. -/
def dimension_error (mesh_dimension dim : Nat) : String :=
  "The supplied mesh object is " ++ toString mesh_dimension
    ++ "D, but the RayfireMesh object was created with the " ++ toString dim ++ "D constructor"

/-- Function `RayfireMesh::init` (lines 70-126), with the loop cut after
`fuel` passes. A fresh line mesh replaces `_mesh`; `_elem_id_map` is kept. -/
def RayfireMesh.init {K : Type} [LinearOrderedField K] (r : RayfireMesh K) (mesh : MeshBase K)
    (fuel : Nat) (st : RayfireState K) : Option (InitOutcome K) :=
  if mesh.mesh_dimension ≠ r._dim then
    some ⟨.error (dimension_error mesh.mesh_dimension r._dim), st, []⟩
  else
    let st0 := { st with nodes := [], elems := [], next_elem_id := 0 }
    match mesh.point_locator r._origin with
    | none => some ⟨.error "Origin is not on mesh", st0, []⟩
    | some start_elem =>
      match r.check_origin_on_boundary mesh start_elem with
      | .error e => some ⟨.error e, st0, []⟩
      | .ok () =>
        r.init_loop mesh fuel start_elem r._origin ⟨0, 0⟩ 1 (st0.add_point r._origin 0) []

/-- The nodes of the two unit squares of the uniform 2x1 quadrilateral mesh
of `[0,2]x[0,1]`, counter-clockwise from the lower left corner. -/
def quad_nodes (elem : Nat) : List (Point ℚ) :=
  if elem = 0 then [⟨0, 0⟩, ⟨1, 0⟩, ⟨1, 1⟩, ⟨0, 1⟩]
  else [⟨1, 0⟩, ⟨2, 0⟩, ⟨2, 1⟩, ⟨1, 1⟩]

/-- Containment in a square of the 2x1 mesh. -/
def quad_contains (elem : Nat) (p : Point ℚ) : Bool :=
  if elem = 0 then decide (0 ≤ p.x ∧ p.x ≤ 1 ∧ 0 ≤ p.y ∧ p.y ≤ 1)
  else if elem = 1 then decide (1 ≤ p.x ∧ p.x ≤ 2 ∧ 0 ≤ p.y ∧ p.y ≤ 1)
  else false

/-- The uniform 2x1 mesh of four-node quadrilaterals covering `[0,2]x[0,1]`:
element 0 is `[0,1]x[0,1]`, element 1 is `[1,2]x[0,1]`; side `s` joins the
nodes `s` and `s + 1`; the two elements are neighbours across side 1 of
element 0 and side 3 of element 1. -/
def quad_mesh_2x1 : MeshBase ℚ where
  mesh_dimension := 2
  point_locator := fun p =>
    if quad_contains 0 p then some 0 else if quad_contains 1 p then some 1 else none
  n_sides := fun _ => 4
  neighbor := fun elem s =>
    if elem = 0 ∧ s = 1 then some 1 else if elem = 1 ∧ s = 3 then some 0 else none
  on_boundary := fun _ => true
  build_edge := fun elem s =>
    EdgeElem.edge2 ((quad_nodes elem).getD s ⟨0, 0⟩) ((quad_nodes elem).getD ((s + 1) % 4) ⟨0, 0⟩)
  get_node := fun elem n => (quad_nodes elem).get? n
  find_point_neighbors := fun _ p => [0, 1].filter (fun elem => quad_contains elem p)
  hmin := fun _ => 1
  contains_point := quad_contains

/-- The rayfire with origin `(0,0)` and `theta = 0`: tangent 0, cosine 1,
sine 0. -/
def rayfire_theta_zero : RayfireMesh ℚ where
  _dim := 2
  _origin := ⟨0, 0⟩
  tan_theta := 0
  cos_theta := 1
  sin_theta := 0

/-- A rayfire with origin `(0,1/2)` on the left boundary and direction
`(-1,0)`, pointing out of the mesh: tangent 0, cosine -1, sine 0. -/
def rayfire_pointing_out : RayfireMesh ℚ where
  _dim := 2
  _origin := ⟨0, 1 / 2⟩
  tan_theta := 0
  cos_theta := -1
  sin_theta := 0

/-- What `init` leaves for the rayfire with origin `(0,0)` and `theta = 0`
on the 2x1 mesh: three nodes at `x = 0, 1, 2` on `y = 0`, two edges, both
background elements mapped, elements 0 and 1 passed through. -/
def two_by_one_outcome : InitOutcome ℚ where
  result := .ok ()
  state :=
    { nodes := [(0, ⟨0, 0⟩), (1, ⟨1, 0⟩), (2, ⟨2, 0⟩)],
      elems := [⟨0, 0, 1⟩, ⟨1, 1, 2⟩],
      next_elem_id := 2,
      _elem_id_map := [(0, 0), (1, 1)] }
  traversed := [0, 1]

/-- The point of the straight edge from `a` to `b` at the reference
coordinate `xi`. -/
def edge2_point {K : Type} [LinearOrderedField K] (a b : Point K) (xi : K) : Point K :=
  ⟨a.x * ((1 - xi) / 2) + b.x * ((1 + xi) / 2), a.y * ((1 - xi) / 2) + b.y * ((1 + xi) / 2)⟩

/-! ## Elastic cable Rayleigh damping: the whole of `damping_residual` -/

/-- The entrywise sum of two residual increments. -/
def ResidualIncrement.add {K : Type} [Field K] (r t : ResidualIncrement K) :
    ResidualIncrement K :=
  ⟨r.Fu + t.Fu, r.Fv + t.Fv, r.Fw + t.Fw⟩

/-- The blockwise sum of two Jacobian increments. -/
def JacobianIncrement.add {K : Type} [Field K] (m t : JacobianIncrement K) :
    JacobianIncrement K :=
  ⟨m.Kuu + t.Kuu, m.Kuv + t.Kuv, m.Kuw + t.Kuw, m.Kvu + t.Kvu, m.Kvv + t.Kvv, m.Kvw + t.Kvw,
   m.Kwu + t.Kwu, m.Kwv + t.Kwv, m.Kww + t.Kww⟩

/-- A rayfire on the 2x1 mesh with origin `(1/4,0)` on the lower boundary
and direction `(3/5,4/5)` (tangent `4/3`), pointing into the mesh; its ray
leaves the mesh through the vertex `(1,1)` on the upper boundary. -/
def rayfire_through_vertex : RayfireMesh ℚ where
  _dim := 2
  _origin := ⟨1 / 4, 0⟩
  tan_theta := 4 / 3
  cos_theta := 3 / 5
  sin_theta := 4 / 5

/-- A rayfire on the 2x1 mesh with origin at the corner `(2,0)` and
direction `(3/5,4/5)` (tangent `4/3`): its line meets the mesh at the origin
only. -/
def rayfire_at_corner : RayfireMesh ℚ where
  _dim := 2
  _origin := ⟨2, 0⟩
  tan_theta := 4 / 3
  cos_theta := 3 / 5
  sin_theta := 4 / 5

/-- The nodes of the two three-node triangles that split the unit square
along the diagonal from `(1,0)` to `(0,1)`. -/
def tri_nodes (elem : Nat) : List (Point ℚ) :=
  if elem = 0 then [⟨0, 0⟩, ⟨1, 0⟩, ⟨0, 1⟩]
  else [⟨1, 0⟩, ⟨1, 1⟩, ⟨0, 1⟩]

/-- Containment in a triangle of the split unit square. -/
def tri_contains (elem : Nat) (p : Point ℚ) : Bool :=
  if elem = 0 then decide (0 ≤ p.x ∧ 0 ≤ p.y ∧ p.x + p.y ≤ 1)
  else if elem = 1 then decide (p.x ≤ 1 ∧ p.y ≤ 1 ∧ 1 ≤ p.x + p.y)
  else false

/-- The unit square meshed by two three-node triangles (`TRI3`): element 0
has the nodes `(0,0)`, `(1,0)`, `(0,1)`, element 1 the nodes `(1,0)`, `(1,1)`,
`(0,1)`; side `s` joins the nodes `s` and `s + 1` (modulo 3); the elements are
neighbours across side 1 of element 0 and side 2 of element 1. An element has
no node of index 3. -/
def tri_mesh : MeshBase ℚ where
  mesh_dimension := 2
  point_locator := fun p =>
    if tri_contains 0 p then some 0 else if tri_contains 1 p then some 1 else none
  n_sides := fun _ => 3
  neighbor := fun elem s =>
    if elem = 0 ∧ s = 1 then some 1 else if elem = 1 ∧ s = 2 then some 0 else none
  on_boundary := fun _ => true
  build_edge := fun elem s =>
    EdgeElem.edge2 ((tri_nodes elem).getD s ⟨0, 0⟩) ((tri_nodes elem).getD ((s + 1) % 3) ⟨0, 0⟩)
  get_node := fun elem n => (tri_nodes elem).get? n
  find_point_neighbors := fun _ p => [0, 1].filter (fun elem => tri_contains elem p)
  hmin := fun _ => 1
  contains_point := tri_contains

/-- A rayfire on the triangle mesh with origin `(0,0)` and direction
`(3/5,4/5)` (tangent `4/3`): its ray crosses the diagonal at `(3/7,4/7)`. -/
def rayfire_in_triangles : RayfireMesh ℚ where
  _dim := 2
  _origin := ⟨0, 0⟩
  tan_theta := 4 / 3
  cos_theta := 3 / 5
  sin_theta := 4 / 5

/-- The members a `RayfireMesh` constructor initialises. -/
structure RayfireMembers (K : Type) where
  _dim : Nat
  _origin : Point K
  _theta : K
  _phi : K

/-- The constructor `RayfireMesh(origin, theta, phi)` (lines 49-56): the
member initialisers set `_dim` to 3, then the body raises
`libmesh_not_implemented()`, so no object is ever handed back. -/
def RayfireMesh.construct_3d {K : Type} (origin : Point K) (theta phi : K) :
    Except String (RayfireMembers K) :=
  let _members : RayfireMembers K := ⟨3, origin, theta, phi⟩
  .error "libmesh_not_implemented"

/-- The enumeration `libMesh::Elem::RefinementState`. -/
inductive RefinementState where
  | COARSEN
  | DO_NOTHING
  | REFINE
  | JUST_REFINED
  | JUST_COARSENED
  | INACTIVE
  | COARSEN_INACTIVE
  | INVALID_REFINEMENTSTATE
  deriving DecidableEq, Repr

/-- The background mesh as `reinit` sees it after adaptive refinement: the
queries of `MeshBase`, whether `mesh_base.elem(id)` is non-null, the
`refinement_flag()` of an element, and its children `child(0)`, `child(1)`,
... in order. -/
structure RefinedMesh (K : Type) extends MeshBase K where
  elem : Nat → Bool
  refinement_flag : Nat → RefinementState
  children : Nat → List Nat

/-- The message of a failed `libmesh_assert_equal_to` on a refinement flag
(lines 391 and 407), in a build where the libMesh assertions are active. -/
def refinement_assertion : String :=
  "Assertion failed: refinement_flag() == JUST_REFINED"

/-- What a run of `reinit` or `refine` leaves behind: its result (or the
error raised), the state, and the ids of the child elements the re-walk
started in or entered, in order. -/
structure ReinitOutcome (K : Type) where
  result : Except String Unit
  state : RayfireState K
  entered : List Nat

/-- The search `while(!(main_elem->child(i))->contains_point(*start_node)) i++`
of `refine` (lines 381-383) over the children from index `i` on: the first
child that contains the start node; running past the last child is an
error. -/
def find_child {K : Type} (mesh : MeshBase K) (start_node : Point K) :
    List Nat → Except String Nat
  | [] => .error "child index out of range"
  | c :: rest =>
    if mesh.contains_point c start_node then .ok c else find_child mesh start_node rest

/-- The loop of `refine` (lines 404-422) and the final edge (lines 424-430),
entered after a call of `get_next_elem` returned `next_elem` and wrote
`end_point`; the loop is cut after `fuel` tests of its condition. -/
def RayfireMesh.refine_loop {K : Type} [LinearOrderedField K] (r : RayfireMesh K)
    (mesh : RefinedMesh K) (end_node : Point K) (last_node_id : Nat) :
    Nat → Option Nat → Nat → Point K → Nat → Nat → RayfireState K → List Nat →
      Option (ReinitOutcome K)
  | 0, _, _, _, _, _, _, _ => none
  | fuel + 1, next_elem, prev_elem, end_point, start_node_id, end_node_id, st, entered =>
    if absolute_fuzzy_equals end_point end_node then
      let st1 := st.add_elem start_node_id last_node_id
      some ⟨.ok (),
        { st1 with _elem_id_map := map_assign st1._elem_id_map prev_elem st.next_elem_id },
        entered⟩
    else
      match next_elem with
      | none => some ⟨.error "null element", st, entered⟩
      | some next =>
        if mesh.refinement_flag next ≠ RefinementState.JUST_REFINED then
          some ⟨.error refinement_assertion, st, entered ++ [next]⟩
        else
          let st1 := (st.add_point end_point end_node_id).add_elem start_node_id end_node_id
          let st2 := { st1 with
            _elem_id_map := map_assign st1._elem_id_map prev_elem st.next_elem_id }
          match r.get_next_elem mesh.toMeshBase next end_point end_point with
          | (.error e, _) => some ⟨.error e, st2, entered ++ [next]⟩
          | (.ok next_elem2, new_end) =>
            r.refine_loop mesh end_node last_node_id fuel next_elem2 next new_end
              end_node_id (end_node_id + 1) st2 (entered ++ [next])

/-- Function `RayfireMesh::refine` (lines 367-432) for the background
element `main_elem` and the rayfire edge `rayfire_elem` recorded for it. A
rayfire edge or node that is not in the line mesh is a dangling pointer. -/
def RayfireMesh.refine {K : Type} [LinearOrderedField K] (r : RayfireMesh K)
    (mesh : RefinedMesh K) (fuel : Nat) (main_elem rayfire_elem : Nat) (st : RayfireState K) :
    Option (ReinitOutcome K) :=
  match st.elems.find? (fun edge => edge.id = rayfire_elem) with
  | none => some ⟨.error "dangling rayfire elem", st, []⟩
  | some edge =>
    match st.nodes.lookup edge.node0, st.nodes.lookup edge.node1 with
    | some start_node, some end_node =>
      let st1 := { st with
        elems := st.elems.filter (fun other => other.id ≠ rayfire_elem),
        _elem_id_map := map_erase st._elem_id_map main_elem }
      match find_child mesh.toMeshBase start_node (mesh.children main_elem) with
      | .error e => some ⟨.error e, st1, []⟩
      | .ok prev_elem =>
        if mesh.refinement_flag prev_elem ≠ RefinementState.JUST_REFINED then
          some ⟨.error refinement_assertion, st1, [prev_elem]⟩
        else
          match r.get_next_elem mesh.toMeshBase prev_elem start_node ⟨0, 0⟩ with
          | (.error e, _) => some ⟨.error e, st1, [prev_elem]⟩
          | (.ok next_elem, end_point) =>
            r.refine_loop mesh end_node edge.node1 fuel next_elem prev_elem end_point
              edge.node0 st1.nodes.length st1 [prev_elem]
    | _, _ => some ⟨.error "dangling rayfire node", st, []⟩

/-- The first loop of `reinit` (lines 149-158): the entries of
`_elem_id_map`, in key order, whose background element is `INACTIVE`; an
entry whose element is null fails `libmesh_assert(main_elem)`. -/
def elems_to_refine {K : Type} (mesh : RefinedMesh K) :
    List (Nat × Nat) → Except String (List (Nat × Nat))
  | [] => .ok []
  | (id, rayfire_elem) :: rest =>
    if mesh.elem id = false then .error "Assertion failed: main_elem"
    else
      match elems_to_refine mesh rest with
      | .error e => .error e
      | .ok found =>
        if mesh.refinement_flag id = RefinementState.INACTIVE then
          .ok ((id, rayfire_elem) :: found)
        else .ok found

/-- The second loop of `reinit` (lines 161-162): `refine` on each stored
pair in turn; an error ends the run. -/
def RayfireMesh.refine_each {K : Type} [LinearOrderedField K] (r : RayfireMesh K)
    (mesh : RefinedMesh K) (fuel : Nat) :
    List (Nat × Nat) → RayfireState K → List Nat → Option (ReinitOutcome K)
  | [], st, entered => some ⟨.ok (), st, entered⟩
  | (main_elem, rayfire_elem) :: rest, st, entered =>
    match r.refine mesh fuel main_elem rayfire_elem st with
    | none => none
    | some out =>
      match out.result with
      | .error e => some ⟨.error e, out.state, entered ++ out.entered⟩
      | .ok () => r.refine_each mesh fuel rest out.state (entered ++ out.entered)

/-- Function `RayfireMesh::reinit` (lines 140-163). -/
def RayfireMesh.reinit {K : Type} [LinearOrderedField K] (r : RayfireMesh K)
    (mesh : RefinedMesh K) (fuel : Nat) (st : RayfireState K) : Option (ReinitOutcome K) :=
  match elems_to_refine mesh st._elem_id_map with
  | .error e => some ⟨.error e, st, []⟩
  | .ok found => r.refine_each mesh fuel found st []

/-- The corners `(x0, x1, y0, y1)` of the elements of the 2x1 mesh after
element 0 was refined once: elements 0 and 1 are the unit squares, elements
2, 3, 4 and 5 the lower left, lower right, upper left and upper right quarter
of element 0. -/
def refined_box : Nat → ℚ × ℚ × ℚ × ℚ
  | 0 => (0, 1, 0, 1)
  | 1 => (1, 2, 0, 1)
  | 2 => (0, 1 / 2, 0, 1 / 2)
  | 3 => (1 / 2, 1, 0, 1 / 2)
  | 4 => (0, 1 / 2, 1 / 2, 1)
  | _ => (1 / 2, 1, 1 / 2, 1)

/-- The nodes of an element of the refined 2x1 mesh, counter-clockwise from
the lower left corner. -/
def refined_nodes (elem : Nat) : List (Point ℚ) :=
  match refined_box elem with
  | (x0, x1, y0, y1) => [⟨x0, y0⟩, ⟨x1, y0⟩, ⟨x1, y1⟩, ⟨x0, y1⟩]

/-- Containment in an element of the refined 2x1 mesh. -/
def refined_contains (elem : Nat) (p : Point ℚ) : Bool :=
  match refined_box elem with
  | (x0, x1, y0, y1) =>
    decide (elem ≤ 5) && decide (x0 ≤ p.x ∧ p.x ≤ x1 ∧ y0 ≤ p.y ∧ p.y ≤ y1)

/-- The neighbours in the refined 2x1 mesh; side `s` joins the nodes `s` and
`s + 1`. A child sees the unrefined element 1 across the old common side, and
element 1 still sees element 0 there. -/
def refined_neighbor : Nat → Nat → Option Nat
  | 0, 1 => some 1
  | 1, 3 => some 0
  | 2, 1 => some 3
  | 2, 2 => some 4
  | 3, 1 => some 1
  | 3, 2 => some 5
  | 3, 3 => some 2
  | 4, 0 => some 2
  | 4, 1 => some 5
  | 5, 0 => some 3
  | 5, 1 => some 1
  | 5, 3 => some 4
  | _, _ => none

/-- The 2x1 quadrilateral mesh after element 0 was refined into the children
2, 3, 4 and 5, with the refinement flags `flags`; the active elements are 1,
2, 3, 4 and 5. -/
def refined_mesh_2x1 (flags : Nat → RefinementState) : RefinedMesh ℚ where
  mesh_dimension := 2
  point_locator := fun p => [1, 2, 3, 4, 5].find? (fun elem => refined_contains elem p)
  n_sides := fun _ => 4
  neighbor := refined_neighbor
  on_boundary := fun _ => true
  build_edge := fun elem s =>
    EdgeElem.edge2 ((refined_nodes elem).getD s ⟨0, 0⟩)
      ((refined_nodes elem).getD ((s + 1) % 4) ⟨0, 0⟩)
  get_node := fun elem n => (refined_nodes elem).get? n
  find_point_neighbors := fun _ p => [1, 2, 3, 4, 5].filter (fun elem => refined_contains elem p)
  hmin := fun elem => if elem ≤ 1 then 1 else 1 / 2
  contains_point := refined_contains
  elem := fun id => decide (id ≤ 5)
  refinement_flag := flags
  children := fun elem => if elem = 0 then [2, 3, 4, 5] else []

/-- The flags after one refinement of element 0: element 0 is `INACTIVE`,
its children are `JUST_REFINED`. -/
def flags_one_level : Nat → RefinementState
  | 0 => .INACTIVE
  | 2 => .JUST_REFINED
  | 3 => .JUST_REFINED
  | 4 => .JUST_REFINED
  | 5 => .JUST_REFINED
  | _ => .DO_NOTHING

/-- Flags of a mesh refined more than once since the rayfire was built:
element 0 is `INACTIVE` and none of its children is `JUST_REFINED`. -/
def flags_two_levels : Nat → RefinementState
  | 0 => .INACTIVE
  | 3 => .INACTIVE
  | _ => .DO_NOTHING

/-- Flags where the child 2 the re-walk starts in is `JUST_REFINED` and the
child 3 it enters next is `INACTIVE`. -/
def flags_second_child_inactive : Nat → RefinementState
  | 0 => .INACTIVE
  | 1 => .DO_NOTHING
  | 3 => .INACTIVE
  | _ => .JUST_REFINED

/-- What `reinit` leaves for the rayfire with origin `(0,0)` and `theta = 0`
after element 0 of the 2x1 mesh was refined once: the new node 3 at
`(1/2,0)`, the edge 0 replaced by the edges 2 (node 0 to node 3) and 3 (node 3
to node 1), mapped to the children 2 and 3. -/
def refined_two_by_one_outcome : ReinitOutcome ℚ where
  result := .ok ()
  state :=
    { nodes := [(0, ⟨0, 0⟩), (1, ⟨1, 0⟩), (2, ⟨2, 0⟩), (3, ⟨1 / 2, 0⟩)]
      elems := [⟨1, 1, 2⟩, ⟨2, 0, 3⟩, ⟨3, 3, 1⟩]
      next_elem_id := 4
      _elem_id_map := [(1, 1), (2, 2), (3, 3)] }
  entered := [2, 3]

/-- Whether the edges, in order, lead from node `first` to node `last`,
each edge starting at the node where the one before it ends. -/
def is_chain : Nat → Nat → List Edge2 → Bool
  | first, last, [] => decide (first = last)
  | first, last, edge :: rest => decide (edge.node0 = first) && is_chain edge.node1 last rest

/-- The map after the assignments `_elem_id_map[c] = elem` for the elements
`c` of `walked` in order, the edges having the consecutive ids from
`first_id` on. -/
def assign_walked : List (Nat × Nat) → List Nat → Nat → List (Nat × Nat)
  | m, [], _ => m
  | m, c :: rest, first_id => assign_walked (map_assign m c first_id) rest (first_id + 1)

/-- A rayfire on the 2x1 mesh with origin `(0,1/2)` on the left boundary
and direction `(3/5,4/5)` (tangent `4/3`): its ray crosses the upper left
quarter of element 0 and leaves the mesh at `(3/8,1)`. -/
def rayfire_from_left_side : RayfireMesh ℚ where
  _dim := 2
  _origin := ⟨0, 1 / 2⟩
  tan_theta := 4 / 3
  cos_theta := 3 / 5
  sin_theta := 4 / 5

/-- What `init` leaves for `rayfire_from_left_side` on the 2x1 mesh: the
nodes `(0,1/2)` and `(3/8,1)`, the edge 0 between them, mapped to element 0. -/
def left_side_state : RayfireState ℚ where
  nodes := [(0, ⟨0, 1 / 2⟩), (1, ⟨3 / 8, 1⟩)]
  elems := [⟨0, 0, 1⟩]
  next_elem_id := 1
  _elem_id_map := [(0, 0)]

/-! ## Double-precision arithmetic

`libMesh::Real` is `double`. Each arithmetic operation of a `double` gives the
exact result rounded to the nearest number with a 53-bit significand, ties to
the even significand. The definitions below state the kernels again with a
rounding function applied after every operation, in the order in which the
source evaluates them; with the identity as rounding function they are the
exact definitions above. -/

/-- The power `2^e` for an integer exponent. -/
def two_pow (e : ℤ) : ℚ :=
  if 0 ≤ e then ((2 ^ e.toNat : ℕ) : ℚ) else 1 / ((2 ^ (-e).toNat : ℕ) : ℚ)

/-- The largest `k` below `found + 2^step` of the form `found + (bits below
step)` with `2^k <= n`: for `0 < n < 2^256`, `bit_search n 8 0` is the position
of the leading bit of `n`. -/
def bit_search (n : Nat) : Nat → Nat → Nat
  | 0, found => found
  | step + 1, found =>
    if 2 ^ (found + 2 ^ step) ≤ n then bit_search n step (found + 2 ^ step)
    else bit_search n step found

/-- The exponent `e` with `2^e <= |q| < 2^(e+1)`, for a non-zero `q` with
numerator and denominator below `2^256`. -/
def binade (q : ℚ) : ℤ :=
  let k : ℤ := (bit_search q.num.natAbs 8 0 : ℤ) - (bit_search q.den 8 0 : ℤ)
  if two_pow k ≤ |q| then k else k - 1

/-- The nearest integer, a tie going to the even one. -/
def round_half_even (q : ℚ) : ℤ :=
  if q - (⌊q⌋ : ℚ) < 1 / 2 then ⌊q⌋
  else if 1 / 2 < q - (⌊q⌋ : ℚ) then ⌊q⌋ + 1
  else if ⌊q⌋ % 2 = 0 then ⌊q⌋ else ⌊q⌋ + 1

/-- The rounding of IEEE-754 binary64 in its default mode: the nearest
number with a 53-bit significand, ties to even. The exponent range is not
bounded, so this is the rounding of a `double` operation wherever that
operation neither overflows nor underflows. -/
def round_double (q : ℚ) : ℚ :=
  if q = 0 then 0
  else (round_half_even (q / two_pow (binade q - 52)) : ℚ) * two_pow (binade q - 52)

/-- The loop over `d` of lines 123-133 for one coefficient vector with the
rounding `fl` after every operation: `grad += coeffs(d)*u_gradphi` from 0, for
`d` in increasing order. -/
def gradient_rounded {K : Type} [Field K] (fl : K → K) {n_u_dofs : Nat}
    (coeffs dphi_dxi : Fin n_u_dofs → K) : K :=
  (List.finRange n_u_dofs).foldl (fun grad d => fl (grad + fl (coeffs d * dphi_dxi d))) 0

/-- The residual loop of `damping_residual` (lines 154-177) with the rounding
`fl` after every operation: what the `+=` statements leave in entries `Fu(i)`,
`Fv(i)`, `Fw(i)` that were zero. -/
def stiffness_residual_rounded {K : Type} [Field K] (fl : K → K) {n_u_dofs : Nat}
    (_lambda_factor _A : K) (q : QuadraturePoint K n_u_dofs) (i : Fin n_u_dofs) :
    ResidualIncrement K :=
  let grad_u := gradient_rounded fl q.u_coeffs q.dphi_dxi
  let grad_v := gradient_rounded fl q.v_coeffs q.dphi_dxi
  let grad_w := gradient_rounded fl q.w_coeffs q.dphi_dxi
  let dgradu_dt := gradient_rounded fl q.dudt_coeffs q.dphi_dxi
  let dgradv_dt := gradient_rounded fl q.dvdt_coeffs q.dphi_dxi
  let dgradw_dt := gradient_rounded fl q.dwdt_coeffs q.dphi_dxi
  let tau := (q.stress_and_elasticity grad_u grad_v grad_w).1
  let C := (q.stress_and_elasticity grad_u grad_v grad_w).2
  let jac := q.JxW
  let u_gradphi := q.dphi_dxi i
  let u_diag_factor :=
    fl (fl (fl (fl (fl (_lambda_factor * _A) * jac) * tau) * dgradu_dt) * u_gradphi)
  let v_diag_factor :=
    fl (fl (fl (fl (fl (_lambda_factor * _A) * jac) * tau) * dgradv_dt) * u_gradphi)
  let w_diag_factor :=
    fl (fl (fl (fl (fl (_lambda_factor * _A) * jac) * tau) * dgradw_dt) * u_gradphi)
  let C1 := fl (fl (fl (fl (_lambda_factor * _A) * jac) * C) * u_gradphi)
  let gamma_u := fl (q.grad_x + grad_u)
  let gamma_v := fl (q.grad_y + grad_v)
  let gamma_w := fl (q.grad_z + grad_w)
  let x_term := fl (C1 * gamma_u)
  let y_term := fl (C1 * gamma_v)
  let z_term := fl (C1 * gamma_w)
  let dt_term := fl (fl (fl (dgradu_dt * gamma_u) + fl (dgradv_dt * gamma_v))
    + fl (dgradw_dt * gamma_w))
  { Fu := fl (u_diag_factor + fl (x_term * dt_term)),
    Fv := fl (v_diag_factor + fl (y_term * dt_term)),
    Fw := fl (w_diag_factor + fl (z_term * dt_term)) }

/-- The Jacobian loop of `damping_residual` (lines 179-258) with the rounding
`fl` after every operation: what the (up to three) `+=` statements, in source
order, leave in entries of the nine blocks at `(i,j)` that were zero. -/
def stiffness_jacobian_rounded {K : Type} [Field K] (fl : K → K) {n_u_dofs : Nat}
    (_lambda_factor _A : K) (q : QuadraturePoint K n_u_dofs)
    (solution_derivative solution_rate_derivative : K) (i j : Fin n_u_dofs) :
    JacobianIncrement K :=
  let grad_u := gradient_rounded fl q.u_coeffs q.dphi_dxi
  let grad_v := gradient_rounded fl q.v_coeffs q.dphi_dxi
  let grad_w := gradient_rounded fl q.w_coeffs q.dphi_dxi
  let dgradu_dt := gradient_rounded fl q.dudt_coeffs q.dphi_dxi
  let dgradv_dt := gradient_rounded fl q.dvdt_coeffs q.dphi_dxi
  let dgradw_dt := gradient_rounded fl q.dwdt_coeffs q.dphi_dxi
  let tau := (q.stress_and_elasticity grad_u grad_v grad_w).1
  let C := (q.stress_and_elasticity grad_u grad_v grad_w).2
  let jac := q.JxW
  let u_gradphi_I := q.dphi_dxi i
  let u_gradphi_J := q.dphi_dxi j
  let common_factor := fl (fl (fl (_lambda_factor * _A) * jac) * u_gradphi_I)
  let diag_term_1 :=
    fl (fl (fl (common_factor * tau) * u_gradphi_J) * solution_rate_derivative)
  let dgamma_du := fl (u_gradphi_J * fl (q.grad_x + grad_u))
  let dgamma_dv := fl (u_gradphi_J * fl (q.grad_y + grad_v))
  let dgamma_dw := fl (u_gradphi_J * fl (q.grad_z + grad_w))
  let diag_term_2_factor := fl (fl (common_factor * C) * solution_derivative)
  let C1 := fl (common_factor * C)
  let gamma_u := fl (q.grad_x + grad_u)
  let gamma_v := fl (q.grad_y + grad_v)
  let gamma_w := fl (q.grad_z + grad_w)
  let x_term := fl (C1 * gamma_u)
  let y_term := fl (C1 * gamma_v)
  let z_term := fl (C1 * gamma_w)
  let ddtterm_du := fl (u_gradphi_J * fl (fl (gamma_u * solution_rate_derivative)
    + fl (dgradu_dt * solution_derivative)))
  let ddtterm_dv := fl (u_gradphi_J * fl (fl (gamma_v * solution_rate_derivative)
    + fl (dgradv_dt * solution_derivative)))
  let ddtterm_dw := fl (u_gradphi_J * fl (fl (gamma_w * solution_rate_derivative)
    + fl (dgradw_dt * solution_derivative)))
  let dt_term := fl (fl (fl (dgradu_dt * gamma_u) + fl (dgradv_dt * gamma_v))
    + fl (dgradw_dt * gamma_w))
  let dxterm_du := fl (fl (C1 * u_gradphi_J) * solution_derivative)
  let dyterm_dv := dxterm_du
  let dzterm_dw := dxterm_du
  { Kuu := fl (fl (fl (diag_term_1 + fl (fl (dgradu_dt * diag_term_2_factor) * dgamma_du))
      + fl (x_term * ddtterm_du)) + fl (dxterm_du * dt_term)),
    Kuv := fl (fl (fl (dgradu_dt * diag_term_2_factor) * dgamma_dv) + fl (x_term * ddtterm_dv)),
    Kuw := fl (fl (fl (dgradu_dt * diag_term_2_factor) * dgamma_dw) + fl (x_term * ddtterm_dw)),
    Kvu := fl (fl (fl (dgradv_dt * diag_term_2_factor) * dgamma_du) + fl (y_term * ddtterm_du)),
    Kvv := fl (fl (fl (diag_term_1 + fl (fl (dgradv_dt * diag_term_2_factor) * dgamma_dv))
      + fl (y_term * ddtterm_dv)) + fl (dyterm_dv * dt_term)),
    Kvw := fl (fl (fl (dgradv_dt * diag_term_2_factor) * dgamma_dw) + fl (y_term * ddtterm_dw)),
    Kwu := fl (fl (fl (dgradw_dt * diag_term_2_factor) * dgamma_du) + fl (z_term * ddtterm_du)),
    Kwv := fl (fl (fl (dgradw_dt * diag_term_2_factor) * dgamma_dv) + fl (z_term * ddtterm_dv)),
    Kww := fl (fl (fl (diag_term_1 + fl (fl (dgradw_dt * diag_term_2_factor) * dgamma_dw))
      + fl (z_term * ddtterm_dw)) + fl (dzterm_dw * dt_term)) }

/-- The straight two-node edge (`EDGE2`) from `a` to `b` with the rounding
`fl` in its shape functions `.5*(1. - xi)` and `.5*(1. + xi)`; its
`contains_point` is that of `EdgeElem.edge2`. -/
def EdgeElem.edge2_rounded {K : Type} [LinearOrderedField K] (fl : K → K) (a b : Point K) :
    EdgeElem K where
  nodes := [a, b]
  shape := fun i xi => if i = 0 then fl (1 / 2 * fl (1 - xi)) else fl (1 / 2 * fl (1 + xi))
  shape_deriv := fun i _ => if i = 0 then -1 / 2 else 1 / 2
  contains_point := (EdgeElem.edge2 a b).contains_point

/-- The accumulation loops of lines 337-343 with the rounding `fl` after
every operation. -/
def accumulate_rounded {K : Type} [LinearOrderedField K] (fl : K → K) (coord : Point K → K)
    (weight : Nat → K) : List (Point K) → Nat → K → K
  | [], _, acc => acc
  | node :: rest, i, acc =>
    accumulate_rounded fl coord weight rest (i + 1) (fl (acc + fl (coord node * weight i)))

/-- The values `X`, `Y`, `dX`, `dY` of one Newton iteration (lines 321-343)
with the rounding `fl` after every operation. -/
def edge_position_rounded {K : Type} [LinearOrderedField K] (fl : K → K)
    (edge_elem : EdgeElem K) (xi : K) : K × K × K × K :=
  (accumulate_rounded fl Point.x (fun i => edge_elem.shape i xi) edge_elem.nodes 0 0,
   accumulate_rounded fl Point.y (fun i => edge_elem.shape i xi) edge_elem.nodes 0 0,
   accumulate_rounded fl Point.x (fun i => edge_elem.shape_deriv i xi) edge_elem.nodes 0 0,
   accumulate_rounded fl Point.y (fun i => edge_elem.shape_deriv i xi) edge_elem.nodes 0 0)

/-- The Newton loop of `newton_solve_intersection` (lines 316-360) with the
rounding `fl` after every operation; `xi` is `none` once it is no longer
finite, as in `newton_iterate`. -/
def newton_iterate_rounded {K : Type} [LinearOrderedField K] (fl : K → K)
    (tan_theta x0 y0 : K) (edge_elem : EdgeElem K) : Nat → Option K → Option (Point K)
  | 0, _ => none
  | remaining + 1, none => newton_iterate_rounded fl tan_theta x0 y0 edge_elem remaining none
  | remaining + 1, some xi =>
    let X := (edge_position_rounded fl edge_elem xi).1
    let Y := (edge_position_rounded fl edge_elem xi).2.1
    let dX := (edge_position_rounded fl edge_elem xi).2.2.1
    let dY := (edge_position_rounded fl edge_elem xi).2.2.2
    let f := fl (fl (tan_theta * fl (X - x0)) - fl (Y - y0))
    let df := fl (fl (tan_theta * dX) - dY)
    if df = 0 then
      newton_iterate_rounded fl tan_theta x0 y0 edge_elem remaining none
    else
      let d_xi := fl (f / df)
      if |d_xi| < fl TOLERANCE then
        some ⟨X, Y⟩
      else
        newton_iterate_rounded fl tan_theta x0 y0 edge_elem remaining (some (fl (xi - d_xi)))

/-- Function `RayfireMesh::newton_solve_intersection` (lines 292-364) with
the rounding `fl` after every operation. -/
def RayfireMesh.newton_solve_intersection_rounded {K : Type} [LinearOrderedField K]
    (fl : K → K) (r : RayfireMesh K) (initial_point : Point K) (edge_elem : EdgeElem K)
    (intersection_point : Point K) : Bool × Point K :=
  match newton_iterate_rounded fl r.tan_theta initial_point.x initial_point.y edge_elem 20
      (some 0) with
  | some converged => (true, converged)
  | none => (false, intersection_point)

/-- The rayfire for the double nearest `pi/2`: `std::tan` gives
`16331239353195370`, `std::cos` gives `6.123233995736766e-17` and `std::sin`
gives 1. -/
def rayfire_half_pi : RayfireMesh ℚ where
  _dim := 2
  _origin := ⟨1 / 2, 0⟩
  tan_theta := 16331239353195370
  cos_theta := 4967757600021511 / 81129638414606681695789005144064
  sin_theta := 1

/-- The rayfire for the double `pi/2 + pi`, the opposite ray: `std::tan`
gives `5443746451065123`, `std::cos` gives `-1.8369701987210297e-16` and
`std::sin` gives -1. -/
def rayfire_three_half_pi : RayfireMesh ℚ where
  _dim := 2
  _origin := ⟨1 / 2, 0⟩
  tan_theta := 5443746451065123
  cos_theta := -3725818200016133 / 20282409603651670423947251286016
  sin_theta := -1

theorem check_build_parse_state_unset (s : VariableFactoryAbstract)
    (h : s._input = none ∨ s._var_section = "DIE!") :
    check_build_parse_state s =
      .error (if s._input.isNone then set_getpot_error else set_var_section_error) := by
  unfold check_build_parse_state
  by_cases h1 : s._input.isNone
  · simp [h1]
  · have h2 : s._var_section = "DIE!" := by
      rcases h with h | h
      · simp [h] at h1
      · exact h
    simp [h1, h2]

theorem stops_of_check (s : VariableFactoryAbstract) (e : String)
    (h : check_build_parse_state s = .error e) : stops_at_state_check s e := by
  intro factory_map name
  simp [build_var_names, parse_fe_family, parse_fe_order, h]

/-- C1: for every registry and every name (registered or not),
`build_var_names`, `parse_fe_family` and `parse_fe_order` each raise an error
when the input handle is null or the section holds its unset value `DIE!`;
the static state is left as it was and neither the registry lookup nor a parse
hook is called. The error is the `set_getpot` message when the handle is null
and the `set_var_section` message otherwise. -/
theorem build_parse_require_setup (s : VariableFactoryAbstract)
    (h : s._input = none ∨ s._var_section = "DIE!") :
    stops_at_state_check s
      (if s._input.isNone then set_getpot_error else set_var_section_error) :=
  stops_of_check s _ (check_build_parse_state_unset s h)

/-- Witness for C1: the handle is set but the section is not; the registered
name `Velocity` is still refused, with the `set_var_section` message. -/
theorem build_parse_require_setup_witness :
    ((set_getpot sample_input VariableFactoryAbstract.initial)._input = none ∨
      (set_getpot sample_input VariableFactoryAbstract.initial)._var_section = "DIE!") ∧
    (build_var_names sample_factory_map "Velocity"
      (set_getpot sample_input VariableFactoryAbstract.initial)).result
        = .error set_var_section_error ∧
    (build_var_names sample_factory_map "Velocity"
      (set_getpot sample_input VariableFactoryAbstract.initial)).calls = [] :=
  ⟨Or.inr rfl,
   ((build_parse_require_setup _ (Or.inr rfl)) sample_factory_map "Velocity").1,
   ((build_parse_require_setup _ (Or.inr rfl)) sample_factory_map "Velocity").2.2.1⟩

theorem build_var_names_ok_state (factory_map : String → Option VariableFactory) (name : String)
    (s : VariableFactoryAbstract) (v : List String)
    (h : (build_var_names factory_map name s).result = .ok v) :
    (build_var_names factory_map name s).state = reset_build_parse_state s := by
  unfold build_var_names at h ⊢
  split at h
  · simp at h
  · split at h
    · simp at h
    · split at h
      · simp at h
      · split at h
        · simp at h
        · rfl

theorem parse_fe_family_ok_state (factory_map : String → Option VariableFactory) (name : String)
    (s : VariableFactoryAbstract) (v : String)
    (h : (parse_fe_family factory_map name s).result = .ok v) :
    (parse_fe_family factory_map name s).state = reset_build_parse_state s := by
  unfold parse_fe_family at h ⊢
  split at h
  · simp at h
  · split at h
    · simp at h
    · split at h
      · simp at h
      · split at h
        · simp at h
        · rfl

theorem parse_fe_order_ok_state (factory_map : String → Option VariableFactory) (name : String)
    (s : VariableFactoryAbstract) (v : String)
    (h : (parse_fe_order factory_map name s).result = .ok v) :
    (parse_fe_order factory_map name s).state = reset_build_parse_state s := by
  unfold parse_fe_order at h ⊢
  split at h
  · simp at h
  · split at h
    · simp at h
    · split at h
      · simp at h
      · split at h
        · simp at h
        · rfl

theorem check_reset_state (s : VariableFactoryAbstract) :
    check_build_parse_state (reset_build_parse_state s) = .error set_getpot_error := by
  simp [check_build_parse_state, reset_build_parse_state]

theorem check_reset_set_getpot (input : GetPot) (s : VariableFactoryAbstract) :
    check_build_parse_state (set_getpot input (reset_build_parse_state s))
      = .error set_var_section_error := by
  simp [check_build_parse_state, reset_build_parse_state, set_getpot]

theorem check_reset_set_var_section (var_section : String) (s : VariableFactoryAbstract) :
    check_build_parse_state (set_var_section var_section (reset_build_parse_state s))
      = .error set_getpot_error := by
  simp [check_build_parse_state, reset_build_parse_state, set_var_section]

/-- C2: when a call of `build_var_names`, `parse_fe_family` or
`parse_fe_order` returns, leaving the static state `t`, the input handle of
`t` is null and its section is the unset value `DIE!`; an immediately
following call of any of the three, for any registry and name, stops at the
state check with the `set_getpot` message, and still stops there when only
one of `set_getpot`, `set_var_section` has been called again. -/
theorem build_parse_reset_after_return (factory_map : String → Option VariableFactory)
    (name : String) (s t : VariableFactoryAbstract)
    (h : (∃ v, (build_var_names factory_map name s).result = .ok v ∧
            (build_var_names factory_map name s).state = t) ∨
         (∃ v, (parse_fe_family factory_map name s).result = .ok v ∧
            (parse_fe_family factory_map name s).state = t) ∨
         (∃ v, (parse_fe_order factory_map name s).result = .ok v ∧
            (parse_fe_order factory_map name s).state = t)) :
    t._input = none ∧ t._var_section = "DIE!" ∧
    stops_at_state_check t set_getpot_error ∧
    (∀ input, stops_at_state_check (set_getpot input t) set_var_section_error) ∧
    (∀ var_section, stops_at_state_check (set_var_section var_section t) set_getpot_error) := by
  have ht : t = reset_build_parse_state s := by
    rcases h with ⟨v, hv, hs⟩ | ⟨v, hv, hs⟩ | ⟨v, hv, hs⟩
    · rw [← hs]; exact build_var_names_ok_state _ _ _ v hv
    · rw [← hs]; exact parse_fe_family_ok_state _ _ _ v hv
    · rw [← hs]; exact parse_fe_order_ok_state _ _ _ v hv
  subst ht
  refine ⟨rfl, rfl, stops_of_check _ _ (check_reset_state s), ?_, ?_⟩
  · intro input
    exact stops_of_check _ _ (check_reset_set_getpot input s)
  · intro var_section
    exact stops_of_check _ _ (check_reset_set_var_section var_section s)

/-- Witness for C2: `build_var_names` returns `["Ux"]` for the registered name
`Velocity`; a following `parse_fe_family` for the same name is refused. -/
theorem build_parse_reset_after_return_witness :
    (build_var_names sample_factory_map "Velocity" sample_ready_state).result = .ok ["Ux"] ∧
    (parse_fe_family sample_factory_map "Velocity"
      (build_var_names sample_factory_map "Velocity" sample_ready_state).state).result
        = .error set_getpot_error :=
  ⟨rfl,
   ((build_parse_reset_after_return sample_factory_map "Velocity" sample_ready_state _
      (Or.inl ⟨["Ux"], rfl, rfl⟩)).2.2.1 sample_factory_map "Velocity").2.2.2.1⟩

theorem check_create_state_ok_iff (s : VariableFactoryAbstract) :
    check_create_state s = .ok () ↔
      s._var_names.isSome ∧ s._var_indices.isSome ∧ s._subdomain_ids.isSome := by
  unfold check_create_state
  cases s._var_names <;> cases s._var_indices <;> cases s._subdomain_ids <;> simp

/-- C3: `create()` raises an error exactly when one of the variable-names,
variable-indices, subdomain-ids pointers is null; when all three are set it
returns the result of `build_fe_var` applied to exactly the three values they
point to. -/
theorem create_fails_iff_unset {α : Type}
    (build_fe_var : List String → List Nat → List Nat → α) (s : VariableFactoryAbstract) :
    ((∃ e, (create build_fe_var s).1 = .error e) ↔
      (s._var_names = none ∨ s._var_indices = none ∨ s._subdomain_ids = none)) ∧
    (∀ var_names var_indices subdomain_ids,
      s._var_names = some var_names → s._var_indices = some var_indices →
      s._subdomain_ids = some subdomain_ids →
      (create build_fe_var s).1 = .ok (build_fe_var var_names var_indices subdomain_ids)) := by
  unfold create check_create_state
  cases s._var_names <;> cases s._var_indices <;> cases s._subdomain_ids <;> simp

/-- C4: after a successful `create()` the variable-names, variable-indices
and subdomain-ids pointers of the static state `t` it leaves are all null, and
a second `create()` on `t`, for the `build_fe_var` of any factory, raises an
error and leaves `t` as it is. -/
theorem create_clears_state {α : Type}
    (build_fe_var : List String → List Nat → List Nat → α) (s : VariableFactoryAbstract)
    (v : α) (h : (create build_fe_var s).1 = .ok v) :
    (create build_fe_var s).2._var_names = none ∧
    (create build_fe_var s).2._var_indices = none ∧
    (create build_fe_var s).2._subdomain_ids = none ∧
    ∀ (β : Type) (build_other : List String → List Nat → List Nat → β),
      create build_other (create build_fe_var s).2 =
        (.error "ERROR: must call set_var_names() before building FEVariablesBase!",
         (create build_fe_var s).2) := by
  unfold create check_create_state at h ⊢
  cases h1 : s._var_names <;> cases h2 : s._var_indices <;> cases h3 : s._subdomain_ids <;>
    simp_all [reset_create_state, create, check_create_state]

/-- Witness for C4: a first `create()` succeeds with the three values that
were set, a second one on the state it leaves fails. -/
theorem create_clears_state_witness :
    (create (fun n i d => (n, i, d)) sample_create_state).1 = .ok (["Ux"], [0], [1, 2]) ∧
    (create (fun n i d => (n, i, d))
      (create (fun n i d => (n, i, d)) sample_create_state).2).1 =
        .error "ERROR: must call set_var_names() before building FEVariablesBase!" :=
  ⟨rfl,
   congrArg Prod.fst ((create_clears_state (fun n i d => (n, i, d)) sample_create_state
      (["Ux"], [0], [1, 2]) rfl).2.2.2 _ (fun n i d => (n, i, d)))⟩

/-- C5: `SpeciesVariableFactory::parse_var_names` raises an error, and never
invokes `MaterialsParsing::parse_species_varnames`, for every configuration
in which `<var_section>/material` or `<var_section>/names` is absent; when both
keys are present it invokes the enumeration exactly once, with the configured
material and prefix, and returns what the enumeration gives. -/
theorem species_parse_var_names_requires_keys
    (parse_species_varnames : GetPot → String → String → Except String (List String))
    (self : SpeciesVariableFactory) (input : GetPot) (var_section : String) :
    ((input.have_variable (var_section ++ "/material") = false ∨
        input.have_variable (var_section ++ "/names") = false) →
      (∃ e, (self.parse_var_names parse_species_varnames input var_section).result = .error e) ∧
      (self.parse_var_names parse_species_varnames input var_section).species_calls = []) ∧
    ((input.have_variable (var_section ++ "/material") = true ∧
        input.have_variable (var_section ++ "/names") = true) →
      (self.parse_var_names parse_species_varnames input var_section).species_calls =
        [(input.string_value (var_section ++ "/material") "DIE!",
          input.string_value (var_section ++ "/names") "DIE!")] ∧
      (self.parse_var_names parse_species_varnames input var_section).result =
        parse_species_varnames input (input.string_value (var_section ++ "/material") "DIE!")
          (input.string_value (var_section ++ "/names") "DIE!")) := by
  unfold SpeciesVariableFactory.parse_var_names
  cases h1 : input.have_variable (var_section ++ "/names") <;>
    cases h2 : input.have_variable (var_section ++ "/material") <;> simp [h1, h2]

/-- Concrete configurations for the species factory: with both keys the enumeration is invoked
with material `TestMaterial` and prefix `Y_`; without the material key the
call fails, naming the key, and the enumeration is not invoked. -/
theorem species_parse_var_names_examples :
    (SpeciesVariableFactory.parse_var_names sample_parse_species_varnames ⟨"", ""⟩
        sample_species_input "Variables/SpeciesMassFractions").result = .ok ["Y_N2", "Y_N"] ∧
    (SpeciesVariableFactory.parse_var_names sample_parse_species_varnames ⟨"", ""⟩
        sample_species_input "Variables/SpeciesMassFractions").species_calls
      = [("TestMaterial", "Y_")] ∧
    (SpeciesVariableFactory.parse_var_names sample_parse_species_varnames ⟨"", ""⟩
        sample_species_input_no_material "Variables/SpeciesMassFractions").result
      = .error ("ERROR: Could not find input parameter "
          ++ "Variables/SpeciesMassFractions/material for species material!") ∧
    (SpeciesVariableFactory.parse_var_names sample_parse_species_varnames ⟨"", ""⟩
        sample_species_input_no_material "Variables/SpeciesMassFractions").species_calls = [] := by
  refine ⟨?_, ?_, ?_, ?_⟩ <;> rfl

/-! ## Theorems: elastic cable Rayleigh damping, constructor -/

theorem lambda_factor_message (rayleigh_name : String) :
    "ERROR: Couldn't find Physics/" ++ rayleigh_name ++ "/lambda_factor in input!" =
      "ERROR: Couldn't find " ++ ("Physics/" ++ rayleigh_name ++ "/lambda_factor")
        ++ " in input!" := by
  have h1 : "ERROR: Couldn't find Physics/" = "ERROR: Couldn't find " ++ "Physics/" := by decide
  have h2 : "/lambda_factor in input!" = "/lambda_factor" ++ " in input!" := by decide
  rw [h1, h2]
  simp only [String.append_assoc]

theorem mu_factor_message (rayleigh_name : String) :
    "ERROR: Couldn't find Physics/" ++ rayleigh_name ++ "/mu_factor in input!" =
      "ERROR: Couldn't find " ++ ("Physics/" ++ rayleigh_name ++ "/mu_factor")
        ++ " in input!" := by
  have h1 : "ERROR: Couldn't find Physics/" = "ERROR: Couldn't find " ++ "Physics/" := by decide
  have h2 : "/mu_factor in input!" = "/mu_factor" ++ " in input!" := by decide
  rw [h1, h2]
  simp only [String.append_assoc]

/-- C6: constructing `ElasticCableRayleighDamping` from a configuration
that lacks `Physics/<rayleigh-damping-name>/lambda_factor` or
`Physics/<rayleigh-damping-name>/mu_factor` never yields an object (so the
default 0.0 is never used for an absent factor); once the base-class
constructor has completed, the error message is `ERROR: Couldn't find `,
followed by the full path of the first absent key (`lambda_factor` before
`mu_factor`), followed by ` in input!`. -/
theorem damping_ctor_requires_factors {β : Type} (rayleigh_name master_name : String)
    (base_ctor : GetPot → Except String β)
    (parse_enabled_subdomains : β → GetPot → String → β) (input : GetPot)
    (h : input.have_variable ("Physics/" ++ rayleigh_name ++ "/lambda_factor") = false ∨
         input.have_variable ("Physics/" ++ rayleigh_name ++ "/mu_factor") = false) :
    (∃ e, ElasticCableRayleighDamping.construct rayleigh_name master_name base_ctor
        parse_enabled_subdomains input = .error e) ∧
    (∀ base, base_ctor input = .ok base →
      (input.have_variable ("Physics/" ++ rayleigh_name ++ "/lambda_factor") = false →
        ElasticCableRayleighDamping.construct rayleigh_name master_name base_ctor
          parse_enabled_subdomains input =
        .error ("ERROR: Couldn't find " ++ ("Physics/" ++ rayleigh_name ++ "/lambda_factor")
          ++ " in input!")) ∧
      (input.have_variable ("Physics/" ++ rayleigh_name ++ "/lambda_factor") = true →
        input.have_variable ("Physics/" ++ rayleigh_name ++ "/mu_factor") = false ∧
        ElasticCableRayleighDamping.construct rayleigh_name master_name base_ctor
          parse_enabled_subdomains input =
        .error ("ERROR: Couldn't find " ++ ("Physics/" ++ rayleigh_name ++ "/mu_factor")
          ++ " in input!"))) := by
  rw [← lambda_factor_message, ← mu_factor_message]
  unfold ElasticCableRayleighDamping.construct
  cases hb : base_ctor input with
  | error e => simp
  | ok base =>
    cases hl : input.have_variable ("Physics/" ++ rayleigh_name ++ "/lambda_factor") <;>
      cases hm : input.have_variable ("Physics/" ++ rayleigh_name ++ "/mu_factor") <;>
      simp_all

/-- Witness for C6: `lambda_factor` is present and `mu_factor` is absent; the
message holds the path `Physics/ElasticCableRayleighDamping/mu_factor`. -/
theorem damping_ctor_requires_factors_witness :
    sample_damping_input_no_mu.have_variable
      ("Physics/" ++ "ElasticCableRayleighDamping" ++ "/mu_factor") = false ∧
    ElasticCableRayleighDamping.construct "ElasticCableRayleighDamping" "ElasticCable"
      (fun _ => .ok []) sample_parse_enabled_subdomains sample_damping_input_no_mu =
    .error ("ERROR: Couldn't find "
      ++ ("Physics/" ++ "ElasticCableRayleighDamping" ++ "/mu_factor") ++ " in input!") :=
  ⟨rfl,
   (((damping_ctor_requires_factors "ElasticCableRayleighDamping" "ElasticCable"
      (fun _ => .ok []) sample_parse_enabled_subdomains sample_damping_input_no_mu
      (Or.inr rfl)).2 [] rfl).2 rfl).2⟩

/-- C7: with both damping factors present and the base-class constructor
completed, a configuration that has
`Physics/<rayleigh-damping-name>/enabled_subdomains` makes the constructor
fail with a message that ends with the name of the master physics
(`PhysicsNaming::elastic_cable()`) and a full stop; when that key is absent
the constructor succeeds, its subdomains being those that
`parse_enabled_subdomains` reads from the master physics section, and its
factors the configured values. -/
theorem damping_ctor_subdomains_from_master {β : Type} (rayleigh_name master_name : String)
    (base_ctor : GetPot → Except String β)
    (parse_enabled_subdomains : β → GetPot → String → β) (input : GetPot) (base : β)
    (hbase : base_ctor input = .ok base)
    (hl : input.have_variable ("Physics/" ++ rayleigh_name ++ "/lambda_factor") = true)
    (hm : input.have_variable ("Physics/" ++ rayleigh_name ++ "/mu_factor") = true) :
    (input.have_variable ("Physics/" ++ rayleigh_name ++ "/enabled_subdomains") = true →
      ElasticCableRayleighDamping.construct rayleigh_name master_name base_ctor
        parse_enabled_subdomains input =
      .error (("ERROR: Cannot specify subdomains for " ++ rayleigh_name
        ++ "! Must specify subdomains through ") ++ master_name ++ ".")) ∧
    (input.have_variable ("Physics/" ++ rayleigh_name ++ "/enabled_subdomains") = false →
      ElasticCableRayleighDamping.construct rayleigh_name master_name base_ctor
        parse_enabled_subdomains input =
      .ok { base := parse_enabled_subdomains base input master_name,
            _lambda_factor :=
              input.real_value ("Physics/" ++ rayleigh_name ++ "/lambda_factor") 0,
            _mu_factor := input.real_value ("Physics/" ++ rayleigh_name ++ "/mu_factor") 0 }) := by
  unfold ElasticCableRayleighDamping.construct
  cases hs : input.have_variable ("Physics/" ++ rayleigh_name ++ "/enabled_subdomains") <;>
    simp [hbase, hl, hm, hs]

/-- Witness for C7: subdomains declared on the damping physics are refused
with a message naming `ElasticCable`; declared on `ElasticCable` only, they are
the subdomains `1` and `2` of the constructed object. -/
theorem damping_ctor_subdomains_from_master_witness :
    ElasticCableRayleighDamping.construct "ElasticCableRayleighDamping" "ElasticCable"
      (fun _ => .ok []) sample_parse_enabled_subdomains sample_damping_input_own_subdomains =
    .error ("ERROR: Cannot specify subdomains for ElasticCableRayleighDamping"
      ++ "! Must specify subdomains through " ++ "ElasticCable" ++ ".") ∧
    ElasticCableRayleighDamping.construct "ElasticCableRayleighDamping" "ElasticCable"
      (fun _ => .ok []) sample_parse_enabled_subdomains sample_damping_input =
    .ok { base := ["1", "2"], _lambda_factor := 1 / 10, _mu_factor := 1 / 5 } :=
  ⟨(damping_ctor_subdomains_from_master "ElasticCableRayleighDamping" "ElasticCable"
      (fun _ => .ok []) sample_parse_enabled_subdomains sample_damping_input_own_subdomains
      [] rfl rfl rfl).1 rfl,
   (damping_ctor_subdomains_from_master "ElasticCableRayleighDamping" "ElasticCable"
      (fun _ => .ok []) sample_parse_enabled_subdomains sample_damping_input
      [] rfl rfl rfl).2 rfl⟩

/-! ## Theorems: stiffness-damping Jacobian -/

theorem gradient_update {K : Type} [Field K] {n_u_dofs : Nat}
    (coeffs dphi_dxi : Fin n_u_dofs → K) (j : Fin n_u_dofs) (t : K) :
    gradient (Function.update coeffs j (coeffs j + t)) dphi_dxi
      = gradient coeffs dphi_dxi + t * dphi_dxi j := by
  unfold gradient
  have h : ∀ d, Function.update coeffs j (coeffs j + t) d * dphi_dxi d
      = coeffs d * dphi_dxi d + (if d = j then t * dphi_dxi j else 0) := by
    intro d
    by_cases hd : d = j
    · subst hd
      simp [add_mul]
    · simp [Function.update_noteq hd, hd]
  simp only [h, Finset.sum_add_distrib, Finset.sum_ite_eq', Finset.mem_univ, if_true]

/-- The derivative at `0` of a function of the shape every residual entry
takes along a coefficient perturbation: a stress factor times an affine
factor, plus an elasticity factor times two affine factors. -/
theorem hasDerivAt_residual_shape (T Cf : ℝ → ℝ) (dT dCf c a0 a1 b0 b1 e0 e1 : ℝ)
    (hT : HasDerivAt T dT 0) (hCf : HasDerivAt Cf dCf 0) :
    HasDerivAt (fun t => c * T t * (a0 + a1 * t) + c * Cf t * (b0 + b1 * t) * (e0 + e1 * t))
      (c * (dT * a0 + T 0 * a1) + c * (dCf * b0 * e0 + Cf 0 * (b1 * e0 + b0 * e1))) 0 := by
  have hid : HasDerivAt (fun t : ℝ => t) 1 0 := hasDerivAt_id 0
  have ha : HasDerivAt (fun t : ℝ => a0 + a1 * t) a1 0 := by
    have h := (hid.const_mul a1).const_add a0
    simpa using h
  have hb : HasDerivAt (fun t : ℝ => b0 + b1 * t) b1 0 := by
    have h := (hid.const_mul b1).const_add b0
    simpa using h
  have he : HasDerivAt (fun t : ℝ => e0 + e1 * t) e1 0 := by
    have h := (hid.const_mul e1).const_add e0
    simpa using h
  have h1 := ((hT.const_mul c).mul ha).add (((hCf.const_mul c).mul hb).mul he)
  convert h1 using 1
  simp only [mul_zero, add_zero]
  ring

theorem residual_along_solution {K : Type} [Field K] {n_u_dofs : Nat} (lf A : K)
    (q : QuadraturePoint K n_u_dofs) (i j : Fin n_u_dofs) (a b : Component) (t : K) :
    (stiffness_residual lf A (q.perturb_solution b j t) i).get a =
      (lf * A * q.JxW * q.dphi_dxi i) * (q.law_along b (t * q.dphi_dxi j)).1
          * (q.rate_gradient a + 0 * t)
      + (lf * A * q.JxW * q.dphi_dxi i) * (q.law_along b (t * q.dphi_dxi j)).2
          * (q.gamma a + (if a = b then q.dphi_dxi j else 0) * t)
          * (q.dt_term + (q.dphi_dxi j * q.rate_gradient b) * t) := by
  cases a <;> cases b <;>
    simp only [stiffness_residual, QuadraturePoint.perturb_solution, ResidualIncrement.get,
      QuadraturePoint.law_along, QuadraturePoint.gamma, QuadraturePoint.dt_term,
      QuadraturePoint.rate_gradient, gradient_update, reduceCtorEq, if_true, if_false] <;>
    ring

theorem residual_along_rate {K : Type} [Field K] {n_u_dofs : Nat} (lf A : K)
    (q : QuadraturePoint K n_u_dofs) (i j : Fin n_u_dofs) (a b : Component) (t : K) :
    (stiffness_residual lf A (q.perturb_rate b j t) i).get a =
      (lf * A * q.JxW * q.dphi_dxi i) * q.tau
          * (q.rate_gradient a + (if a = b then q.dphi_dxi j else 0) * t)
      + (lf * A * q.JxW * q.dphi_dxi i) * q.C
          * (q.gamma a + 0 * t)
          * (q.dt_term + (q.dphi_dxi j * q.gamma b) * t) := by
  cases a <;> cases b <;>
    simp only [stiffness_residual, QuadraturePoint.perturb_rate, ResidualIncrement.get,
      QuadraturePoint.tau, QuadraturePoint.C, QuadraturePoint.gamma, QuadraturePoint.dt_term,
      QuadraturePoint.rate_gradient, gradient_update, reduceCtorEq, if_true, if_false] <;>
    ring

theorem jacobian_closed_form {K : Type} [Field K] {n_u_dofs : Nat} (lf A : K)
    (q : QuadraturePoint K n_u_dofs) (sd rd : K) (i j : Fin n_u_dofs) (a b : Component) :
    (stiffness_jacobian lf A q sd rd i j).get a b =
      sd * ((lf * A * q.JxW * q.dphi_dxi i) * (q.C * q.gamma b * q.dphi_dxi j * q.rate_gradient a)
        + (lf * A * q.JxW * q.dphi_dxi i) * (q.C * ((if a = b then q.dphi_dxi j else 0) * q.dt_term
            + q.gamma a * (q.dphi_dxi j * q.rate_gradient b))))
      + rd * ((lf * A * q.JxW * q.dphi_dxi i) * (q.tau * (if a = b then q.dphi_dxi j else 0))
        + (lf * A * q.JxW * q.dphi_dxi i) * (q.C * (q.gamma a * (q.dphi_dxi j * q.gamma b)))) := by
  cases a <;> cases b <;>
    simp only [stiffness_jacobian, JacobianIncrement.get,
      QuadraturePoint.tau, QuadraturePoint.C, QuadraturePoint.gamma, QuadraturePoint.dt_term,
      QuadraturePoint.rate_gradient, reduceCtorEq, if_true, if_false] <;>
    ring

theorem law_along_zero {K : Type} [Field K] {n_u_dofs : Nat}
    (q : QuadraturePoint K n_u_dofs) (b : Component) :
    q.law_along b 0 = (q.tau, q.C) := by
  cases b <;> simp [QuadraturePoint.law_along, QuadraturePoint.tau, QuadraturePoint.C]

/-- C8: at a quadrature point, for every pair of DOF indices `(i,j)` and
each of the nine blocks (row component `a`, column component `b`), suppose
the stress `tau(0,0)` varies with component `b` of the displacement gradient
at the rate `C(0,0,0,0)` times the variation `gamma b` of the Green strain,
and `C(0,0,0,0)` varies at the rate `dC`. Then the residual increment is
differentiable in the `j`-th solution coefficient and in the `j`-th
solution-rate coefficient of `b`, and the Jacobian increment equals
`get_elem_solution_derivative` times the first derivative plus
`get_elem_solution_rate_derivative` times the second, minus the one term that
carries `dC`. With `C(0,0,0,0)` held constant (`dC = 0`) the Jacobian
increment is the exact derivative. -/
theorem stiffness_jacobian_is_derivative {n_u_dofs : Nat} (lf A : ℝ)
    (q : QuadraturePoint ℝ n_u_dofs) (sd rd : ℝ) (i j : Fin n_u_dofs) (a b : Component)
    (dC : ℝ)
    (htau : HasDerivAt (fun s => (q.law_along b s).1) (q.C * q.gamma b) 0)
    (hC : HasDerivAt (fun s => (q.law_along b s).2) dC 0) :
    ∃ dF_dsol dF_drate : ℝ,
      HasDerivAt (fun t => (stiffness_residual lf A (q.perturb_solution b j t) i).get a)
        dF_dsol 0 ∧
      HasDerivAt (fun t => (stiffness_residual lf A (q.perturb_rate b j t) i).get a)
        dF_drate 0 ∧
      (stiffness_jacobian lf A q sd rd i j).get a b =
        sd * dF_dsol + rd * dF_drate
          - sd * (lf * A * q.JxW * q.dphi_dxi i * q.gamma a * q.dt_term
              * (dC * q.dphi_dxi j)) := by
  have hscale : HasDerivAt (fun t : ℝ => t * q.dphi_dxi j) (q.dphi_dxi j) 0 := by
    simpa using hasDerivAt_mul_const (x := (0 : ℝ)) (q.dphi_dxi j)
  have htau0 : HasDerivAt (fun s => (q.law_along b s).1) (q.C * q.gamma b)
      ((fun t : ℝ => t * q.dphi_dxi j) 0) := by
    simpa using htau
  have hC0 : HasDerivAt (fun s => (q.law_along b s).2) dC
      ((fun t : ℝ => t * q.dphi_dxi j) 0) := by
    simpa using hC
  have hT : HasDerivAt (fun t => (q.law_along b (t * q.dphi_dxi j)).1)
      (q.C * q.gamma b * q.dphi_dxi j) 0 := HasDerivAt.comp (0 : ℝ) htau0 hscale
  have hCf : HasDerivAt (fun t => (q.law_along b (t * q.dphi_dxi j)).2)
      (dC * q.dphi_dxi j) 0 := HasDerivAt.comp (0 : ℝ) hC0 hscale
  have hsol := hasDerivAt_residual_shape _ _ _ _ (lf * A * q.JxW * q.dphi_dxi i)
    (q.rate_gradient a) 0 (q.gamma a) (if a = b then q.dphi_dxi j else 0)
    q.dt_term (q.dphi_dxi j * q.rate_gradient b) hT hCf
  have hrate := hasDerivAt_residual_shape (fun _ => q.tau) (fun _ => q.C) 0 0
    (lf * A * q.JxW * q.dphi_dxi i)
    (q.rate_gradient a) (if a = b then q.dphi_dxi j else 0) (q.gamma a) 0
    q.dt_term (q.dphi_dxi j * q.gamma b) (hasDerivAt_const 0 q.tau) (hasDerivAt_const 0 q.C)
  rw [← funext (residual_along_solution lf A q i j a b)] at hsol
  rw [← funext (residual_along_rate lf A q i j a b)] at hrate
  refine ⟨_, _, hsol, hrate, ?_⟩
  rw [jacobian_closed_form]
  simp only [zero_mul, law_along_zero]
  ring

theorem hasDerivAt_linear_stress (C0 x0 k : ℝ) :
    HasDerivAt (fun s : ℝ => C0 * (((x0 + s) ^ 2 + k) / 2)) (C0 * x0) 0 := by
  have h1 : HasDerivAt (fun s : ℝ => x0 + s) 1 0 := by
    simpa using (hasDerivAt_id (0 : ℝ)).const_add x0
  have h2 := (((h1.pow 2).add_const k).div_const 2).const_mul C0
  convert h2 using 1
  simp

/-- A linear law satisfies the hypotheses of the Jacobian theorem: the stress
varies at the rate `C` times the Green-strain variation, and `C` is constant. -/
theorem linear_law_rates {n_u_dofs : Nat} (q : QuadraturePoint ℝ n_u_dofs) (C0 : ℝ)
    (hq : q.stress_and_elasticity = linear_law C0 q.grad_x q.grad_y q.grad_z)
    (b : Component) :
    HasDerivAt (fun s => (q.law_along b s).1) (q.C * q.gamma b) 0 ∧
    HasDerivAt (fun s => (q.law_along b s).2) 0 0 := by
  have hC : q.C = C0 := by simp [QuadraturePoint.C, hq, linear_law]
  refine ⟨?_, ?_⟩
  · rw [hC]
    cases b
    · have h := hasDerivAt_linear_stress C0 (q.grad_x + gradient q.u_coeffs q.dphi_dxi)
        ((q.grad_y + gradient q.v_coeffs q.dphi_dxi) ^ 2
          + (q.grad_z + gradient q.w_coeffs q.dphi_dxi) ^ 2
          - (q.grad_x ^ 2 + q.grad_y ^ 2 + q.grad_z ^ 2))
      convert h using 2
      simp only [QuadraturePoint.law_along, hq, linear_law, green_strain]
      ring
    · have h := hasDerivAt_linear_stress C0 (q.grad_y + gradient q.v_coeffs q.dphi_dxi)
        ((q.grad_x + gradient q.u_coeffs q.dphi_dxi) ^ 2
          + (q.grad_z + gradient q.w_coeffs q.dphi_dxi) ^ 2
          - (q.grad_x ^ 2 + q.grad_y ^ 2 + q.grad_z ^ 2))
      convert h using 2
      simp only [QuadraturePoint.law_along, hq, linear_law, green_strain]
      ring
    · have h := hasDerivAt_linear_stress C0 (q.grad_z + gradient q.w_coeffs q.dphi_dxi)
        ((q.grad_x + gradient q.u_coeffs q.dphi_dxi) ^ 2
          + (q.grad_y + gradient q.v_coeffs q.dphi_dxi) ^ 2
          - (q.grad_x ^ 2 + q.grad_y ^ 2 + q.grad_z ^ 2))
      convert h using 2
      simp only [QuadraturePoint.law_along, hq, linear_law, green_strain]
      ring
  · have h : (fun s => (q.law_along b s).2) = fun _ => C0 := by
      funext s
      cases b <;> simp [QuadraturePoint.law_along, hq, linear_law]
    rw [h]
    exact hasDerivAt_const 0 C0

/-- Witness for C8: the two-node sample element with the linear law of
coefficient 3, block `Kuv`, indices `(0,1)`. -/
theorem stiffness_jacobian_is_derivative_witness :
    HasDerivAt (fun s => ((sample_quadrature_point ℝ).law_along .v s).1)
      ((sample_quadrature_point ℝ).C * (sample_quadrature_point ℝ).gamma .v) 0 ∧
    HasDerivAt (fun s => ((sample_quadrature_point ℝ).law_along .v s).2) 0 0 ∧
    ∃ dF_dsol dF_drate : ℝ,
      HasDerivAt (fun t => (stiffness_residual (1 / 10) 2
        ((sample_quadrature_point ℝ).perturb_solution .v 1 t) 0).get .u) dF_dsol 0 ∧
      HasDerivAt (fun t => (stiffness_residual (1 / 10) 2
        ((sample_quadrature_point ℝ).perturb_rate .v 1 t) 0).get .u) dF_drate 0 ∧
      (stiffness_jacobian (1 / 10) 2 (sample_quadrature_point ℝ) 1 (1 / 4) 0 1).get .u .v =
        1 * dF_dsol + 1 / 4 * dF_drate
          - 1 * (1 / 10 * 2 * (sample_quadrature_point ℝ).JxW
              * (sample_quadrature_point ℝ).dphi_dxi 0 * (sample_quadrature_point ℝ).gamma .u
              * (sample_quadrature_point ℝ).dt_term
              * (0 * (sample_quadrature_point ℝ).dphi_dxi 1)) :=
  ⟨(linear_law_rates (sample_quadrature_point ℝ) 3 rfl .v).1,
   (linear_law_rates (sample_quadrature_point ℝ) 3 rfl .v).2,
   stiffness_jacobian_is_derivative (1 / 10) 2 (sample_quadrature_point ℝ) 1 (1 / 4) 0 1 .u .v 0
     (linear_law_rates (sample_quadrature_point ℝ) 3 rfl .v).1
     (linear_law_rates (sample_quadrature_point ℝ) 3 rfl .v).2⟩

/-- The sample element in exact rational arithmetic: the `Kuv(0,1)` increment
for unit derivative weights, and the residual increments of row 0. -/
theorem stiffness_jacobian_sample_values :
    (stiffness_jacobian (1 / 10 : ℚ) 2 (sample_quadrature_point ℚ) 1 1 0 1).Kuv = -39 / 80 ∧
    (stiffness_residual (1 / 10 : ℚ) 2 (sample_quadrature_point ℚ) 0).Fu = -3 / 2 := by
  constructor <;>
    norm_num [stiffness_jacobian, stiffness_residual, sample_quadrature_point, gradient,
      linear_law, green_strain, Fin.sum_univ_two]

/-! ## Theorems: catalytic wall reaction parsing -/

/-- C9: `parse_reactant_and_product` succeeds exactly when splitting the
reaction string on `->` yields two parts; then the reactant is the first part
and the product the second; for every other number of parts it raises the
one-reactant-one-product error and leaves both outputs with the values they
had. The splitter is arbitrary. -/
theorem parse_reactant_and_product_iff (split : String → String → List String)
    (reaction reactant product : String) :
    ((parse_reactant_and_product split reaction reactant product).1 = .ok () ↔
      (split reaction "->").length = 2) ∧
    (∀ first second, split reaction "->" = [first, second] →
      parse_reactant_and_product split reaction reactant product = (.ok (), first, second)) ∧
    ((split reaction "->").length ≠ 2 →
      parse_reactant_and_product split reaction reactant product =
        (.error one_reactant_one_product_error, reactant, product)) := by
  unfold parse_reactant_and_product
  refine ⟨?_, ?_, ?_⟩
  · by_cases h : (split reaction "->").length = 2 <;> simp [h]
  · intro first second h
    simp [h]
  · intro h
    simp [h]

/-- Concrete reaction strings, with the splitter `split_string`: `N->N2` gives
reactant `N` and product `N2`; a string without an arrow and a string with two
arrows are refused and the outputs keep their values. -/
theorem parse_reactant_and_product_examples :
    parse_reactant_and_product split_string "N->N2" "r0" "p0" = (.ok (), "N", "N2") ∧
    parse_reactant_and_product split_string "N" "r0" "p0" =
      (.error one_reactant_one_product_error, "r0", "p0") ∧
    parse_reactant_and_product split_string "N->N2->N3" "r0" "p0" =
      (.error one_reactant_one_product_error, "r0", "p0") := by
  refine ⟨?_, ?_, ?_⟩ <;> rfl

/-- C10 (the code at the failing input): the reaction `R1+R2->P`, which has
two reactants, is not refused. Every splitter that cuts it at its single arrow
makes `parse_reactant_and_product` return normally with reactant `R1+R2` and
product `P`; `split_string` is such a splitter, and `build_catalytic_wall`
then goes on to build the wall for the selected library with that reactant. -/
theorem multi_reactant_reaction_accepted :
    (∀ (split : String → String → List String) (reactant product : String),
      split "R1+R2->P" "->" = ["R1+R2", "P"] →
      parse_reactant_and_product split "R1+R2->P" reactant product = (.ok (), "R1+R2", "P")) ∧
    split_string "R1+R2->P" "->" = ["R1+R2", "P"] ∧
    parse_reactant_and_product split_string "R1+R2->P" "" "" = (.ok (), "R1+R2", "P") ∧
    build_catalytic_wall split_string true true
      (fun reactant product => Except.ok ("cantera", reactant, product))
      (fun reactant product => Except.ok ("antioch", reactant, product))
      "R1+R2->P" "antioch" = .ok ("antioch", "R1+R2", "P") := by
  refine ⟨?_, ?_, ?_, ?_⟩
  · intro split reactant product h
    simp [parse_reactant_and_product, h]
  · rfl
  · rfl
  · rfl

theorem parse_reactant_and_product_shape (split : String → String → List String)
    (reaction : String) :
    ((split reaction "->").length ≠ 2 ∧
      parse_reactant_and_product split reaction "" "" =
        (.error one_reactant_one_product_error, "", "")) ∨
    (∃ first second, split reaction "->" = [first, second] ∧
      parse_reactant_and_product split reaction "" "" = (.ok (), first, second)) := by
  unfold parse_reactant_and_product
  by_cases h : (split reaction "->").length = 2
  · right
    obtain ⟨first, second, hs⟩ := List.length_eq_two.mp h
    exact ⟨first, second, hs, by simp [hs]⟩
  · left
    exact ⟨h, by simp [h]⟩

/-- C11: `build_catalytic_wall` returns a boundary-condition object only if
`thermochem_lib` is exactly `cantera` or `antioch` and that backend is
compiled in; for every other library string, and for a requested backend that
is not compiled in, it raises an error; the reaction string is parsed first, so
a reaction that does not split into two parts raises the parse error whatever
the library value; for a reaction that splits into two parts and a compiled-in
backend the result is that of `build_wall_ptr` on the two parts. -/
theorem build_catalytic_wall_backends {ω : Type} (split : String → String → List String)
    (have_cantera have_antioch : Bool)
    (build_wall_ptr_cantera build_wall_ptr_antioch : String → String → Except String ω)
    (reaction thermochem_lib : String) :
    (∀ wall, build_catalytic_wall split have_cantera have_antioch build_wall_ptr_cantera
        build_wall_ptr_antioch reaction thermochem_lib = .ok wall →
      (thermochem_lib = "cantera" ∧ have_cantera = true) ∨
      (thermochem_lib = "antioch" ∧ have_antioch = true)) ∧
    ((thermochem_lib ≠ "cantera" ∧ thermochem_lib ≠ "antioch") ∨
      (thermochem_lib = "cantera" ∧ have_cantera = false) ∨
      (thermochem_lib = "antioch" ∧ have_antioch = false) →
      ∃ e, build_catalytic_wall split have_cantera have_antioch build_wall_ptr_cantera
        build_wall_ptr_antioch reaction thermochem_lib = .error e) ∧
    ((split reaction "->").length ≠ 2 →
      build_catalytic_wall split have_cantera have_antioch build_wall_ptr_cantera
        build_wall_ptr_antioch reaction thermochem_lib = .error one_reactant_one_product_error) ∧
    (∀ reactant product, split reaction "->" = [reactant, product] →
      (thermochem_lib = "cantera" → have_cantera = true →
        build_catalytic_wall split have_cantera have_antioch build_wall_ptr_cantera
          build_wall_ptr_antioch reaction thermochem_lib
          = build_wall_ptr_cantera reactant product) ∧
      (thermochem_lib = "antioch" → have_antioch = true →
        build_catalytic_wall split have_cantera have_antioch build_wall_ptr_cantera
          build_wall_ptr_antioch reaction thermochem_lib
          = build_wall_ptr_antioch reactant product) ∧
      (thermochem_lib ≠ "cantera" → thermochem_lib ≠ "antioch" →
        build_catalytic_wall split have_cantera have_antioch build_wall_ptr_cantera
          build_wall_ptr_antioch reaction thermochem_lib
          = .error ("ERROR: Invalid thermochemistry library " ++ thermochem_lib ++ "!"))) := by
  have hparse := parse_reactant_and_product_shape split reaction
  unfold build_catalytic_wall
  rcases hparse with ⟨hlen, h⟩ | ⟨first, second, hsplit, h⟩
  · rw [h]
    refine ⟨?_, ?_, ?_, ?_⟩
    · intro wall hw
      simp at hw
    · intro _
      exact ⟨_, rfl⟩
    · intro _
      rfl
    · intro reactant product hs
      rw [hs] at hlen
      simp at hlen
  · rw [h]
    have hlen : (split reaction "->").length = 2 := by rw [hsplit]; rfl
    refine ⟨?_, ?_, ?_, ?_⟩
    · intro wall hw
      by_cases hc : thermochem_lib = "cantera"
      · cases hhc : have_cantera
        · simp [hc, hhc] at hw
        · exact Or.inl ⟨hc, rfl⟩
      · by_cases ha : thermochem_lib = "antioch"
        · cases hha : have_antioch
          · simp [ha, hha] at hw
          · exact Or.inr ⟨ha, rfl⟩
        · simp [hc, ha] at hw
    · rintro (⟨hc, ha⟩ | ⟨hc, hhc⟩ | ⟨ha, hha⟩)
      · exact ⟨_, by simp only [hc, ha, beq_iff_eq, if_false]; rfl⟩
      · exact ⟨_, by
          simp only [hc, hhc, beq_self_eq_true, if_true, Bool.false_eq_true, if_false]; rfl⟩
      · have hc : ("antioch" == "cantera") = false := by decide
        exact ⟨_, by
          simp only [ha, hha, hc, beq_self_eq_true, if_true, Bool.false_eq_true, if_false]; rfl⟩
    · intro hne
      exact absurd hlen hne
    · intro reactant product hs
      rw [hsplit] at hs
      simp only [List.cons.injEq, and_true] at hs
      obtain ⟨h1, h2⟩ := hs
      subst h1 h2
      refine ⟨?_, ?_, ?_⟩
      · intro hc hhc
        simp [hc, hhc]
      · intro ha hha
        simp [ha, hha]
      · intro hc ha
        simp [hc, ha]

/-! ## Theorems: rayfire mesh, `init` checks and the element map -/

/-- C12: `init` raises the dimension error whenever the dimension of the
background mesh differs from the dimension fixed at construction, whatever
the point locator and the elements of the mesh are and however many loop
passes are allowed: the check comes first, the state is left as it was (no
line mesh, node or edge is created) and no element is traversed. -/
theorem init_checks_dimension_first {K : Type} [LinearOrderedField K] (r : RayfireMesh K)
    (mesh : MeshBase K) (fuel : Nat) (st : RayfireState K)
    (h : mesh.mesh_dimension ≠ r._dim) :
    r.init mesh fuel st =
      some ⟨.error (dimension_error mesh.mesh_dimension r._dim), st, []⟩ := by
  simp [RayfireMesh.init, h]

/-- Witness for C12: the 2-D mesh given to a rayfire whose dimension is 3,
with no loop pass allowed. -/
theorem init_checks_dimension_first_witness :
    RayfireMesh.init { rayfire_theta_zero with _dim := 3 } quad_mesh_2x1 0 RayfireState.initial =
      some ⟨.error ("The supplied mesh object is 2D, but the RayfireMesh object was created "
        ++ "with the 3D constructor"), RayfireState.initial, []⟩ :=
  init_checks_dimension_first { rayfire_theta_zero with _dim := 3 } quad_mesh_2x1 0
    RayfireState.initial (by decide)

theorem origin_on_boundary_side_spec {K : Type} (r : RayfireMesh K) (mesh : MeshBase K)
    (start_elem : Nat) (remaining s : Nat) (valid : Bool) :
    origin_on_boundary_side r mesh start_elem remaining s valid = true ↔
      valid = true ∨ ∃ t, s ≤ t ∧ t < s + remaining ∧ mesh.neighbor start_elem t = none ∧
        (mesh.build_edge start_elem t).contains_point r._origin = true := by
  induction remaining generalizing s valid with
  | zero =>
    simp [origin_on_boundary_side]
    intro t h1 h2
    omega
  | succ n ih =>
    unfold origin_on_boundary_side
    cases hn : mesh.neighbor start_elem s with
    | some nb =>
      simp only [ih]
      constructor
      · rintro (h | ⟨t, h1, h2, h3, h4⟩)
        · exact Or.inl h
        · exact Or.inr ⟨t, by omega, by omega, h3, h4⟩
      · rintro (h | ⟨t, h1, h2, h3, h4⟩)
        · exact Or.inl h
        · right
          have hts : t ≠ s := by
            intro hts
            rw [hts, hn] at h3
            exact absurd h3 (by simp)
          exact ⟨t, by omega, by omega, h3, h4⟩
    | none =>
      simp only [ih, Bool.or_eq_true]
      constructor
      · rintro ((h | h) | ⟨t, h1, h2, h3, h4⟩)
        · exact Or.inl h
        · exact Or.inr ⟨s, le_refl s, by omega, hn, h⟩
        · exact Or.inr ⟨t, by omega, by omega, h3, h4⟩
      · rintro (h | ⟨t, h1, h2, h3, h4⟩)
        · exact Or.inl (Or.inl h)
        · by_cases hts : t = s
          · subst hts
            exact Or.inl (Or.inr h4)
          · exact Or.inr ⟨t, by omega, by omega, h3, h4⟩

/-- C13: with matching dimensions, `init` raises an error when the point
locator finds no element containing the origin, when the element found is not
a boundary element, and when no side of it without a neighbour has an edge
containing the origin; otherwise, and only then, it adds the origin as node 0
and walks the ray from the element found. -/
theorem init_requires_origin_on_boundary {K : Type} [LinearOrderedField K]
    (r : RayfireMesh K) (mesh : MeshBase K) (fuel : Nat) (st : RayfireState K)
    (hdim : mesh.mesh_dimension = r._dim) :
    (mesh.point_locator r._origin = none →
      (r.init mesh fuel st).map InitOutcome.result = some (.error "Origin is not on mesh")) ∧
    (∀ start_elem, mesh.point_locator r._origin = some start_elem →
      (mesh.on_boundary start_elem = false →
        (r.init mesh fuel st).map InitOutcome.result =
          some (.error "The supplied origin point is not on a boundary element")) ∧
      (mesh.on_boundary start_elem = true →
        (¬ ∃ s, s < mesh.n_sides start_elem ∧ mesh.neighbor start_elem s = none ∧
          (mesh.build_edge start_elem s).contains_point r._origin = true) →
        (r.init mesh fuel st).map InitOutcome.result = some (.error
          "The supplied origin point is not on the boundary of the starting element")) ∧
      (mesh.on_boundary start_elem = true →
        (∃ s, s < mesh.n_sides start_elem ∧ mesh.neighbor start_elem s = none ∧
          (mesh.build_edge start_elem s).contains_point r._origin = true) →
        r.init mesh fuel st =
          r.init_loop mesh fuel start_elem r._origin ⟨0, 0⟩ 1
            (RayfireState.add_point
              { st with nodes := [], elems := [], next_elem_id := 0 } r._origin 0) [])) := by
  refine ⟨?_, ?_⟩
  · intro h
    simp [RayfireMesh.init, hdim, h]
  · intro start_elem h
    have hside := origin_on_boundary_side_spec r mesh start_elem (mesh.n_sides start_elem) 0 false
    simp only [Bool.false_eq_true, false_or, Nat.zero_le, true_and, Nat.zero_add] at hside
    refine ⟨?_, ?_, ?_⟩
    · intro hb
      simp [RayfireMesh.init, hdim, h, RayfireMesh.check_origin_on_boundary, hb]
    · intro hb hno
      have hv : origin_on_boundary_side r mesh start_elem (mesh.n_sides start_elem) 0 false
          = false := by
        cases hval : origin_on_boundary_side r mesh start_elem (mesh.n_sides start_elem) 0 false
        · rfl
        · exact absurd (hside.mp hval) hno
      simp [RayfireMesh.init, hdim, h, RayfireMesh.check_origin_on_boundary, hb, hv]
    · intro hb hyes
      have hv := hside.mpr hyes
      simp [RayfireMesh.init, hdim, h, RayfireMesh.check_origin_on_boundary, hb, hv]

/-- Witness for C13: on the 2x1 mesh the origin `(0,0)` lies on boundary
sides of element 0 and the walk is started; the point `(1,1/2)` lies in
element 0 but on none of its boundary sides, and the point `(5,5)` is in no
element. -/
theorem init_requires_origin_on_boundary_witness :
    rayfire_theta_zero.init quad_mesh_2x1 2 RayfireState.initial =
      rayfire_theta_zero.init_loop quad_mesh_2x1 2 0 ⟨0, 0⟩ ⟨0, 0⟩ 1
        (RayfireState.add_point RayfireState.initial ⟨0, 0⟩ 0) [] ∧
    (RayfireMesh.init { rayfire_theta_zero with _origin := ⟨1, 1 / 2⟩ } quad_mesh_2x1 2
        RayfireState.initial).map InitOutcome.result = some (.error
      "The supplied origin point is not on the boundary of the starting element") ∧
    (RayfireMesh.init { rayfire_theta_zero with _origin := ⟨5, 5⟩ } quad_mesh_2x1 2
        RayfireState.initial).map InitOutcome.result = some (.error "Origin is not on mesh") :=
  ⟨((init_requires_origin_on_boundary rayfire_theta_zero quad_mesh_2x1 2 RayfireState.initial
      rfl).2 0 (by with_unfolding_all decide)).2.2 rfl
      ⟨0, by decide, by decide, by with_unfolding_all decide⟩,
   ((init_requires_origin_on_boundary { rayfire_theta_zero with _origin := ⟨1, 1 / 2⟩ }
      quad_mesh_2x1 2 RayfireState.initial rfl).2 0 (by with_unfolding_all decide)).2.1 rfl
      (by with_unfolding_all decide),
   (init_requires_origin_on_boundary { rayfire_theta_zero with _origin := ⟨5, 5⟩ }
      quad_mesh_2x1 2 RayfireState.initial rfl).1 (by with_unfolding_all decide)⟩

theorem map_find_assign_same (m : List (Nat × Nat)) (id elem : Nat) :
    map_find (map_assign m id elem) id = some elem := by
  induction m with
  | nil => simp [map_find, map_assign, List.lookup]
  | cons entry rest ih =>
    obtain ⟨k, v⟩ := entry
    unfold map_assign
    by_cases h1 : id < k
    · simp [h1, map_find, List.lookup]
    · by_cases h2 : id = k
      · subst h2
        simp [map_find, List.lookup]
      · have h3 : (id == k) = false := by simpa using h2
        simp only [h1, h2, if_false]
        simp only [map_find, List.lookup, h3] at ih ⊢
        exact ih

theorem map_find_assign_other (m : List (Nat × Nat)) (id elem other : Nat) (h : other ≠ id) :
    map_find (map_assign m id elem) other = map_find m other := by
  induction m with
  | nil =>
    have h3 : (other == id) = false := by simpa using h
    simp [map_find, map_assign, List.lookup, h3]
  | cons entry rest ih =>
    obtain ⟨k, v⟩ := entry
    unfold map_assign
    by_cases h1 : id < k
    · have h3 : (other == id) = false := by simpa using h
      simp [h1, map_find, List.lookup, h3]
    · by_cases h2 : id = k
      · subst h2
        have h3 : (other == id) = false := by simpa using h
        simp [map_find, List.lookup, h3]
      · simp only [h1, h2, if_false]
        simp only [map_find, List.lookup] at ih ⊢
        cases (other == k)
        · exact ih
        · rfl

theorem map_find_erase_same (m : List (Nat × Nat)) (id : Nat) :
    map_find (map_erase m id) id = none := by
  induction m with
  | nil => simp [map_find, map_erase]
  | cons entry rest ih =>
    obtain ⟨k, v⟩ := entry
    simp only [map_find, map_erase, List.filter_cons] at ih ⊢
    by_cases h : k = id
    · have hb : (k != id) = false := by simpa using h
      simp only [hb, Bool.false_eq_true, if_false]
      exact ih
    · have hb : (k != id) = true := by simpa using h
      have h3 : (id == k) = false := by simpa using Ne.symm h
      simp only [hb, if_true, List.lookup, h3]
      exact ih

theorem map_find_erase_other (m : List (Nat × Nat)) (id other : Nat) (h : other ≠ id) :
    map_find (map_erase m id) other = map_find m other := by
  induction m with
  | nil => simp [map_find, map_erase]
  | cons entry rest ih =>
    obtain ⟨k, v⟩ := entry
    simp only [map_find, map_erase, List.filter_cons] at ih ⊢
    by_cases hk : k = id
    · have hb : (k != id) = false := by simpa using hk
      have h3 : (other == k) = false := by
        rw [hk]
        simpa using h
      simp only [hb, Bool.false_eq_true, if_false, List.lookup, h3]
      exact ih
    · have hb : (k != id) = true := by simpa using hk
      simp only [hb, if_true, List.lookup]
      cases (other == k)
      · exact ih
      · rfl

theorem apply_changes_append (m : List (Nat × Nat)) (changes : List MapChange)
    (last : MapChange) :
    apply_changes m (changes ++ [last]) = apply_changes (apply_changes m changes) [last] := by
  induction changes generalizing m with
  | nil => rfl
  | cons c rest ih =>
    cases c with
    | assign k elem => exact ih (map_assign m k elem)
    | erase k => exact ih (map_erase m k)

theorem map_find_apply_changes (changes : List MapChange) (id : Nat) :
    map_find (apply_changes [] changes) id = last_recorded id changes.reverse := by
  induction changes using List.reverseRecOn with
  | nil => rfl
  | append_singleton older last ih =>
    rw [apply_changes_append, List.reverse_append]
    cases last with
    | assign k elem =>
      simp only [apply_changes, List.reverse_cons, List.reverse_nil, List.nil_append,
        List.singleton_append, last_recorded]
      by_cases h : k = id
      · subst h
        simp [map_find_assign_same]
      · simp only [h, if_false]
        rw [map_find_assign_other _ _ _ _ (Ne.symm h), ih]
        rfl
    | erase k =>
      simp only [apply_changes, List.reverse_cons, List.reverse_nil, List.nil_append,
        List.singleton_append, last_recorded]
      by_cases h : k = id
      · subst h
        simp [map_find_erase_same]
      · simp only [h, if_false]
        rw [map_find_erase_other _ _ _ (Ne.symm h), ih]
        rfl

/-- C14: when `_elem_id_map` is the result of any sequence of the changes
that `init` and `reinit` make (assignments `_elem_id_map[id] = elem` and
erasures), `map_to_rayfire_elem` returns for every id the edge of the most
recent assignment to that id, and the null result, without an error, for an
id that was never assigned or was erased since; the state after the call,
the map included, is the state before it. -/
theorem map_to_rayfire_elem_most_recent {K : Type} (nodes : List (Nat × Point K))
    (elems : List Edge2) (next_elem_id : Nat) (changes : List MapChange) (elem_id : Nat) :
    RayfireState.map_to_rayfire_elem
        ⟨nodes, elems, next_elem_id, apply_changes [] changes⟩ elem_id =
      (last_recorded elem_id changes.reverse,
        ⟨nodes, elems, next_elem_id, apply_changes [] changes⟩) := by
  unfold RayfireState.map_to_rayfire_elem
  simp only [map_find_apply_changes]
  cases last_recorded elem_id changes.reverse <;> rfl

/-- The element map on a concrete history: element 4 is assigned edge 0,
element 7 edge 1, element 4 is erased and assigned edge 2, element 9 is never
assigned. -/
theorem map_to_rayfire_elem_examples :
    (RayfireState.map_to_rayfire_elem (K := ℚ) ⟨[], [], 3, apply_changes []
        [.assign 4 0, .assign 7 1, .erase 4, .assign 4 2]⟩ 4).1 = some 2 ∧
    (RayfireState.map_to_rayfire_elem (K := ℚ) ⟨[], [], 3, apply_changes []
        [.assign 4 0, .assign 7 1, .erase 4, .assign 4 2]⟩ 7).1 = some 1 ∧
    (RayfireState.map_to_rayfire_elem (K := ℚ) ⟨[], [], 3, apply_changes []
        [.assign 4 0, .assign 7 1, .erase 4, .assign 4 2]⟩ 9).1 = none ∧
    (RayfireState.map_to_rayfire_elem (K := ℚ) ⟨[], [], 3, apply_changes []
        [.assign 4 0, .assign 7 1, .erase 4]⟩ 4).1 = none := by
  refine ⟨?_, ?_, ?_, ?_⟩ <;> decide

/-! ## Theorems: rayfire mesh, the walk of `init` -/

theorem init_loop_more_fuel {K : Type} [LinearOrderedField K] (r : RayfireMesh K)
    (mesh : MeshBase K) (fuel extra : Nat) :
    ∀ (prev_elem : Nat) (start_point end_point : Point K) (node_id : Nat)
      (st : RayfireState K) (traversed : List Nat) (out : InitOutcome K),
      r.init_loop mesh fuel prev_elem start_point end_point node_id st traversed = some out →
      r.init_loop mesh (fuel + extra) prev_elem start_point end_point node_id st traversed
        = some out := by
  induction fuel with
  | zero =>
    intro prev_elem start_point end_point node_id st traversed out h
    simp [RayfireMesh.init_loop] at h
  | succ n ih =>
    intro prev_elem start_point end_point node_id st traversed out h
    rw [Nat.succ_add]
    unfold RayfireMesh.init_loop at h ⊢
    rcases hg : r.get_next_elem mesh prev_elem start_point end_point with ⟨res, new_end⟩
    rw [hg] at h
    cases res with
    | error e => exact h
    | ok next_elem =>
      cases next_elem with
      | none => exact h
      | some elem => exact ih _ _ _ _ _ _ _ h

theorem init_more_fuel {K : Type} [LinearOrderedField K] (r : RayfireMesh K)
    (mesh : MeshBase K) (fuel extra : Nat) (st : RayfireState K) (out : InitOutcome K)
    (h : r.init mesh fuel st = some out) : r.init mesh (fuel + extra) st = some out := by
  unfold RayfireMesh.init at h ⊢
  split
  · rename_i hdim
    simpa [hdim] using h
  · rename_i hdim
    simp only [hdim, if_false] at h
    cases hloc : mesh.point_locator r._origin with
    | none =>
      rw [hloc] at h
      exact h
    | some start_elem =>
      rw [hloc] at h
      simp only at h ⊢
      cases hchk : r.check_origin_on_boundary mesh start_elem with
      | error e =>
        rw [hchk] at h
        exact h
      | ok u =>
        rw [hchk] at h
        exact init_loop_more_fuel r mesh fuel extra _ _ _ _ _ _ _ h

/-- C16: for the rayfire with origin `(0,0)` and `theta = 0` on the uniform
2x1 quadrilateral mesh covering `[0,2]x[0,1]`, `init` completes after two
passes of its loop (and so for every larger bound on the passes): it passes
through exactly the background elements 0 and 1 and leaves a line mesh of
the three nodes `(0,0)`, `(1,0)`, `(2,0)` and two edges joining them in order;
both background element ids map to an edge. -/
theorem init_two_by_one (extra : Nat) :
    rayfire_theta_zero.init quad_mesh_2x1 (2 + extra) RayfireState.initial
      = some two_by_one_outcome ∧
    (two_by_one_outcome.state.map_to_rayfire_elem 0).1 = some 0 ∧
    (two_by_one_outcome.state.map_to_rayfire_elem 1).1 = some 1 := by
  refine ⟨?_, by decide, by decide⟩
  apply init_more_fuel
  with_unfolding_all rfl

/-! ## Theorems: rayfire mesh, the Newton intersection solve -/

theorem edge_position_edge2 {K : Type} [LinearOrderedField K] (a b : Point K) (xi : K) :
    edge_position (EdgeElem.edge2 a b) xi =
      ((edge2_point a b xi).x, (edge2_point a b xi).y, (b.x - a.x) / 2, (b.y - a.y) / 2) := by
  simp only [edge_position, accumulate, EdgeElem.edge2, edge2_point, if_true, zero_add,
    Nat.zero_add, one_ne_zero, if_false, Prod.mk.injEq]
  refine ⟨trivial, trivial, ?_, ?_⟩ <;> ring

theorem edge2_residual_affine {K : Type} [LinearOrderedField K] (tan_theta x0 y0 : K)
    (a b : Point K) (xi : K) :
    tan_theta * ((edge2_point a b xi).x - x0) - ((edge2_point a b xi).y - y0) =
      (tan_theta * ((edge2_point a b 0).x - x0) - ((edge2_point a b 0).y - y0))
        + (tan_theta * ((b.x - a.x) / 2) - (b.y - a.y) / 2) * xi := by
  simp only [edge2_point]
  ring

theorem newton_iterate_nonfinite {K : Type} [LinearOrderedField K] (tan_theta x0 y0 : K)
    (edge_elem : EdgeElem K) (remaining : Nat) :
    newton_iterate tan_theta x0 y0 edge_elem remaining none = none := by
  induction remaining with
  | zero => rfl
  | succ n ih =>
    unfold newton_iterate
    exact ih

theorem tolerance_pos {K : Type} [LinearOrderedField K] : (0 : K) < TOLERANCE := by
  unfold TOLERANCE
  positivity

theorem tolerance_le_one {K : Type} [LinearOrderedField K] : (TOLERANCE : K) ≤ 1 := by
  unfold TOLERANCE
  rw [div_le_one (by positivity)]
  norm_num

/-- The Newton loop on a straight two-node edge that is not parallel to the
ray: with one iteration it converges exactly when the first step is below the
tolerance, and with two or more iterations it always converges, either at
the midpoint of the edge (first step below the tolerance) or at the point of
the edge at the reference coordinate reached by the first step. -/
theorem newton_iterate_edge2 {K : Type} [LinearOrderedField K] (tan_theta x0 y0 : K)
    (a b : Point K) (hdf : tan_theta * ((b.x - a.x) / 2) - (b.y - a.y) / 2 ≠ 0) (n : Nat) :
    newton_iterate tan_theta x0 y0 (EdgeElem.edge2 a b) 1 (some 0) =
      (if |(tan_theta * ((edge2_point a b 0).x - x0) - ((edge2_point a b 0).y - y0))
            / (tan_theta * ((b.x - a.x) / 2) - (b.y - a.y) / 2)| < TOLERANCE
        then some (edge2_point a b 0) else none) ∧
    newton_iterate tan_theta x0 y0 (EdgeElem.edge2 a b) (n + 2) (some 0) =
      some (if |(tan_theta * ((edge2_point a b 0).x - x0) - ((edge2_point a b 0).y - y0))
            / (tan_theta * ((b.x - a.x) / 2) - (b.y - a.y) / 2)| < TOLERANCE
        then edge2_point a b 0
        else edge2_point a b
          (0 - (tan_theta * ((edge2_point a b 0).x - x0) - ((edge2_point a b 0).y - y0))
            / (tan_theta * ((b.x - a.x) / 2) - (b.y - a.y) / 2))) := by
  constructor
  · simp only [newton_iterate, edge_position_edge2, hdf, if_false]
  · simp only [newton_iterate, edge_position_edge2, hdf, if_false]
    split_ifs with h1 h2
    · rfl
    · rfl
    · exfalso
      apply h2
      have hzero : tan_theta * ((edge2_point a b
          (0 - (tan_theta * ((edge2_point a b 0).x - x0) - ((edge2_point a b 0).y - y0))
            / (tan_theta * ((b.x - a.x) / 2) - (b.y - a.y) / 2))).x - x0)
          - ((edge2_point a b
          (0 - (tan_theta * ((edge2_point a b 0).x - x0) - ((edge2_point a b 0).y - y0))
            / (tan_theta * ((b.x - a.x) / 2) - (b.y - a.y) / 2))).y - y0) = 0 := by
        rw [edge2_residual_affine]
        generalize tan_theta * ((edge2_point a b 0).x - x0) - ((edge2_point a b 0).y - y0) = f0
        generalize tan_theta * ((b.x - a.x) / 2) - (b.y - a.y) / 2 = df at hdf
        field_simp
        ring
      rw [hzero, zero_div, abs_zero]
      exact tolerance_pos

/-- C17 (amended): for every straight two-node edge that is not parallel to
the ray (`tan(theta)*dX - dY` is non-zero) and every start point, in exact
arithmetic, `newton_solve_intersection` reports convergence, and already
does so with a cap of two iterations; the point `p` it returns is a point of
the supporting line of the edge, and when the first iteration did not
converge, `p` lies exactly on the line through the start point with slope
`tan(theta)`. -/
theorem newton_converges_on_straight_edge {K : Type} [LinearOrderedField K]
    (r : RayfireMesh K) (initial_point a b intersection_point : Point K)
    (hdf : r.tan_theta * ((b.x - a.x) / 2) - (b.y - a.y) / 2 ≠ 0) :
    ∃ p xi,
      r.newton_solve_intersection initial_point (EdgeElem.edge2 a b) intersection_point
        = (true, p) ∧
      newton_iterate r.tan_theta initial_point.x initial_point.y (EdgeElem.edge2 a b) 2 (some 0)
        = some p ∧
      p = edge2_point a b xi ∧
      (newton_iterate r.tan_theta initial_point.x initial_point.y (EdgeElem.edge2 a b) 1
          (some 0) = none →
        r.tan_theta * (p.x - initial_point.x) - (p.y - initial_point.y) = 0) := by
  obtain ⟨h1, h20⟩ := newton_iterate_edge2 r.tan_theta initial_point.x initial_point.y a b hdf 18
  obtain ⟨_, h2⟩ := newton_iterate_edge2 r.tan_theta initial_point.x initial_point.y a b hdf 0
  by_cases hc : |(r.tan_theta * ((edge2_point a b 0).x - initial_point.x)
      - ((edge2_point a b 0).y - initial_point.y))
      / (r.tan_theta * ((b.x - a.x) / 2) - (b.y - a.y) / 2)| < TOLERANCE
  · simp only [hc, if_true] at h1 h20 h2
    refine ⟨edge2_point a b 0, 0, ?_, h2, rfl, ?_⟩
    · simp only [RayfireMesh.newton_solve_intersection, h20]
    · intro hnone
      rw [h1] at hnone
      simp at hnone
  · simp only [hc, if_false] at h1 h20 h2
    refine ⟨_, _, ?_, h2, rfl, ?_⟩
    · simp only [RayfireMesh.newton_solve_intersection, h20]
    · intro _
      rw [edge2_residual_affine]
      generalize r.tan_theta * ((edge2_point a b 0).x - initial_point.x)
        - ((edge2_point a b 0).y - initial_point.y) = f0
      generalize r.tan_theta * ((b.x - a.x) / 2) - (b.y - a.y) / 2 = df at hdf
      field_simp
      ring

/-- Witness for the amended C17: the ray of slope 1 from `(0,0)` and the vertical edge
from `(1,0)` to `(1,4)` meet at `(1,1)`, found by the second iteration. -/
theorem newton_converges_on_straight_edge_witness :
    (1 : ℚ) * (((1 : ℚ) - 1) / 2) - ((4 : ℚ) - 0) / 2 ≠ 0 ∧
    RayfireMesh.newton_solve_intersection ⟨2, ⟨0, 0⟩, (1 : ℚ), 1, 1⟩ ⟨0, 0⟩
      (EdgeElem.edge2 ⟨1, 0⟩ ⟨1, 4⟩) ⟨7, 7⟩ = (true, ⟨1, 1⟩) ∧
    ∃ p xi,
      RayfireMesh.newton_solve_intersection ⟨2, ⟨0, 0⟩, (1 : ℚ), 1, 1⟩ ⟨0, 0⟩
        (EdgeElem.edge2 ⟨1, 0⟩ ⟨1, 4⟩) ⟨7, 7⟩ = (true, p) ∧
      newton_iterate (1 : ℚ) 0 0 (EdgeElem.edge2 ⟨1, 0⟩ ⟨1, 4⟩) 2 (some 0) = some p ∧
      p = edge2_point ⟨1, 0⟩ ⟨1, 4⟩ xi ∧
      (newton_iterate (1 : ℚ) 0 0 (EdgeElem.edge2 ⟨1, 0⟩ ⟨1, 4⟩) 1 (some 0) = none →
        (1 : ℚ) * (p.x - 0) - (p.y - 0) = 0) :=
  ⟨by norm_num, by with_unfolding_all rfl,
   newton_converges_on_straight_edge ⟨2, ⟨0, 0⟩, (1 : ℚ), 1, 1⟩ ⟨0, 0⟩ ⟨1, 0⟩ ⟨1, 4⟩ ⟨7, 7⟩
     (by norm_num)⟩

/-- C18: for every edge for which `tan(theta)*dX - dY` is zero at the first
iterate (an edge parallel to the ray), `newton_solve_intersection` returns
`false` and leaves the intersection point as it was: the quotient `f/df` is
not finite, the step is never taken as converged, and no later iteration
converges. -/
theorem newton_parallel_no_intersection {K : Type} [LinearOrderedField K]
    (r : RayfireMesh K) (initial_point : Point K) (edge_elem : EdgeElem K)
    (intersection_point : Point K)
    (hdf : r.tan_theta * (edge_position edge_elem 0).2.2.1
      - (edge_position edge_elem 0).2.2.2 = 0) :
    r.newton_solve_intersection initial_point edge_elem intersection_point
      = (false, intersection_point) := by
  have h : newton_iterate r.tan_theta initial_point.x initial_point.y edge_elem (19 + 1)
      (some 0) = none := by
    simp only [newton_iterate, hdf, if_true, newton_iterate_nonfinite]
  simp only [RayfireMesh.newton_solve_intersection]
  rw [show (20 : Nat) = 19 + 1 from rfl, h]

/-- Witness for C18: the horizontal ray from `(0,0)` and the horizontal edge
from `(0,1)` to `(1,1)`. -/
theorem newton_parallel_no_intersection_witness :
    rayfire_theta_zero.tan_theta * (edge_position (EdgeElem.edge2 ⟨0, 1⟩ ⟨1, 1⟩) 0).2.2.1
      - (edge_position (EdgeElem.edge2 (⟨0, 1⟩ : Point ℚ) ⟨1, 1⟩) 0).2.2.2 = 0 ∧
    rayfire_theta_zero.newton_solve_intersection ⟨0, 0⟩ (EdgeElem.edge2 ⟨0, 1⟩ ⟨1, 1⟩) ⟨7, 7⟩
      = (false, ⟨7, 7⟩) :=
  ⟨by with_unfolding_all decide,
   newton_parallel_no_intersection rayfire_theta_zero ⟨0, 0⟩ (EdgeElem.edge2 ⟨0, 1⟩ ⟨1, 1⟩)
     ⟨7, 7⟩ (by with_unfolding_all decide)⟩

theorem edge2_contains_outside {K : Type} [LinearOrderedField K] (a b : Point K) (xi : K)
    (hab : a.x ≠ b.x ∨ a.y ≠ b.y) (hout : xi < -1 ∨ 1 < xi) :
    (EdgeElem.edge2 a b).contains_point (edge2_point a b xi) = false := by
  have hL : 0 < (b.x - a.x) * (b.x - a.x) + (b.y - a.y) * (b.y - a.y) := by
    rcases hab with h | h
    · have h1 : b.x - a.x ≠ 0 := sub_ne_zero.mpr (Ne.symm h)
      have := mul_self_pos.mpr h1
      have := mul_self_nonneg (b.y - a.y)
      linarith
    · have h1 : b.y - a.y ≠ 0 := sub_ne_zero.mpr (Ne.symm h)
      have := mul_self_pos.mpr h1
      have := mul_self_nonneg (b.x - a.x)
      linarith
  have hdot : ((edge2_point a b xi).x - a.x) * (b.x - a.x)
      + ((edge2_point a b xi).y - a.y) * (b.y - a.y)
      = (1 + xi) / 2 * ((b.x - a.x) * (b.x - a.x) + (b.y - a.y) * (b.y - a.y)) := by
    simp only [edge2_point]
    ring
  simp only [EdgeElem.edge2, decide_eq_false_iff_not, not_and, not_le]
  intro _ h0
  rw [hdot] at h0 ⊢
  rcases hout with h | h
  · exfalso
    have hneg : (1 + xi) / 2 < 0 := by linarith
    have := mul_neg_of_neg_of_pos hneg hL
    linarith
  · have hone : 1 < (1 + xi) / 2 := by linarith
    exact lt_mul_of_one_lt_left hL hone

/-- C19 fails as stated: the horizontal ray from `(0,0)` meets the line of
the vertical edge from `(1,1)` to `(1,2)` at `(1,0)`, at the reference
coordinate `-3` outside `[-1,1]`, a point the edge does not contain; yet
`newton_solve_intersection` returns `true`, with that point. -/
theorem newton_out_of_segment_converges :
    edge2_point (⟨1, 1⟩ : Point ℚ) ⟨1, 2⟩ (-3) = ⟨1, 0⟩ ∧
    (EdgeElem.edge2 (⟨1, 1⟩ : Point ℚ) ⟨1, 2⟩).contains_point ⟨1, 0⟩ = false ∧
    rayfire_theta_zero.newton_solve_intersection ⟨0, 0⟩ (EdgeElem.edge2 ⟨1, 1⟩ ⟨1, 2⟩) ⟨7, 7⟩
      = (true, ⟨1, 0⟩) ∧
    rayfire_theta_zero.newton_solve_intersection ⟨0, 0⟩ (EdgeElem.edge2 ⟨1, 1⟩ ⟨1, 2⟩) ⟨7, 7⟩
      ≠ (false, ⟨7, 7⟩) := by
  refine ⟨?_, ?_, ?_, ?_⟩ <;> with_unfolding_all decide

/-- C19 as amended: `newton_solve_intersection` has no test of the
reference coordinate, so a converged point off the edge segment is returned
with `true`; such a point is refused afterwards. Whenever the solve for a
side returned `true` with a point `p` that the edge element's
`contains_point` refuses, `check_valid_point` returns `false` for `p` and
leaves the next point unwritten, and `get_next_elem` does not accept that
side. -/
theorem out_of_segment_rejected_by_check_valid_point {K : Type} [LinearOrderedField K]
    (r : RayfireMesh K) (mesh : MeshBase K) (cur_elem s : Nat)
    (start_point intersection_point next_point p : Point K)
    (hsolve : r.newton_solve_intersection start_point (mesh.build_edge cur_elem s)
      intersection_point = (true, p))
    (hout : (mesh.build_edge cur_elem s).contains_point p = false) :
    check_valid_point p start_point (mesh.build_edge cur_elem s) next_point
      = (false, next_point) ∧
    r.side_accepts mesh cur_elem start_point s = none := by
  refine ⟨by simp [check_valid_point, hout], ?_⟩
  unfold RayfireMesh.newton_solve_intersection at hsolve
  unfold RayfireMesh.side_accepts
  cases hit : newton_iterate r.tan_theta start_point.x start_point.y
      (mesh.build_edge cur_elem s) 20 (some 0) with
  | none =>
    rw [hit] at hsolve
    simp at hsolve
  | some converged =>
    rw [hit] at hsolve
    simp only [Prod.mk.injEq, true_and] at hsolve
    subst hsolve
    simp only [hout, Bool.and_false]
    split_ifs <;> first | rfl | contradiction

/-- Witness for the amended C19: side 1 of element 1 of the 2x1 mesh, the
vertical edge from `(2,0)` to `(2,1)`, and the ray of slope 2 from `(1,0)`:
the solve returns `true` with `(2,2)`, which the edge does not contain. -/
theorem out_of_segment_rejected_by_check_valid_point_witness :
    RayfireMesh.newton_solve_intersection ⟨2, ⟨1, 0⟩, (2 : ℚ), 1, 2⟩ ⟨1, 0⟩
      (quad_mesh_2x1.build_edge 1 1) ⟨7, 7⟩ = (true, ⟨2, 2⟩) ∧
    (quad_mesh_2x1.build_edge 1 1).contains_point ⟨2, 2⟩ = false ∧
    check_valid_point (⟨2, 2⟩ : Point ℚ) ⟨1, 0⟩ (quad_mesh_2x1.build_edge 1 1) ⟨0, 0⟩
      = (false, ⟨0, 0⟩) ∧
    RayfireMesh.side_accepts ⟨2, ⟨1, 0⟩, (2 : ℚ), 1, 2⟩ quad_mesh_2x1 1 ⟨1, 0⟩ 1 = none :=
  ⟨by with_unfolding_all rfl, by with_unfolding_all rfl,
   out_of_segment_rejected_by_check_valid_point ⟨2, ⟨1, 0⟩, (2 : ℚ), 1, 2⟩ quad_mesh_2x1 1 1
     ⟨1, 0⟩ ⟨7, 7⟩ ⟨0, 0⟩ ⟨2, 2⟩ (by with_unfolding_all rfl) (by with_unfolding_all rfl)⟩

/-! ## Theorems: rayfire mesh, the choice of the next element -/

theorem side_accepts_some_iff {K : Type} [LinearOrderedField K] (r : RayfireMesh K)
    (mesh : MeshBase K) (cur_elem : Nat) (start_point : Point K) (s : Nat) (p : Point K) :
    r.side_accepts mesh cur_elem start_point s = some p ↔
      (mesh.build_edge cur_elem s).contains_point start_point = false ∧
      newton_iterate r.tan_theta start_point.x start_point.y (mesh.build_edge cur_elem s)
        20 (some 0) = some p ∧
      absolute_fuzzy_equals p start_point = false ∧
      (mesh.build_edge cur_elem s).contains_point p = true := by
  unfold RayfireMesh.side_accepts
  cases hc : (mesh.build_edge cur_elem s).contains_point start_point
  · cases hn : newton_iterate r.tan_theta start_point.x start_point.y
        (mesh.build_edge cur_elem s) 20 (some 0) with
    | none => simp
    | some q =>
      cases hf : absolute_fuzzy_equals q start_point <;>
        cases he : (mesh.build_edge cur_elem s).contains_point q <;>
        simp [hf, he] <;>
        (intro hqp; subst hqp; simp_all)
  · simp

theorem get_next_elem_from_spec {K : Type} [LinearOrderedField K] (r : RayfireMesh K)
    (mesh : MeshBase K) (cur_elem : Nat) (start_point : Point K) (remaining : Nat) :
    ∀ (s : Nat) (intersection_point next_point : Point K),
      (∃ t p, s ≤ t ∧ t < s + remaining ∧
        r.side_accepts mesh cur_elem start_point t = some p ∧
        (∀ u, s ≤ u → u < t → r.side_accepts mesh cur_elem start_point u = none) ∧
        r.get_next_elem_from mesh cur_elem start_point remaining s intersection_point next_point
          = (r.get_correct_neighbor mesh p cur_elem t, p)) ∨
      ((∀ u, s ≤ u → u < s + remaining →
          r.side_accepts mesh cur_elem start_point u = none) ∧
        r.get_next_elem_from mesh cur_elem start_point remaining s intersection_point next_point
          = (.ok none, next_point)) := by
  induction remaining with
  | zero =>
    intro s ip np
    right
    refine ⟨?_, rfl⟩
    intro u h1 h2
    omega
  | succ n ih =>
    intro s ip np
    have hcases : r.side_accepts mesh cur_elem start_point s = none →
        ∀ ip2 np2,
        r.get_next_elem_from mesh cur_elem start_point n (s + 1) ip2 np2
          = r.get_next_elem_from mesh cur_elem start_point (n + 1) s ip np →
        np2 = np →
        (∃ t p, s ≤ t ∧ t < s + (n + 1) ∧
          r.side_accepts mesh cur_elem start_point t = some p ∧
          (∀ u, s ≤ u → u < t → r.side_accepts mesh cur_elem start_point u = none) ∧
          r.get_next_elem_from mesh cur_elem start_point (n + 1) s ip np
            = (r.get_correct_neighbor mesh p cur_elem t, p)) ∨
        ((∀ u, s ≤ u → u < s + (n + 1) →
            r.side_accepts mesh cur_elem start_point u = none) ∧
          r.get_next_elem_from mesh cur_elem start_point (n + 1) s ip np
            = (.ok none, np)) := by
      intro hnone ip2 np2 heq hnp
      subst hnp
      rcases ih (s + 1) ip2 np2 with ⟨t, p, h1, h2, h3, h4, h5⟩ | ⟨h1, h2⟩
      · left
        refine ⟨t, p, by omega, by omega, h3, ?_, ?_⟩
        · intro u hu1 hu2
          by_cases hus : u = s
          · rw [hus]
            exact hnone
          · exact h4 u (by omega) hu2
        · rw [← heq]
          exact h5
      · right
        refine ⟨?_, ?_⟩
        · intro u hu1 hu2
          by_cases hus : u = s
          · rw [hus]
            exact hnone
          · exact h1 u (by omega) (by omega)
        · rw [← heq]
          exact h2
    cases hc : (mesh.build_edge cur_elem s).contains_point start_point
    · cases hn : newton_iterate r.tan_theta start_point.x start_point.y
          (mesh.build_edge cur_elem s) 20 (some 0) with
      | none =>
        apply hcases (by simp [RayfireMesh.side_accepts, hc, hn]) ip np _ rfl
        conv_rhs => unfold RayfireMesh.get_next_elem_from
        simp [hc, RayfireMesh.newton_solve_intersection, hn]
      | some q =>
        cases hv : (!(absolute_fuzzy_equals q start_point)
            && (mesh.build_edge cur_elem s).contains_point q)
        · apply hcases (by simp [RayfireMesh.side_accepts, hc, hn, hv]) q np _ rfl
          conv_rhs => unfold RayfireMesh.get_next_elem_from
          simp [hc, RayfireMesh.newton_solve_intersection, hn, check_valid_point, hv]
        · left
          refine ⟨s, q, le_refl s, by omega, ?_, ?_, ?_⟩
          · simp [RayfireMesh.side_accepts, hc, hn, hv]
          · intro u h1 h2
            omega
          · unfold RayfireMesh.get_next_elem_from
            simp [hc, RayfireMesh.newton_solve_intersection, hn, check_valid_point, hv]
    · apply hcases (by simp [RayfireMesh.side_accepts, hc]) ip np _ rfl
      conv_rhs => unfold RayfireMesh.get_next_elem_from
      simp [hc]

/-- C20 fails as stated: on the 2x1 mesh, from the start point `(0,1/2)` on
the left boundary with the direction `(cos theta, sin theta) = (-1,0)`
(`theta = pi`, tangent 0), `get_next_elem` accepts the point `(1,1/2)` on
side 1 of element 0 and returns element 1, although that point lies behind
the start point: the component of `p - s` along the direction is `-1`. `init`
completes for this rayfire and walks through both elements against the
direction. -/
theorem get_next_elem_accepts_point_behind :
    rayfire_pointing_out.side_accepts quad_mesh_2x1 0 ⟨0, 1 / 2⟩ 1 = some ⟨1, 1 / 2⟩ ∧
    rayfire_pointing_out.get_next_elem quad_mesh_2x1 0 ⟨0, 1 / 2⟩ ⟨0, 0⟩
      = (.ok (some 1), ⟨1, 1 / 2⟩) ∧
    ((1 : ℚ) - 0) * rayfire_pointing_out.cos_theta
      + ((1 / 2 : ℚ) - 1 / 2) * rayfire_pointing_out.sin_theta = -1 ∧
    ¬ (0 < ((1 : ℚ) - 0) * rayfire_pointing_out.cos_theta
      + ((1 / 2 : ℚ) - 1 / 2) * rayfire_pointing_out.sin_theta) ∧
    (rayfire_pointing_out.init quad_mesh_2x1 2 RayfireState.initial).map
        (fun out => (out.state.nodes, out.traversed))
      = some ([(0, ⟨0, 1 / 2⟩), (1, ⟨1, 1 / 2⟩), (2, ⟨2, 1 / 2⟩)], [0, 1]) := by
  refine ⟨?_, ?_, ?_, ?_, ?_⟩
  · with_unfolding_all decide
  · with_unfolding_all rfl
  · norm_num [rayfire_pointing_out]
  · norm_num [rayfire_pointing_out]
  · with_unfolding_all decide

/-- C20 as amended: `get_next_elem` accepts the converged Newton point `p`
of the first side `s` of the current element whose edge does not contain the
start point, for which `p` is not fuzzily equal to the start point and the
edge contains `p`; it then writes `p` to the next point and returns what
`get_correct_neighbor` gives for `p` and `s`. When no side qualifies it
returns null and leaves the next point unwritten. The Newton solve uses the
line through the start point with slope `tan(theta)`; on which side of the
start point `p` lies along `(cos theta, sin theta)` plays no part. -/
theorem get_next_elem_accepts_first_valid_side {K : Type} [LinearOrderedField K]
    (r : RayfireMesh K) (mesh : MeshBase K) (cur_elem : Nat) (start_point next_point : Point K) :
    (∃ s p, s < mesh.n_sides cur_elem ∧
      (mesh.build_edge cur_elem s).contains_point start_point = false ∧
      newton_iterate r.tan_theta start_point.x start_point.y (mesh.build_edge cur_elem s)
        20 (some 0) = some p ∧
      absolute_fuzzy_equals p start_point = false ∧
      (mesh.build_edge cur_elem s).contains_point p = true ∧
      (∀ u, u < s → r.side_accepts mesh cur_elem start_point u = none) ∧
      r.get_next_elem mesh cur_elem start_point next_point
        = (r.get_correct_neighbor mesh p cur_elem s, p)) ∨
    ((∀ u, u < mesh.n_sides cur_elem → r.side_accepts mesh cur_elem start_point u = none) ∧
      r.get_next_elem mesh cur_elem start_point next_point = (.ok none, next_point)) := by
  unfold RayfireMesh.get_next_elem
  rcases get_next_elem_from_spec r mesh cur_elem start_point (mesh.n_sides cur_elem) 0 ⟨0, 0⟩
      next_point with ⟨t, p, _, h2, h3, h4, h5⟩ | ⟨h1, h2⟩
  · left
    obtain ⟨a1, a2, a3, a4⟩ := (side_accepts_some_iff r mesh cur_elem start_point t p).mp h3
    exact ⟨t, p, by omega, a1, a2, a3, a4, fun u hu => h4 u (Nat.zero_le u) hu, h5⟩
  · right
    exact ⟨fun u hu => h1 u (Nat.zero_le u) (by omega), h2⟩

/-! ## Theorems: Rayleigh damping, the two factors and symmetry -/

theorem build_var_names_error_state (factory_map : String → Option VariableFactory)
    (name : String) (s : VariableFactoryAbstract) (e : String)
    (h : (build_var_names factory_map name s).result = .error e) :
    (build_var_names factory_map name s).state = s := by
  unfold build_var_names at h ⊢
  split
  · rfl
  · split
    · rfl
    · split
      · rfl
      · split
        · rfl
        · simp_all

theorem parse_fe_family_error_state (factory_map : String → Option VariableFactory)
    (name : String) (s : VariableFactoryAbstract) (e : String)
    (h : (parse_fe_family factory_map name s).result = .error e) :
    (parse_fe_family factory_map name s).state = s := by
  unfold parse_fe_family at h ⊢
  split
  · rfl
  · split
    · rfl
    · split
      · rfl
      · split
        · rfl
        · simp_all

theorem parse_fe_order_error_state (factory_map : String → Option VariableFactory)
    (name : String) (s : VariableFactoryAbstract) (e : String)
    (h : (parse_fe_order factory_map name s).result = .error e) :
    (parse_fe_order factory_map name s).state = s := by
  unfold parse_fe_order at h ⊢
  split
  · rfl
  · split
    · rfl
    · split
      · rfl
      · split
        · rfl
        · simp_all

/-- C26: when the state check passes on `s` and a call of `build_var_names`,
`parse_fe_family` or `parse_fe_order` raises an error (the name is not
registered, or the parse hook raises), the static state `t` it leaves is `s`
itself: the input handle and the section are not reset. A following call of
any of the three on `t` with a registered name passes the state check and
returns what the hook of that name returns on the handle and section that
were set; so it succeeds whenever that hook does. -/
theorem build_parse_failure_keeps_state (factory_map : String → Option VariableFactory)
    (name : String) (s t : VariableFactoryAbstract) (input : GetPot)
    (hinput : s._input = some input) (hsection : s._var_section ≠ "DIE!")
    (h : (∃ e, (build_var_names factory_map name s).result = .error e ∧
            (build_var_names factory_map name s).state = t) ∨
         (∃ e, (parse_fe_family factory_map name s).result = .error e ∧
            (parse_fe_family factory_map name s).state = t) ∨
         (∃ e, (parse_fe_order factory_map name s).result = .error e ∧
            (parse_fe_order factory_map name s).state = t)) :
    t = s ∧
    ∀ (other_map : String → Option VariableFactory) (other : String) (factory : VariableFactory),
      other_map other = some factory →
      (build_var_names other_map other t).result
        = factory.parse_var_names input s._var_section ∧
      (parse_fe_family other_map other t).result
        = factory.parse_fe_family_impl input s._var_section ∧
      (parse_fe_order other_map other t).result
        = factory.parse_fe_order_impl input s._var_section := by
  have ht : t = s := by
    rcases h with ⟨e, he, hs⟩ | ⟨e, he, hs⟩ | ⟨e, he, hs⟩
    · rw [← hs]; exact build_var_names_error_state _ _ _ e he
    · rw [← hs]; exact parse_fe_family_error_state _ _ _ e he
    · rw [← hs]; exact parse_fe_order_error_state _ _ _ e he
  subst ht
  refine ⟨rfl, ?_⟩
  intro other_map other factory hreg
  have hcheck : check_build_parse_state t = .ok () := by
    simp [check_build_parse_state, hinput, hsection]
  refine ⟨?_, ?_, ?_⟩
  · simp only [build_var_names, hcheck, get_factory_subclass, hreg, hinput]
    cases factory.parse_var_names input t._var_section <;> rfl
  · simp only [parse_fe_family, hcheck, get_factory_subclass, hreg, hinput]
    cases factory.parse_fe_family_impl input t._var_section <;> rfl
  · simp only [parse_fe_order, hcheck, get_factory_subclass, hreg, hinput]
    cases factory.parse_fe_order_impl input t._var_section <;> rfl

/-- Witness for C26: after `set_getpot` and `set_var_section`, a call for
the unregistered name `Pressure` fails and leaves the state as set; the
following call for the registered name `Velocity` returns `["Ux"]`. -/
theorem build_parse_failure_keeps_state_witness :
    (∃ e, (build_var_names sample_factory_map "Pressure" sample_ready_state).result
      = .error e) ∧
    (build_var_names sample_factory_map "Pressure" sample_ready_state).state
      = sample_ready_state ∧
    (build_var_names sample_factory_map "Velocity"
      (build_var_names sample_factory_map "Pressure" sample_ready_state).state).result
      = .ok ["Ux"] :=
  ⟨⟨_, rfl⟩,
   (build_parse_failure_keeps_state sample_factory_map "Pressure" sample_ready_state _
      sample_input rfl (by decide) (Or.inl ⟨_, rfl, rfl⟩)).1,
   ((build_parse_failure_keeps_state sample_factory_map "Pressure" sample_ready_state _
      sample_input rfl (by decide) (Or.inl ⟨_, rfl, rfl⟩)).2 sample_factory_map "Velocity"
      _ rfl).1⟩

/-! ## Theorems: rayfire mesh, the direction angle -/

theorem get_next_elem_from_point_tan {K : Type} [LinearOrderedField K] (r t : RayfireMesh K)
    (htan : r.tan_theta = t.tan_theta) (mesh : MeshBase K) (cur_elem : Nat)
    (start_point : Point K) (remaining : Nat) :
    ∀ (s : Nat) (intersection_point next_point : Point K),
      (r.get_next_elem_from mesh cur_elem start_point remaining s intersection_point
        next_point).2
      = (t.get_next_elem_from mesh cur_elem start_point remaining s intersection_point
        next_point).2 := by
  induction remaining with
  | zero =>
    intro s ip np
    rfl
  | succ n ih =>
    intro s ip np
    unfold RayfireMesh.get_next_elem_from
    simp only [RayfireMesh.newton_solve_intersection, htan]
    split_ifs <;> first | rfl | exact ih _ _ _

/-! ## Theorems: vertex handling and stale end points of the rayfire walk -/

/-- C24 (code bug): the last branch of `get_correct_neighbor` is reached on
the conforming 2x1 quadrilateral mesh. The ray from `(1/4,0)` with direction
`(3/5,4/5)` starts on the boundary of element 0; side 1 of element 0, which has
the neighbour element 1, accepts the intersection `(1,1)`, a vertex shared by
both elements; the offset point lies in neither, so `get_correct_neighbor`
raises `"We shouldn't be here..."` and `init` ends with that error. -/
theorem get_correct_neighbor_error_reached (extra : Nat) :
    quad_mesh_2x1.point_locator rayfire_through_vertex._origin = some 0 ∧
    rayfire_through_vertex.check_origin_on_boundary quad_mesh_2x1 0 = .ok () ∧
    quad_mesh_2x1.neighbor 0 1 = some 1 ∧
    rayfire_through_vertex.side_accepts quad_mesh_2x1 0 ⟨1 / 4, 0⟩ 1 = some ⟨1, 1⟩ ∧
    rayfire_through_vertex.get_correct_neighbor quad_mesh_2x1 ⟨1, 1⟩ 0 1
      = .error "We shouldn't be here..." ∧
    rayfire_through_vertex.init quad_mesh_2x1 (1 + extra) RayfireState.initial
      = some ⟨.error "We shouldn't be here...", ⟨[(0, ⟨1 / 4, 0⟩)], [], 0, []⟩, []⟩ := by
  refine ⟨by with_unfolding_all rfl, by with_unfolding_all rfl, by with_unfolding_all rfl,
    by with_unfolding_all rfl, by with_unfolding_all rfl, ?_⟩
  apply init_more_fuel
  with_unfolding_all rfl

/-- C28 (code bug): on the 2x1 quadrilateral mesh, the ray from the corner
`(2,0)` with direction `(3/5,4/5)` has no accepted intersection in element 1,
so `get_next_elem` returns null and leaves the end point at its default
`(0,0)`; `init` still completes, adds that point as node 1 and maps the edge
from node 0 to node 1 to element 1, although `(0,0)` is neither in element 1
nor on the line through the origin with slope `4/3`. -/
theorem init_adds_stale_end_point (extra : Nat) :
    rayfire_at_corner.get_next_elem quad_mesh_2x1 1 ⟨2, 0⟩ ⟨0, 0⟩ = (.ok none, ⟨0, 0⟩) ∧
    rayfire_at_corner.init quad_mesh_2x1 (1 + extra) RayfireState.initial
      = some ⟨.ok (), ⟨[(0, ⟨2, 0⟩), (1, ⟨0, 0⟩)], [⟨0, 0, 1⟩], 1, [(1, 0)]⟩, [1]⟩ ∧
    quad_mesh_2x1.contains_point 1 ⟨0, 0⟩ = false ∧
    rayfire_at_corner.tan_theta * ((0 : ℚ) - rayfire_at_corner._origin.x)
      - ((0 : ℚ) - rayfire_at_corner._origin.y) ≠ 0 := by
  refine ⟨by with_unfolding_all rfl, ?_, by with_unfolding_all rfl, ?_⟩
  · apply init_more_fuel
    with_unfolding_all rfl
  · norm_num [rayfire_at_corner]

/-- C30 (code bug): on a mesh of three-node triangles the vertex test of
`get_correct_neighbor` asks for node index 3, which no triangle has. The ray
from `(0,0)` with direction `(3/5,4/5)` meets side 1 of triangle 0 at
`(3/7,4/7)`; that side has a neighbour, the nodes 0, 1 and 2 of the triangle
exist and node 3 does not, and the vertex test fails on the missing node, so
`init` cannot complete. -/
theorem vertex_test_reads_missing_node (extra : Nat) :
    tri_mesh.neighbor 0 1 = some 1 ∧
    (tri_mesh.get_node 0 0).isSome = true ∧ (tri_mesh.get_node 0 1).isSome = true ∧
    (tri_mesh.get_node 0 2).isSome = true ∧ tri_mesh.get_node 0 3 = none ∧
    rayfire_in_triangles.side_accepts tri_mesh 0 ⟨0, 0⟩ 1 = some ⟨3 / 7, 4 / 7⟩ ∧
    rayfire_in_triangles.get_correct_neighbor tri_mesh ⟨3 / 7, 4 / 7⟩ 0 1
      = .error "node index out of range" ∧
    rayfire_in_triangles.init tri_mesh (1 + extra) RayfireState.initial
      = some ⟨.error "node index out of range", ⟨[(0, ⟨0, 0⟩)], [], 0, []⟩, []⟩ := by
  refine ⟨by with_unfolding_all rfl, by with_unfolding_all rfl, by with_unfolding_all rfl,
    by with_unfolding_all rfl, by with_unfolding_all rfl, by with_unfolding_all rfl,
    by with_unfolding_all rfl, ?_⟩
  apply init_more_fuel
  with_unfolding_all rfl

/-! ## Theorems: the constructors of the rayfire -/

/-- C23 (counterexample): the three-argument constructor called with the
origin `(0,0)` and both angles 0 raises not-implemented instead of handing
back a rayfire of dimension 3. -/
theorem construct_3d_raises :
    RayfireMesh.construct_3d (⟨0, 0⟩ : Point ℚ) 0 0 = .error "libmesh_not_implemented" ∧
    ∀ m : RayfireMembers ℚ, RayfireMesh.construct_3d (⟨0, 0⟩ : Point ℚ) 0 0 ≠ .ok m :=
  ⟨rfl, fun _ h => Except.noConfusion h⟩

/-- C23 (amended): the three-argument constructor never completes, whatever
the origin and the two angles (of any type of numbers): after the member
initialisers set the dimension to 3 its body raises not-implemented, so no
rayfire of dimension 3 is ever handed back. -/
theorem construct_3d_never_completes {K : Type} (origin : Point K) (theta phi : K) :
    RayfireMesh.construct_3d origin theta phi = .error "libmesh_not_implemented" ∧
    ∀ m, RayfireMesh.construct_3d origin theta phi ≠ .ok m :=
  ⟨rfl, fun _ h => Except.noConfusion h⟩

/-! ## Theorems: the re-walk of `reinit` -/

theorem refine_loop_flags {K : Type} [LinearOrderedField K] (r : RayfireMesh K)
    (mesh : RefinedMesh K) (end_node : Point K) (last_node_id : Nat) (fuel : Nat) :
    ∀ (next_elem : Option Nat) (prev_elem : Nat) (end_point : Point K)
      (start_node_id end_node_id : Nat) (st : RayfireState K) (entered : List Nat)
      (out : ReinitOutcome K),
      (∀ c ∈ entered, mesh.refinement_flag c = RefinementState.JUST_REFINED) →
      r.refine_loop mesh end_node last_node_id fuel next_elem prev_elem end_point
        start_node_id end_node_id st entered = some out →
      (∀ c ∈ out.entered, mesh.refinement_flag c = RefinementState.JUST_REFINED) ∨
        out.result = .error refinement_assertion := by
  induction fuel with
  | zero =>
    intro next_elem prev_elem end_point start_node_id end_node_id st entered out _ h
    simp [RayfireMesh.refine_loop] at h
  | succ fuel ih =>
    intro next_elem prev_elem end_point start_node_id end_node_id st entered out hin h
    unfold RayfireMesh.refine_loop at h
    by_cases hend : absolute_fuzzy_equals end_point end_node = true
    · simp only [hend, if_true, Option.some.injEq] at h
      subst h
      exact Or.inl hin
    · simp only [hend] at h
      cases next_elem with
      | none =>
        simp only [Bool.false_eq_true, if_false, Option.some.injEq] at h
        subst h
        exact Or.inl hin
      | some next =>
        by_cases hflag : mesh.refinement_flag next = RefinementState.JUST_REFINED
        · simp only [Bool.false_eq_true, if_false, hflag, ne_eq, not_true_eq_false] at h
          have hin2 : ∀ c ∈ entered ++ [next],
              mesh.refinement_flag c = RefinementState.JUST_REFINED := by
            intro c hc
            rcases List.mem_append.mp hc with hc | hc
            · exact hin c hc
            · rw [List.mem_singleton.mp hc]
              exact hflag
          rcases hnext : r.get_next_elem mesh.toMeshBase next end_point end_point
            with ⟨res, new_end⟩
          rw [hnext] at h
          cases res with
          | error e =>
            simp only [Option.some.injEq] at h
            subst h
            exact Or.inl hin2
          | ok next_elem2 =>
            exact ih _ _ _ _ _ _ _ _ hin2 h
        · simp only [Bool.false_eq_true, if_false, ne_eq, hflag, not_false_eq_true, if_true,
            Option.some.injEq] at h
          subst h
          exact Or.inr rfl

theorem refine_flags {K : Type} [LinearOrderedField K] (r : RayfireMesh K)
    (mesh : RefinedMesh K) (fuel main_elem rayfire_elem : Nat) (st : RayfireState K)
    (out : ReinitOutcome K) (h : r.refine mesh fuel main_elem rayfire_elem st = some out) :
    (∀ c ∈ out.entered, mesh.refinement_flag c = RefinementState.JUST_REFINED) ∨
      out.result = .error refinement_assertion := by
  unfold RayfireMesh.refine at h
  split at h
  · simp only [Option.some.injEq] at h
    subst h
    exact Or.inl (by simp)
  · split at h
    · rename_i edge _ start_node end_node _ _
      simp only at h
      split at h
      · simp only [Option.some.injEq] at h
        subst h
        exact Or.inl (by simp)
      · rename_i prev_elem _
        by_cases hflag : mesh.refinement_flag prev_elem = RefinementState.JUST_REFINED
        · simp only [hflag, ne_eq, not_true_eq_false, if_false] at h
          have hin : ∀ c ∈ [prev_elem],
              mesh.refinement_flag c = RefinementState.JUST_REFINED := by
            intro c hc
            rw [List.mem_singleton.mp hc]
            exact hflag
          split at h
          · simp only [Option.some.injEq] at h
            subst h
            exact Or.inl hin
          · exact refine_loop_flags r mesh _ _ fuel _ _ _ _ _ _ _ _ hin h
        · simp only [ne_eq, hflag, not_false_eq_true, if_true, Option.some.injEq] at h
          subst h
          exact Or.inr rfl
    · simp only [Option.some.injEq] at h
      subst h
      exact Or.inl (by simp)

theorem refine_each_flags {K : Type} [LinearOrderedField K] (r : RayfireMesh K)
    (mesh : RefinedMesh K) (fuel : Nat) (found : List (Nat × Nat)) :
    ∀ (st : RayfireState K) (entered : List Nat) (out : ReinitOutcome K),
      (∀ c ∈ entered, mesh.refinement_flag c = RefinementState.JUST_REFINED) →
      r.refine_each mesh fuel found st entered = some out →
      (∀ c ∈ out.entered, mesh.refinement_flag c = RefinementState.JUST_REFINED) ∨
        out.result = .error refinement_assertion := by
  induction found with
  | nil =>
    intro st entered out hin h
    simp only [RayfireMesh.refine_each, Option.some.injEq] at h
    subst h
    exact Or.inl hin
  | cons pair rest ih =>
    intro st entered out hin h
    obtain ⟨main_elem, rayfire_elem⟩ := pair
    unfold RayfireMesh.refine_each at h
    cases hone : r.refine mesh fuel main_elem rayfire_elem st with
    | none =>
      rw [hone] at h
      simp at h
    | some out1 =>
      rw [hone] at h
      simp only at h
      have hflags := refine_flags r mesh fuel main_elem rayfire_elem st out1 hone
      cases hres : out1.result with
      | error e =>
        rw [hres] at h
        simp only [Option.some.injEq] at h
        subst h
        rcases hflags with hall | herr
        · left
          intro c hc
          rcases List.mem_append.mp hc with hc | hc
          · exact hin c hc
          · exact hall c hc
        · right
          rw [hres] at herr
          exact herr
      | ok u =>
        rw [hres] at h
        simp only at h
        rcases hflags with hall | herr
        · apply ih _ _ _ _ h
          intro c hc
          rcases List.mem_append.mp hc with hc | hc
          · exact hin c hc
          · exact hall c hc
        · rw [hres] at herr
          exact absurd herr (by simp)

theorem reinit_flags {K : Type} [LinearOrderedField K] (r : RayfireMesh K)
    (mesh : RefinedMesh K) (fuel : Nat) (st : RayfireState K) (out : ReinitOutcome K)
    (h : r.reinit mesh fuel st = some out) :
    (∀ c ∈ out.entered, mesh.refinement_flag c = RefinementState.JUST_REFINED) ∨
      out.result = .error refinement_assertion := by
  unfold RayfireMesh.reinit at h
  split at h
  · simp only [Option.some.injEq] at h
    subst h
    exact Or.inl (by simp)
  · exact refine_each_flags r mesh fuel _ _ _ _ (by simp) h

theorem refine_loop_more_fuel {K : Type} [LinearOrderedField K] (r : RayfireMesh K)
    (mesh : RefinedMesh K) (end_node : Point K) (last_node_id : Nat) (fuel extra : Nat) :
    ∀ (next_elem : Option Nat) (prev_elem : Nat) (end_point : Point K)
      (start_node_id end_node_id : Nat) (st : RayfireState K) (entered : List Nat)
      (out : ReinitOutcome K),
      r.refine_loop mesh end_node last_node_id fuel next_elem prev_elem end_point
        start_node_id end_node_id st entered = some out →
      r.refine_loop mesh end_node last_node_id (fuel + extra) next_elem prev_elem end_point
        start_node_id end_node_id st entered = some out := by
  induction fuel with
  | zero =>
    intro next_elem prev_elem end_point start_node_id end_node_id st entered out h
    simp [RayfireMesh.refine_loop] at h
  | succ fuel ih =>
    intro next_elem prev_elem end_point start_node_id end_node_id st entered out h
    rw [Nat.add_right_comm]
    unfold RayfireMesh.refine_loop at h ⊢
    split
    · rename_i hend
      simpa [hend] using h
    · rename_i hend
      simp only [hend, if_false] at h
      cases next_elem with
      | none => exact h
      | some next =>
        simp only at h ⊢
        split
        · rename_i hflag
          simpa [hflag] using h
        · rename_i hflag
          simp only [hflag, if_false] at h
          rcases hnext : r.get_next_elem mesh.toMeshBase next end_point end_point
            with ⟨res, new_end⟩
          rw [hnext] at h
          cases res with
          | error e => exact h
          | ok next_elem2 => exact ih _ _ _ _ _ _ _ _ h

theorem refine_more_fuel {K : Type} [LinearOrderedField K] (r : RayfireMesh K)
    (mesh : RefinedMesh K) (fuel extra main_elem rayfire_elem : Nat) (st : RayfireState K)
    (out : ReinitOutcome K) (h : r.refine mesh fuel main_elem rayfire_elem st = some out) :
    r.refine mesh (fuel + extra) main_elem rayfire_elem st = some out := by
  unfold RayfireMesh.refine at h ⊢
  split
  · rename_i hfind
    simpa [hfind] using h
  · rename_i edge hfind
    simp only [hfind] at h
    split
    · rename_i start_node end_node hstart hend
      simp only [hstart, hend] at h
      split
      · rename_i e hchild
        simpa [hchild] using h
      · rename_i prev_elem hchild
        simp only [hchild] at h
        split
        · rename_i hflag
          simpa [hflag] using h
        · rename_i hflag
          simp only [hflag, if_false] at h
          split
          · rename_i e p hnext
            simpa [hnext] using h
          · rename_i next_elem end_point hnext
            simp only [hnext] at h
            exact refine_loop_more_fuel r mesh _ _ fuel extra _ _ _ _ _ _ _ _ h
    · rename_i hnodes
      split at h
      · rename_i start_node end_node hstart hend
        exact absurd hend (by
          intro hend2
          exact hnodes start_node end_node hstart hend2)
      · exact h

theorem refine_each_more_fuel {K : Type} [LinearOrderedField K] (r : RayfireMesh K)
    (mesh : RefinedMesh K) (fuel extra : Nat) (found : List (Nat × Nat)) :
    ∀ (st : RayfireState K) (entered : List Nat) (out : ReinitOutcome K),
      r.refine_each mesh fuel found st entered = some out →
      r.refine_each mesh (fuel + extra) found st entered = some out := by
  induction found with
  | nil =>
    intro st entered out h
    exact h
  | cons pair rest ih =>
    intro st entered out h
    obtain ⟨main_elem, rayfire_elem⟩ := pair
    unfold RayfireMesh.refine_each at h ⊢
    cases hone : r.refine mesh fuel main_elem rayfire_elem st with
    | none =>
      rw [hone] at h
      simp at h
    | some out1 =>
      rw [hone] at h
      rw [refine_more_fuel r mesh fuel extra main_elem rayfire_elem st out1 hone]
      simp only at h ⊢
      cases hres : out1.result with
      | error e =>
        rw [hres] at h
        exact h
      | ok u =>
        rw [hres] at h
        exact ih _ _ _ h

theorem reinit_more_fuel {K : Type} [LinearOrderedField K] (r : RayfireMesh K)
    (mesh : RefinedMesh K) (fuel extra : Nat) (st : RayfireState K) (out : ReinitOutcome K)
    (h : r.reinit mesh fuel st = some out) : r.reinit mesh (fuel + extra) st = some out := by
  unfold RayfireMesh.reinit at h ⊢
  split
  · rename_i e hfound
    simpa [hfound] using h
  · rename_i found hfound
    simp only [hfound] at h
    exact refine_each_more_fuel r mesh fuel extra found _ _ _ h

/-- C22: in a build where the libMesh assertions are active, whenever a run
of `reinit` ends (the loop of `refine` was not cut short) and some child
element that the re-walk started in or entered is not in the `JUST_REFINED`
state, the run ended with the failed assertion on the refinement flag; it did
not complete. -/
theorem reinit_fails_after_two_levels {K : Type} [LinearOrderedField K] (r : RayfireMesh K)
    (mesh : RefinedMesh K) (fuel : Nat) (st : RayfireState K) (out : ReinitOutcome K)
    (h : r.reinit mesh fuel st = some out)
    (hbad : ∃ c ∈ out.entered, mesh.refinement_flag c ≠ RefinementState.JUST_REFINED) :
    out.result = .error refinement_assertion ∧ out.result ≠ .ok () := by
  have hres : out.result = .error refinement_assertion := by
    rcases reinit_flags r mesh fuel st out h with hall | herr
    · obtain ⟨c, hc, hflag⟩ := hbad
      exact absurd (hall c hc) hflag
    · exact herr
  exact ⟨hres, by rw [hres]; intro hcontra; exact Except.noConfusion hcontra⟩

/-- Witness for C22: on the 2x1 mesh whose element 0 is inactive and whose
children are not `JUST_REFINED`, the re-walk starts in child 2 and `reinit`
fails on the first assertion, for any amount of fuel. -/
theorem reinit_fails_after_two_levels_witness :
    rayfire_theta_zero.reinit (refined_mesh_2x1 flags_two_levels) 0 two_by_one_outcome.state
      = some ⟨.error refinement_assertion, ⟨two_by_one_outcome.state.nodes, [⟨1, 1, 2⟩], 2,
          [(1, 1)]⟩, [2]⟩ ∧
    (∃ c ∈ [2], (refined_mesh_2x1 flags_two_levels).refinement_flag c
      ≠ RefinementState.JUST_REFINED) ∧
    (Except.error refinement_assertion : Except String Unit) = .error refinement_assertion ∧
    (Except.error refinement_assertion : Except String Unit) ≠ .ok () :=
  ⟨by with_unfolding_all rfl, ⟨2, by simp, by decide⟩,
   reinit_fails_after_two_levels rayfire_theta_zero (refined_mesh_2x1 flags_two_levels) 0
     two_by_one_outcome.state
     ⟨.error refinement_assertion, ⟨two_by_one_outcome.state.nodes, [⟨1, 1, 2⟩], 2,
       [(1, 1)]⟩, [2]⟩
     (by with_unfolding_all rfl) ⟨2, by simp, by decide⟩⟩

/-- C22, second sample: when the child 2 the re-walk starts in is
`JUST_REFINED` and the child 3 it enters next is not, `reinit` fails on the
assertion inside the loop, with any fuel of at least 1. -/
theorem reinit_fails_on_entered_child (extra : Nat) :
    rayfire_theta_zero.reinit (refined_mesh_2x1 flags_second_child_inactive) (1 + extra)
      two_by_one_outcome.state
      = some ⟨.error refinement_assertion, ⟨two_by_one_outcome.state.nodes, [⟨1, 1, 2⟩], 2,
          [(1, 1)]⟩, [2, 3]⟩ := by
  apply reinit_more_fuel
  with_unfolding_all rfl

theorem assign_walked_find_other (walked : List Nat) :
    ∀ (m : List (Nat × Nat)) (first_id k : Nat), k ∉ walked →
      map_find (assign_walked m walked first_id) k = map_find m k := by
  induction walked with
  | nil =>
    intro m first_id k _
    rfl
  | cons c rest ih =>
    intro m first_id k hk
    simp only [List.mem_cons, not_or] at hk
    simp only [assign_walked]
    rw [ih _ _ _ hk.2, map_find_assign_other _ _ _ _ hk.1]

theorem assign_walked_find_nodup (walked : List Nat) :
    ∀ (m : List (Nat × Nat)) (first_id : Nat), walked.Nodup →
      ∀ (i : Nat) (hi : i < walked.length),
        map_find (assign_walked m walked first_id) (walked.get ⟨i, hi⟩) = some (first_id + i) := by
  induction walked with
  | nil =>
    intro m first_id _ i hi
    simp at hi
  | cons c rest ih =>
    intro m first_id hnodup i hi
    rw [List.nodup_cons] at hnodup
    simp only [assign_walked]
    cases i with
    | zero =>
      simp only [List.get_eq_getElem, List.getElem_cons_zero, Nat.add_zero]
      rw [assign_walked_find_other rest _ _ _ hnodup.1, map_find_assign_same]
    | succ j =>
      have hj : j < rest.length := by simpa using hi
      have := ih (map_assign m c first_id) (first_id + 1) hnodup.2 j hj
      simp only [List.get_eq_getElem, List.getElem_cons_succ] at this ⊢
      rw [this]
      congr 1
      omega

theorem elems_to_refine_filter {K : Type} (mesh : RefinedMesh K) (m : List (Nat × Nat)) :
    ∀ found, elems_to_refine mesh m = .ok found →
      found = m.filter (fun entry => mesh.refinement_flag entry.1 = RefinementState.INACTIVE) := by
  induction m with
  | nil =>
    intro found h
    simp only [elems_to_refine, Except.ok.injEq] at h
    simp [← h]
  | cons entry rest ih =>
    intro found h
    obtain ⟨id, rayfire_elem⟩ := entry
    unfold elems_to_refine at h
    by_cases helem : mesh.elem id = false
    · simp [helem] at h
    · simp only [helem, if_false] at h
      cases hrest : elems_to_refine mesh rest with
      | error e =>
        rw [hrest] at h
        simp at h
      | ok found_rest =>
        rw [hrest] at h
        simp only at h
        have hfr := ih found_rest hrest
        by_cases hflag : mesh.refinement_flag id = RefinementState.INACTIVE
        · simp [hflag] at h
          rw [← h, hfr]
          simp [List.filter_cons, hflag]
        · simp [hflag] at h
          rw [← h, hfr]
          simp [List.filter_cons, hflag]

theorem filter_single_key (P : Nat → Bool) (E e : Nat) (m : List (Nat × Nat)) :
    (m.map Prod.fst).Nodup → map_find m E = some e → P E = true →
    (∀ k, k ≠ E → k ∈ m.map Prod.fst → P k = false) →
    m.filter (fun entry => P entry.1) = [(E, e)] := by
  induction m with
  | nil =>
    intro _ hfind _ _
    simp [map_find] at hfind
  | cons entry rest ih =>
    intro hnodup hfind hE hothers
    obtain ⟨k, v⟩ := entry
    simp only [List.map_cons, List.nodup_cons] at hnodup
    by_cases hk : E = k
    · subst hk
      have hv : v = e := by
        simpa [map_find, List.lookup] using hfind
      subst hv
      have hrest : rest.filter (fun entry => P entry.1) = [] := by
        rw [List.filter_eq_nil_iff]
        intro entry hentry
        have hmem : entry.1 ∈ rest.map Prod.fst := List.mem_map_of_mem Prod.fst hentry
        have hne : entry.1 ≠ E := by
          intro heq
          rw [heq] at hmem
          exact hnodup.1 hmem
        simp [hothers entry.1 hne (by simp [hmem])]
      simp [List.filter_cons, hE, hrest]
    · have hbeq : (E == k) = false := by simpa using hk
      have hfind2 : map_find rest E = some e := by
        simpa [map_find, List.lookup, hbeq] using hfind
      have hPk : P k = false := hothers k (fun h => hk h.symm) (by simp)
      rw [List.filter_cons]
      simp only [hPk, Bool.false_eq_true, if_false]
      exact ih hnodup.2 hfind2 hE (fun k2 hk2 hmem => hothers k2 hk2 (by simp [hmem]))

theorem refine_loop_spec {K : Type} [LinearOrderedField K] (r : RayfireMesh K)
    (mesh : RefinedMesh K) (end_node : Point K) (last_node_id : Nat) (fuel : Nat) :
    ∀ (next_elem : Option Nat) (prev_elem : Nat) (end_point : Point K)
      (start_node_id end_node_id : Nat) (st : RayfireState K) (entered : List Nat)
      (out : ReinitOutcome K),
      r.refine_loop mesh end_node last_node_id fuel next_elem prev_elem end_point
        start_node_id end_node_id st entered = some out →
      out.result = .ok () →
      ∃ walked new_edges,
        out.entered = entered ++ walked ∧
        out.state.elems = st.elems ++ new_edges ∧
        new_edges.map (fun edge => edge.id) = List.range' st.next_elem_id (walked.length + 1) ∧
        is_chain start_node_id last_node_id new_edges = true ∧
        out.state._elem_id_map
          = assign_walked st._elem_id_map (prev_elem :: walked) st.next_elem_id ∧
        st.nodes <+: out.state.nodes := by
  induction fuel with
  | zero =>
    intro next_elem prev_elem end_point start_node_id end_node_id st entered out h _
    simp [RayfireMesh.refine_loop] at h
  | succ fuel ih =>
    intro next_elem prev_elem end_point start_node_id end_node_id st entered out h hok
    unfold RayfireMesh.refine_loop at h
    by_cases hend : absolute_fuzzy_equals end_point end_node = true
    · simp only [hend, if_true, Option.some.injEq] at h
      subst h
      refine ⟨[], [⟨st.next_elem_id, start_node_id, last_node_id⟩], ?_, ?_, ?_, ?_, ?_, ?_⟩
      · simp
      · rfl
      · simp [List.range']
      · simp [is_chain]
      · rfl
      · exact List.prefix_refl _
    · simp only [hend] at h
      cases next_elem with
      | none =>
        simp only [Bool.false_eq_true, if_false, Option.some.injEq] at h
        subst h
        simp at hok
      | some next =>
        by_cases hflag : mesh.refinement_flag next = RefinementState.JUST_REFINED
        · simp only [Bool.false_eq_true, if_false, hflag, ne_eq, not_true_eq_false] at h
          rcases hnext : r.get_next_elem mesh.toMeshBase next end_point end_point
            with ⟨res, new_end⟩
          rw [hnext] at h
          cases res with
          | error e =>
            simp only [Option.some.injEq] at h
            subst h
            simp at hok
          | ok next_elem2 =>
            obtain ⟨walked, new_edges, hent, helems, hids, hchain, hmap, hnodes⟩ :=
              ih _ _ _ _ _ _ _ _ h hok
            refine ⟨next :: walked,
              ⟨st.next_elem_id, start_node_id, end_node_id⟩ :: new_edges, ?_, ?_, ?_, ?_, ?_, ?_⟩
            · rw [hent]
              simp
            · rw [helems]
              simp [RayfireState.add_elem, RayfireState.add_point]
            · rw [List.map_cons, hids]
              simp [RayfireState.add_elem, RayfireState.add_point, List.range'_succ]
            · simp only [is_chain, decide_True, Bool.true_and]
              exact hchain
            · rw [hmap]
              rfl
            · refine List.IsPrefix.trans ?_ hnodes
              simp [RayfireState.add_elem, RayfireState.add_point]
        · simp only [Bool.false_eq_true, if_false, ne_eq, hflag, not_false_eq_true, if_true,
            Option.some.injEq] at h
          subst h
          simp [refinement_assertion] at hok

theorem find_child_mem {K : Type} (mesh : MeshBase K) (start_node : Point K)
    (children : List Nat) :
    ∀ c, find_child mesh start_node children = .ok c → c ∈ children := by
  induction children with
  | nil =>
    intro c h
    simp [find_child] at h
  | cons first rest ih =>
    intro c h
    unfold find_child at h
    by_cases hin : mesh.contains_point first start_node = true
    · simp only [hin, if_true, Except.ok.injEq] at h
      simp [h]
    · simp only [hin] at h
      exact List.mem_cons_of_mem _ (ih c h)

theorem refine_spec {K : Type} [LinearOrderedField K] (r : RayfireMesh K)
    (mesh : RefinedMesh K) (fuel main_elem rayfire_elem : Nat) (st : RayfireState K)
    (out : ReinitOutcome K) (h : r.refine mesh fuel main_elem rayfire_elem st = some out)
    (hok : out.result = .ok ()) :
    ∃ old new_edges,
      st.elems.find? (fun edge => edge.id = rayfire_elem) = some old ∧
      out.state.elems = st.elems.filter (fun other => other.id ≠ rayfire_elem) ++ new_edges ∧
      new_edges.map (fun edge => edge.id) = List.range' st.next_elem_id out.entered.length ∧
      is_chain old.node0 old.node1 new_edges = true ∧
      out.entered ≠ [] ∧
      (∃ c ∈ mesh.children main_elem, out.entered.head? = some c) ∧
      out.state._elem_id_map
        = assign_walked (map_erase st._elem_id_map main_elem) out.entered st.next_elem_id ∧
      st.nodes <+: out.state.nodes := by
  unfold RayfireMesh.refine at h
  split at h
  · simp only [Option.some.injEq] at h
    subst h
    simp at hok
  · rename_i edge hfind
    split at h
    · rename_i start_node end_node _ _
      simp only at h
      split at h
      · simp only [Option.some.injEq] at h
        subst h
        simp at hok
      · rename_i prev_elem hchild
        by_cases hflag : mesh.refinement_flag prev_elem = RefinementState.JUST_REFINED
        · simp only [hflag, ne_eq, not_true_eq_false, if_false] at h
          split at h
          · simp only [Option.some.injEq] at h
            subst h
            simp at hok
          · obtain ⟨walked, new_edges, hent, helems, hids, hchain, hmap, hnodes⟩ :=
              refine_loop_spec r mesh _ _ fuel _ _ _ _ _ _ _ _ h hok
            refine ⟨edge, new_edges, hfind, helems, ?_, hchain, ?_, ?_, ?_, hnodes⟩
            · rw [hids, hent]
              simp [Nat.add_comm]
            · rw [hent]
              simp
            · exact ⟨prev_elem, find_child_mem _ _ _ _ hchild, by rw [hent]; rfl⟩
            · rw [hmap, hent]
              rfl
        · simp only [ne_eq, hflag, not_false_eq_true, if_true, Option.some.injEq] at h
          subst h
          simp [refinement_assertion] at hok
    · simp only [Option.some.injEq] at h
      subst h
      simp at hok

theorem reinit_single {K : Type} [LinearOrderedField K] (r : RayfireMesh K)
    (mesh : RefinedMesh K) (fuel : Nat) (st : RayfireState K) (out : ReinitOutcome K)
    (E e : Nat)
    (hkeys : (st._elem_id_map.map Prod.fst).Nodup)
    (hE : map_find st._elem_id_map E = some e)
    (hflagE : mesh.refinement_flag E = RefinementState.INACTIVE)
    (hothers : ∀ k, k ≠ E → k ∈ st._elem_id_map.map Prod.fst →
      mesh.refinement_flag k ≠ RefinementState.INACTIVE)
    (h : r.reinit mesh fuel st = some out) (hok : out.result = .ok ()) :
    ∃ out1, r.refine mesh fuel E e st = some out1 ∧ out1.result = .ok () ∧
      out.state = out1.state ∧ out.entered = out1.entered := by
  unfold RayfireMesh.reinit at h
  split at h
  · simp only [Option.some.injEq] at h
    subst h
    simp at hok
  · rename_i found hfound
    have hfilter := elems_to_refine_filter mesh _ found hfound
    have hsingle := filter_single_key
      (fun k => decide (mesh.refinement_flag k = RefinementState.INACTIVE)) E e
      st._elem_id_map hkeys hE (by simp [hflagE])
      (fun k hk hmem => by simpa using hothers k hk hmem)
    rw [hsingle] at hfilter
    subst hfilter
    simp only [RayfireMesh.refine_each] at h
    cases hone : r.refine mesh fuel E e st with
    | none =>
      rw [hone] at h
      simp at h
    | some out1 =>
      rw [hone] at h
      simp only at h
      cases hres : out1.result with
      | error msg =>
        rw [hres] at h
        simp only [Option.some.injEq] at h
        subst h
        simp at hok
      | ok u =>
        rw [hres] at h
        simp only [Option.some.injEq] at h
        subst h
        exact ⟨out1, rfl, hres, rfl, by simp⟩

/-- The re-walk of `reinit` when it completes. Let `E` be the only mapped
background element that is `INACTIVE`,
mapped to the rayfire edge `e`, let the `JUST_REFINED` elements be children of
`E` (one level of refinement of `E` alone) and the children of `E` be new
elements without a map entry. When `reinit` completes without an error and
the re-walk entered no child twice, then: the edge `e` is gone from the line
mesh and every other edge is kept; one or more new edges, with fresh
consecutive ids, are appended, and they form a chain from the start node of
`e` to the end node of `e` (the same node ids); the `i`-th child entered is a
child of `E` and is mapped to the `i`-th new edge; `E` has no map entry any
more; every other map entry is unchanged; and the nodes the line mesh had
(among them the first and last node of the polyline) are all kept, new nodes
being appended after them. -/
theorem reinit_replaces_refined_edge {K : Type} [LinearOrderedField K] (r : RayfireMesh K)
    (mesh : RefinedMesh K) (fuel : Nat) (st : RayfireState K) (out : ReinitOutcome K)
    (E e : Nat)
    (hkeys : (st._elem_id_map.map Prod.fst).Nodup)
    (hE : map_find st._elem_id_map E = some e)
    (hids : ∀ edge ∈ st.elems, edge.id < st.next_elem_id)
    (hflagE : mesh.refinement_flag E = RefinementState.INACTIVE)
    (hothers : ∀ k, k ≠ E → k ∈ st._elem_id_map.map Prod.fst →
      mesh.refinement_flag k ≠ RefinementState.INACTIVE)
    (hone : ∀ c, mesh.refinement_flag c = RefinementState.JUST_REFINED → c ∈ mesh.children E)
    (hfresh : ∀ c ∈ mesh.children E, map_find st._elem_id_map c = none)
    (h : r.reinit mesh fuel st = some out) (hok : out.result = .ok ())
    (hnodup : out.entered.Nodup) :
    ∃ old new_edges,
      st.elems.find? (fun edge => edge.id = e) = some old ∧
      new_edges ≠ [] ∧
      out.state.elems = st.elems.filter (fun other => other.id ≠ e) ++ new_edges ∧
      (∀ edge ∈ out.state.elems, edge.id ≠ e) ∧
      is_chain old.node0 old.node1 new_edges = true ∧
      new_edges.map (fun edge => edge.id) = List.range' st.next_elem_id out.entered.length ∧
      (∀ c ∈ out.entered, c ∈ mesh.children E) ∧
      (∀ i (hi : i < out.entered.length),
        map_find out.state._elem_id_map (out.entered.get ⟨i, hi⟩)
          = some (st.next_elem_id + i)) ∧
      map_find out.state._elem_id_map E = none ∧
      (∀ k, k ≠ E → k ∉ out.entered →
        map_find out.state._elem_id_map k = map_find st._elem_id_map k) ∧
      (∀ k v, k ≠ E → map_find st._elem_id_map k = some v →
        map_find out.state._elem_id_map k = some v) ∧
      st.nodes <+: out.state.nodes := by
  have hjust : ∀ c ∈ out.entered, mesh.refinement_flag c = RefinementState.JUST_REFINED := by
    rcases reinit_flags r mesh fuel st out h with hall | herr
    · exact hall
    · rw [hok] at herr
      exact absurd herr (by simp)
  have hEnot : E ∉ out.entered := by
    intro hmem
    have := hjust E hmem
    rw [hflagE] at this
    exact absurd this (by decide)
  obtain ⟨out1, hrefine, hok1, hstate, hentered⟩ :=
    reinit_single r mesh fuel st out E e hkeys hE hflagE hothers h hok
  obtain ⟨old, new_edges, hfind, helems, hnew_ids, hchain, hne, _, hmap, hnodes⟩ :=
    refine_spec r mesh fuel E e st out1 hrefine hok1
  rw [← hstate] at helems hnodes
  rw [← hentered] at hnew_ids hne
  rw [← hstate, ← hentered] at hmap
  have hother : ∀ k, k ≠ E → k ∉ out.entered →
      map_find out.state._elem_id_map k = map_find st._elem_id_map k := by
    intro k hk hnot
    rw [hmap, assign_walked_find_other _ _ _ _ hnot, map_find_erase_other _ _ _ hk]
  have hold : old ∈ st.elems ∧ old.id = e := by
    have h1 := List.mem_of_find?_eq_some hfind
    have h2 := List.find?_some hfind
    exact ⟨h1, by simpa using h2⟩
  refine ⟨old, new_edges, hfind, ?_, helems, ?_, hchain, hnew_ids, ?_, ?_, ?_, hother, ?_,
    hnodes⟩
  · intro hnil
    rw [hnil] at hnew_ids
    have hlen := congrArg List.length hnew_ids
    simp only [List.map_nil, List.length_nil, List.length_range'] at hlen
    exact hne (List.length_eq_zero.mp hlen.symm)
  · intro edge hedge
    rw [helems] at hedge
    rcases List.mem_append.mp hedge with hmem | hmem
    · simpa using (List.mem_filter.mp hmem).2
    · have hidmem : edge.id ∈ List.range' st.next_elem_id out.entered.length := by
        rw [← hnew_ids]
        exact List.mem_map_of_mem (fun edge => edge.id) hmem
      have hge : st.next_elem_id ≤ edge.id := by
        simp only [List.mem_range'_1] at hidmem
        exact hidmem.1
      have hlt := hids old hold.1
      rw [hold.2] at hlt
      omega
  · exact fun c hc => hone c (hjust c hc)
  · intro i hi
    rw [hmap]
    exact assign_walked_find_nodup _ _ _ hnodup i hi
  · rw [hmap, assign_walked_find_other _ _ _ _ hEnot, map_find_erase_same]
  · intro k v hk hkv
    have hnot : k ∉ out.entered := by
      intro hmem
      have := hfresh k (hone k (hjust k hmem))
      rw [this] at hkv
      exact absurd hkv (by simp)
    rw [hother k hk hnot]
    exact hkv

/-- The completing re-walk of the rayfire with origin `(0,0)` and `theta = 0` on the
2x1 mesh after element 0 was refined once. The edge 0 from node 0 to node 1
is replaced by the edges 2 and 3 through the new node 3 at `(1/2,0)`, mapped
to the children 2 and 3; the edge 1 and its map entry are kept. -/
theorem reinit_replaces_refined_edge_witness :
    rayfire_theta_zero.reinit (refined_mesh_2x1 flags_one_level) 2 two_by_one_outcome.state
      = some refined_two_by_one_outcome ∧
    refined_two_by_one_outcome.entered.Nodup ∧
    ∃ old new_edges,
      two_by_one_outcome.state.elems.find? (fun edge => edge.id = 0) = some old ∧
      new_edges ≠ [] ∧
      refined_two_by_one_outcome.state.elems = two_by_one_outcome.state.elems.filter (fun other => other.id ≠ 0) ++ new_edges ∧
      (∀ edge ∈ refined_two_by_one_outcome.state.elems, edge.id ≠ 0) ∧
      is_chain old.node0 old.node1 new_edges = true ∧
      new_edges.map (fun edge => edge.id) = List.range' two_by_one_outcome.state.next_elem_id refined_two_by_one_outcome.entered.length ∧
      (∀ c ∈ refined_two_by_one_outcome.entered, c ∈ (refined_mesh_2x1 flags_one_level).children 0) ∧
      (∀ i (hi : i < refined_two_by_one_outcome.entered.length),
        map_find refined_two_by_one_outcome.state._elem_id_map (refined_two_by_one_outcome.entered.get ⟨i, hi⟩)
          = some (two_by_one_outcome.state.next_elem_id + i)) ∧
      map_find refined_two_by_one_outcome.state._elem_id_map 0 = none ∧
      (∀ k, k ≠ 0 → k ∉ refined_two_by_one_outcome.entered →
        map_find refined_two_by_one_outcome.state._elem_id_map k = map_find two_by_one_outcome.state._elem_id_map k) ∧
      (∀ k v, k ≠ 0 → map_find two_by_one_outcome.state._elem_id_map k = some v →
        map_find refined_two_by_one_outcome.state._elem_id_map k = some v) ∧
      two_by_one_outcome.state.nodes <+: refined_two_by_one_outcome.state.nodes :=
  ⟨by with_unfolding_all rfl, by decide,
   reinit_replaces_refined_edge rayfire_theta_zero (refined_mesh_2x1 flags_one_level) 2
     two_by_one_outcome.state refined_two_by_one_outcome 0 0
     (by decide) (by decide) (by decide) rfl
     (by
       intro k hk hmem
       have hk1 : k = 1 := by
         simp [two_by_one_outcome] at hmem
         rcases hmem with h0 | h1
         · exact absurd h0 hk
         · exact h1
       subst hk1
       decide)
     (by
       intro c hc
       simp only [refined_mesh_2x1] at hc ⊢
       unfold flags_one_level at hc
       split at hc <;> simp_all)
     (by decide)
     (by with_unfolding_all rfl) rfl (by decide)⟩

/-- On the refined 2x1 mesh the run of `reinit` for the rayfire along the
lower boundary completes with this outcome for any fuel of at least 2. -/
theorem reinit_refined_two_by_one (extra : Nat) :
    rayfire_theta_zero.reinit (refined_mesh_2x1 flags_one_level) (2 + extra)
      two_by_one_outcome.state = some refined_two_by_one_outcome := by
  apply reinit_more_fuel
  with_unfolding_all rfl

/-- C21 (code bug): one level of refinement of the single element 0 of the
2x1 mesh, on the rayfire from `(0,1/2)` with direction `(3/5,4/5)`. `init`
completes with the one edge from `(0,1/2)` to `(3/8,1)`, mapped to element 0.
In `reinit` the child search of `refine` stops at the first child that
contains the start node, child 2 (the lower left quarter, which has
`(0,1/2)` as a corner), although the ray runs through child 4 (the upper left
quarter, from which `get_next_elem` reaches the old end node `(3/8,1)`). From
child 2 no side accepts, `get_next_elem` returns null and leaves the end
point at `(0,0)`, and the loop dereferences the null element: `reinit` fails,
having already removed the edge and the map entry of element 0 and inserted
nothing. -/
theorem reinit_fails_from_corner_child (extra : Nat) :
    rayfire_from_left_side.init quad_mesh_2x1 (1 + extra) RayfireState.initial
      = some ⟨.ok (), left_side_state, [0]⟩ ∧
    (refined_mesh_2x1 flags_one_level).children 0 = [2, 3, 4, 5] ∧
    find_child (refined_mesh_2x1 flags_one_level).toMeshBase ⟨0, 1 / 2⟩ [2, 3, 4, 5] = .ok 2 ∧
    rayfire_from_left_side.get_next_elem (refined_mesh_2x1 flags_one_level).toMeshBase 2
      ⟨0, 1 / 2⟩ ⟨0, 0⟩ = (.ok none, ⟨0, 0⟩) ∧
    (refined_mesh_2x1 flags_one_level).contains_point 4 ⟨0, 1 / 2⟩ = true ∧
    rayfire_from_left_side.get_next_elem (refined_mesh_2x1 flags_one_level).toMeshBase 4
      ⟨0, 1 / 2⟩ ⟨0, 0⟩ = (.ok none, ⟨3 / 8, 1⟩) ∧
    rayfire_from_left_side.reinit (refined_mesh_2x1 flags_one_level) (1 + extra)
      left_side_state
      = some ⟨.error "null element", ⟨left_side_state.nodes, [], 1, []⟩, [2]⟩ := by
  refine ⟨?_, rfl, by with_unfolding_all rfl, by with_unfolding_all rfl,
    by with_unfolding_all rfl, by with_unfolding_all rfl, ?_⟩
  · apply init_more_fuel
    with_unfolding_all rfl
  · apply reinit_more_fuel
    with_unfolding_all rfl

/-! ## Theorems: the kernels in double-precision arithmetic -/

theorem gradient_rounded_id {K : Type} [Field K] {n_u_dofs : Nat}
    (coeffs dphi_dxi : Fin n_u_dofs → K) :
    gradient_rounded id coeffs dphi_dxi = gradient coeffs dphi_dxi := by
  unfold gradient_rounded gradient
  rw [Fin.sum_univ_def, List.sum_eq_foldl, List.foldl_map]
  rfl

theorem stiffness_residual_rounded_id {K : Type} [Field K] {n_u_dofs : Nat} (lf A : K)
    (q : QuadraturePoint K n_u_dofs) (i : Fin n_u_dofs) :
    stiffness_residual_rounded id lf A q i = stiffness_residual lf A q i := by
  simp only [stiffness_residual_rounded, stiffness_residual, gradient_rounded_id, id]

theorem stiffness_jacobian_rounded_id {K : Type} [Field K] {n_u_dofs : Nat} (lf A : K)
    (q : QuadraturePoint K n_u_dofs) (sd rd : K) (i j : Fin n_u_dofs) :
    stiffness_jacobian_rounded id lf A q sd rd i j = stiffness_jacobian lf A q sd rd i j := by
  simp only [stiffness_jacobian_rounded, stiffness_jacobian, gradient_rounded_id, id]

theorem accumulate_rounded_id {K : Type} [LinearOrderedField K] (coord : Point K → K)
    (weight : Nat → K) (nodes : List (Point K)) :
    ∀ (i : Nat) (acc : K),
      accumulate_rounded id coord weight nodes i acc = accumulate coord weight nodes i acc := by
  induction nodes with
  | nil =>
    intro i acc
    rfl
  | cons node rest ih =>
    intro i acc
    simp only [accumulate_rounded, accumulate, id]
    exact ih _ _

theorem newton_iterate_rounded_id {K : Type} [LinearOrderedField K] (tan_theta x0 y0 : K)
    (edge_elem : EdgeElem K) (remaining : Nat) :
    ∀ xi : Option K,
      newton_iterate_rounded id tan_theta x0 y0 edge_elem remaining xi
        = newton_iterate tan_theta x0 y0 edge_elem remaining xi := by
  induction remaining with
  | zero =>
    intro xi
    rfl
  | succ n ih =>
    intro xi
    cases xi with
    | none =>
      simp only [newton_iterate_rounded, newton_iterate]
      exact ih none
    | some xi =>
      simp only [newton_iterate_rounded, newton_iterate, edge_position_rounded, edge_position,
        accumulate_rounded_id, id, ih]

theorem round_double_zero : round_double 0 = 0 := by
  simp [round_double]

theorem jacobian_rounded_sample_uw :
    (stiffness_jacobian_rounded round_double (round_double (1 / 10)) 2
      (sample_quadrature_point ℚ) 1 1 0 1).Kuw = 7430939385161319 / 18014398509481984 := by
  with_unfolding_all rfl

theorem jacobian_rounded_sample_wu :
    (stiffness_jacobian_rounded round_double (round_double (1 / 10)) 2
      (sample_quadrature_point ℚ) 1 1 1 0).Kwu = 928867423145165 / 2251799813685248 := by
  with_unfolding_all rfl

set_option maxRecDepth 20000 in
theorem newton_rounded_half_pi :
    newton_iterate_rounded round_double 16331239353195370 (1 / 2) 0
      (EdgeElem.edge2_rounded round_double ⟨1, 0⟩ ⟨1, 1⟩) 20 (some 0) = none := by
  with_unfolding_all rfl

set_option maxRecDepth 20000 in
theorem newton_rounded_three_half_pi :
    newton_iterate_rounded round_double 5443746451065123 (1 / 2) 0
      (EdgeElem.edge2_rounded round_double ⟨1, 0⟩ ⟨1, 1⟩) 20 (some 0)
      = some ⟨1, 5443746451065123 / 2⟩ := by
  with_unfolding_all rfl

/-- C17 (counterexample): in double precision the Newton loop need not
converge on a straight edge that is not parallel to the ray. For the rayfire
of the double nearest `pi/2` (`std::tan` gives `16331239353195370`), the start
point `(1/2,0)` and the vertical edge from `(1,0)` to `(1,1)`, `dX` is 0 and
`dY` is `1/2`, so `df = tan(theta)*dX - dY = -1/2` is not zero and the exact
iteration converges within two steps; with every operation rounded to a
`double` the iterates cycle and `newton_solve_intersection` returns `false`
after its 20 iterations, leaving the intersection point unwritten. -/
theorem newton_cycles_in_doubles :
    (edge_position_rounded round_double
      (EdgeElem.edge2_rounded round_double (⟨1, 0⟩ : Point ℚ) ⟨1, 1⟩) 0).2.2
      = (0, 1 / 2) ∧
    round_double (round_double (rayfire_half_pi.tan_theta * 0) - 1 / 2) ≠ 0 ∧
    rayfire_half_pi.newton_solve_intersection ⟨1 / 2, 0⟩ (EdgeElem.edge2 ⟨1, 0⟩ ⟨1, 1⟩) ⟨7, 7⟩
      = (true, ⟨1, 8165619676597685⟩) ∧
    rayfire_half_pi.newton_solve_intersection_rounded round_double ⟨1 / 2, 0⟩
      (EdgeElem.edge2_rounded round_double ⟨1, 0⟩ ⟨1, 1⟩) ⟨7, 7⟩ = (false, ⟨7, 7⟩) := by
  refine ⟨by with_unfolding_all rfl, ?_, by with_unfolding_all rfl, ?_⟩
  · have h : round_double (round_double (rayfire_half_pi.tan_theta * 0) - 1 / 2) = -1 / 2 := by
      with_unfolding_all rfl
    rw [h]
    norm_num
  · simp only [RayfireMesh.newton_solve_intersection_rounded, rayfire_half_pi,
      newton_rounded_half_pi]

/-- C27 (counterexample): in double precision the stiffness-damping Jacobian
increment is not symmetric. At the sample quadrature point with
`lambda_factor = 0.1`, `A = 2` and both derivative weights 1, the amount added
to `Kuw(0,1)` is `0.41250000000000003` and the amount added to `Kwu(1,0)` is
`0.4125000000000001`. -/
theorem stiffness_jacobian_not_symmetric_in_doubles :
    (stiffness_jacobian_rounded round_double (round_double (1 / 10)) 2
      (sample_quadrature_point ℚ) 1 1 0 1).get .u .w = 7430939385161319 / 18014398509481984 ∧
    (stiffness_jacobian_rounded round_double (round_double (1 / 10)) 2
      (sample_quadrature_point ℚ) 1 1 1 0).get .w .u = 928867423145165 / 2251799813685248 ∧
    (stiffness_jacobian_rounded round_double (round_double (1 / 10)) 2
      (sample_quadrature_point ℚ) 1 1 0 1).get .u .w
      ≠ (stiffness_jacobian_rounded round_double (round_double (1 / 10)) 2
        (sample_quadrature_point ℚ) 1 1 1 0).get .w .u := by
  refine ⟨jacobian_rounded_sample_uw, jacobian_rounded_sample_wu, ?_⟩
  show (stiffness_jacobian_rounded round_double (round_double (1 / 10)) 2
      (sample_quadrature_point ℚ) 1 1 0 1).Kuw
    ≠ (stiffness_jacobian_rounded round_double (round_double (1 / 10)) 2
      (sample_quadrature_point ℚ) 1 1 1 0).Kwu
  rw [jacobian_rounded_sample_uw, jacobian_rounded_sample_wu]
  norm_num

/-- C27 (amended): in exact arithmetic the stiffness-damping Jacobian
increment is symmetric. At every quadrature point, for all values of the
stress, the elasticity coefficient, the gradients and the two derivative
weights, over any field, what is added to `K_ab(i,j)` equals what is added to
`K_ba(j,i)`, for all components `a`, `b` and all DOF indices `i`, `j`; the
same holds of the operation-by-operation form of the loop when its rounding
is the identity. -/
theorem stiffness_jacobian_symmetric {K : Type} [Field K] {n_u_dofs : Nat} (lf A : K)
    (q : QuadraturePoint K n_u_dofs) (sd rd : K) (i j : Fin n_u_dofs) (a b : Component) :
    (stiffness_jacobian lf A q sd rd i j).get a b
      = (stiffness_jacobian lf A q sd rd j i).get b a ∧
    (stiffness_jacobian_rounded id lf A q sd rd i j).get a b
      = (stiffness_jacobian_rounded id lf A q sd rd j i).get b a := by
  have h : (stiffness_jacobian lf A q sd rd i j).get a b
      = (stiffness_jacobian lf A q sd rd j i).get b a := by
    rw [jacobian_closed_form, jacobian_closed_form]
    cases a <;> cases b <;> simp only [reduceCtorEq, if_true, if_false] <;> ring
  exact ⟨h, by rw [stiffness_jacobian_rounded_id, stiffness_jacobian_rounded_id]; exact h⟩

/-- The symmetry on the sample element in rational arithmetic: the blocks
`Kuv(0,1)` and `Kvu(1,0)` both receive `-39/80`. -/
theorem stiffness_jacobian_symmetric_sample :
    (stiffness_jacobian (1 / 10 : ℚ) 2 (sample_quadrature_point ℚ) 1 1 0 1).Kuv = -39 / 80 ∧
    (stiffness_jacobian (1 / 10 : ℚ) 2 (sample_quadrature_point ℚ) 1 1 1 0).Kvu = -39 / 80 := by
  constructor <;>
    norm_num [stiffness_jacobian, sample_quadrature_point, gradient,
      linear_law, green_strain, Fin.sum_univ_two]

/-- C29 (counterexample): a ray and the opposite ray are told apart. For the
double nearest `pi/2` and the double `pi/2 + pi`, `std::tan` gives
`16331239353195370` and `5443746451065123`; with the start point `(1/2,0)` and
the vertical edge from `(1,0)` to `(1,1)`, in double precision
`newton_solve_intersection` returns `false` for the first angle and `true`,
with the point `(1, 2721873225532561.5)`, for the second. -/
theorem newton_differs_for_opposite_ray :
    rayfire_half_pi.newton_solve_intersection_rounded round_double ⟨1 / 2, 0⟩
      (EdgeElem.edge2_rounded round_double ⟨1, 0⟩ ⟨1, 1⟩) ⟨7, 7⟩ = (false, ⟨7, 7⟩) ∧
    rayfire_three_half_pi.newton_solve_intersection_rounded round_double ⟨1 / 2, 0⟩
      (EdgeElem.edge2_rounded round_double ⟨1, 0⟩ ⟨1, 1⟩) ⟨7, 7⟩
      = (true, ⟨1, 5443746451065123 / 2⟩) ∧
    rayfire_half_pi.newton_solve_intersection_rounded round_double ⟨1 / 2, 0⟩
      (EdgeElem.edge2_rounded round_double ⟨1, 0⟩ ⟨1, 1⟩) ⟨7, 7⟩
      ≠ rayfire_three_half_pi.newton_solve_intersection_rounded round_double ⟨1 / 2, 0⟩
        (EdgeElem.edge2_rounded round_double ⟨1, 0⟩ ⟨1, 1⟩) ⟨7, 7⟩ := by
  have h1 : rayfire_half_pi.newton_solve_intersection_rounded round_double ⟨1 / 2, 0⟩
      (EdgeElem.edge2_rounded round_double ⟨1, 0⟩ ⟨1, 1⟩) ⟨7, 7⟩ = (false, ⟨7, 7⟩) := by
    simp only [RayfireMesh.newton_solve_intersection_rounded, rayfire_half_pi,
      newton_rounded_half_pi]
  have h2 : rayfire_three_half_pi.newton_solve_intersection_rounded round_double ⟨1 / 2, 0⟩
      (EdgeElem.edge2_rounded round_double ⟨1, 0⟩ ⟨1, 1⟩) ⟨7, 7⟩
      = (true, ⟨1, 5443746451065123 / 2⟩) := by
    simp only [RayfireMesh.newton_solve_intersection_rounded, rayfire_three_half_pi,
      newton_rounded_three_half_pi]
  refine ⟨h1, h2, ?_⟩
  rw [h1, h2]
  simp

theorem side_accepts_tan {K : Type} [LinearOrderedField K] (r t : RayfireMesh K)
    (htan : r.tan_theta = t.tan_theta) (mesh : MeshBase K) (cur_elem : Nat)
    (start_point : Point K) (s : Nat) :
    r.side_accepts mesh cur_elem start_point s = t.side_accepts mesh cur_elem start_point s := by
  simp only [RayfireMesh.side_accepts, htan]

/-- C29 (amended): `newton_solve_intersection` reads the direction angle only
in `tan_theta = std::tan(_theta)`. For two rayfires for which `std::tan` gives
the same value, whatever their origins, cosines and sines, and for every start
point and edge, the convergence flag and the intersection point are the same,
in exact arithmetic and with every operation rounded by any rounding `fl`;
every side of every element accepts the same point for both, and
`get_next_elem` leaves the same next point. -/
theorem newton_depends_on_tangent_only {K : Type} [LinearOrderedField K]
    (r t : RayfireMesh K) (htan : r.tan_theta = t.tan_theta) (fl : K → K) (mesh : MeshBase K)
    (cur_elem s : Nat) (start_point intersection_point next_point : Point K)
    (edge_elem : EdgeElem K) :
    r.newton_solve_intersection start_point edge_elem intersection_point
      = t.newton_solve_intersection start_point edge_elem intersection_point ∧
    r.newton_solve_intersection_rounded fl start_point edge_elem intersection_point
      = t.newton_solve_intersection_rounded fl start_point edge_elem intersection_point ∧
    r.side_accepts mesh cur_elem start_point s = t.side_accepts mesh cur_elem start_point s ∧
    (r.get_next_elem mesh cur_elem start_point next_point).2
      = (t.get_next_elem mesh cur_elem start_point next_point).2 :=
  ⟨by simp only [RayfireMesh.newton_solve_intersection, htan],
   by simp only [RayfireMesh.newton_solve_intersection_rounded, htan],
   side_accepts_tan r t htan mesh cur_elem start_point s,
   get_next_elem_from_point_tan r t htan mesh cur_elem start_point
     (mesh.n_sides cur_elem) 0 ⟨0, 0⟩ next_point⟩

/-- Witness for the amended C29: two rayfires on the 2x1 mesh from `(0,1/2)`
with the same tangent 0 and the opposite cosines 1 and -1; side 1 of element
0 accepts the point `(1,1/2)` for both. -/
theorem newton_depends_on_tangent_only_witness :
    RayfireMesh.side_accepts ⟨2, ⟨0, 1 / 2⟩, 0, 1, 0⟩ quad_mesh_2x1 0 ⟨0, 1 / 2⟩ 1
      = some ⟨1, 1 / 2⟩ ∧
    RayfireMesh.newton_solve_intersection ⟨2, ⟨0, 1 / 2⟩, (0 : ℚ), 1, 0⟩ ⟨0, 1 / 2⟩
        (quad_mesh_2x1.build_edge 0 1) ⟨7, 7⟩
      = RayfireMesh.newton_solve_intersection ⟨2, ⟨0, 1 / 2⟩, (0 : ℚ), -1, 0⟩ ⟨0, 1 / 2⟩
        (quad_mesh_2x1.build_edge 0 1) ⟨7, 7⟩ ∧
    RayfireMesh.newton_solve_intersection_rounded round_double
        ⟨2, ⟨0, 1 / 2⟩, (0 : ℚ), 1, 0⟩ ⟨0, 1 / 2⟩ (quad_mesh_2x1.build_edge 0 1) ⟨7, 7⟩
      = RayfireMesh.newton_solve_intersection_rounded round_double
        ⟨2, ⟨0, 1 / 2⟩, (0 : ℚ), -1, 0⟩ ⟨0, 1 / 2⟩ (quad_mesh_2x1.build_edge 0 1) ⟨7, 7⟩ ∧
    RayfireMesh.side_accepts ⟨2, ⟨0, 1 / 2⟩, (0 : ℚ), 1, 0⟩ quad_mesh_2x1 0 ⟨0, 1 / 2⟩ 1
      = RayfireMesh.side_accepts ⟨2, ⟨0, 1 / 2⟩, (0 : ℚ), -1, 0⟩ quad_mesh_2x1 0 ⟨0, 1 / 2⟩ 1 ∧
    (RayfireMesh.get_next_elem ⟨2, ⟨0, 1 / 2⟩, (0 : ℚ), 1, 0⟩ quad_mesh_2x1 0 ⟨0, 1 / 2⟩
        ⟨0, 0⟩).2
      = (RayfireMesh.get_next_elem ⟨2, ⟨0, 1 / 2⟩, (0 : ℚ), -1, 0⟩ quad_mesh_2x1 0 ⟨0, 1 / 2⟩
        ⟨0, 0⟩).2 :=
  ⟨by with_unfolding_all rfl,
   newton_depends_on_tangent_only ⟨2, ⟨0, 1 / 2⟩, (0 : ℚ), 1, 0⟩ ⟨2, ⟨0, 1 / 2⟩, (0 : ℚ), -1, 0⟩
     rfl round_double quad_mesh_2x1 0 1 ⟨0, 1 / 2⟩ ⟨7, 7⟩ ⟨0, 0⟩ (quad_mesh_2x1.build_edge 0 1)⟩

/-! ## Theorems: the polyline of `init` and its element map -/

end GRINS
